import Mathlib

/-!
# FlappyNavi: the simulation core, embedded in Lean

A shallow embedding of the per-tick simulation of z64me/FlappyNavi
(`collision.c`, `collider.c`, `obstacle.c`, `particle.c`, `player.c`, `timer.c`,
`world.c`, `flappy.c`) and theorems about it.

Conventions of the embedding

* `int` is `Int` (signed overflow, undefined in C, is not represented);
  `unsigned` and `uint32_t` are `Nat` with the reduction modulo
  `2 ^ 32` written out wherever the C arithmetic can wrap; `uint64_t` likewise
  modulo `2 ^ 64`.
* `float` and `double` are exact rationals (`ℚ`): the rounding error of the
  machine formats is not represented. Conversions to integers are explicit
  (`truncf`, `roundf`, `f2u32`).
* `int` flags that only ever hold 0 or 1 (`expired`, `touched`, `cleared`,
  `isDead`, ...) are `Bool`.
* A linked list is a `List`, head first; a node is named by its position.
* The game context `struct Flappy` is passed and returned explicitly.
-/

set_option autoImplicit false

namespace FlappyNavi

/-! ## common.h -/

def WINDOW_W : Int := 200
def WINDOW_H : Int := 112
def SCROLL_SPEED : ℚ := 32
def PLAYER_GRV : ℚ := 200
def PLAYER_YVEL : ℚ := -100
def FLOOR_H : Int := 11
def FLOOR_Y : Int := WINDOW_H - FLOOR_H
def COLOR_WORLD : Nat := 0xA0A0FF
def COLOR_PLAYER : Nat := 0x606000

/-- The macro `WORLD_SCROLL(X)`: `((X) * 0.001f) * SCROLL_SPEED`. -/
def WORLD_SCROLL (X : ℚ) : ℚ := (X * (1 / 1000)) * SCROLL_SPEED

/-- Subtraction of two `uint32_t` values, wrapping modulo `2 ^ 32`. -/
def sub32 (a b : Nat) : Nat := (a + (4294967296 - b % 4294967296)) % 4294967296

/-- Conversion of a `float` to `int`: the fraction is discarded (towards zero). -/
def truncf (q : ℚ) : Int := if 0 ≤ q then Rat.floor q else -Rat.floor (-q)

/-- The libm function `roundf` followed by the conversion to `int`: nearest
integer, halfway cases away from zero. -/
def roundf (q : ℚ) : Int := if 0 ≤ q then Rat.floor (q + 1 / 2) else -Rat.floor (-q + 1 / 2)

/-- Conversion of a `float` to `uint32_t`: the fraction is discarded and the
result is taken modulo `2 ^ 32` (C leaves negative and too large values
undefined; the residue is what the usual 64-bit conversion yields). -/
def f2u32 (q : ℚ) : Nat := (truncf q % 4294967296).toNat

inductive FlappyTheme where
  | FLAPPY_THEME_FOREST
  | FLAPPY_THEME_MOUNTAIN
  | FLAPPY_THEME_JABU
  | FLAPPY_THEME_WATERTEMPLE
  | FLAPPY_THEME_DESERT
  | FLAPPY_THEME_TERMINA
  | FLAPPY_THEME_MAX
deriving DecidableEq

inductive FlappyState where
  | FLAPPY_STATE_TITLE
  | FLAPPY_STATE_PLAYING
  | FLAPPY_STATE_GAMEOVER
  | FLAPPY_STATE_MAX
deriving DecidableEq

inductive ParticleType where
  | PARTICLE_SPARKLE_BLUE
  | PARTICLE_SPARKLE_GRAY
  | PARTICLE_SPARKLE_YELLOW
  | PARTICLE_SPARKLE_PURPLE
  | PARTICLE_DEATH
  | PARTICLE_MAX
deriving DecidableEq

open FlappyTheme FlappyState ParticleType

/-- The SDL rectangle: four `int` fields. -/
structure SDL_Rect where
  x : Int
  y : Int
  w : Int
  h : Int
deriving DecidableEq

/-- The bit-fields of `struct Input` that the simulation reads. -/
structure Input where
  quit : Bool
  space : Bool
  mouseDown : Bool
  clicked : Bool
deriving DecidableEq

/-- A callback function pointer (`ColliderCallback *`), named by a number; a
callback table says what the function behind each pointer does. -/
abbrev ColliderCallback := Nat

/-- The node `struct Collider` of collider.c. `inst` is the `instance` pointer
(0 is NULL), `rect` is `init.shape.rect` (`init.type` is always
`COLLIDER_TYPE_RECT`, the only shape). -/
structure Collider where
  inst : Nat
  rect : SDL_Rect
  expired : Bool
  touched : Bool
  color : Nat
  group : Nat
  cb : Option ColliderCallback
deriving DecidableEq

/-- The node `struct Obstacle` of obstacle.c. -/
structure Obstacle where
  upper : SDL_Rect
  lower : SDL_Rect
  x : ℚ
  y : ℚ
  ticks : Nat
  expired : Bool
  cleared : Bool

/-- The node `struct Particle` of particle.c; `anim` names the entry of the
animation table it points to. -/
structure Particle where
  ticks : Nat
  x : ℚ
  y : ℚ
  expired : Bool
  anim : ParticleType

/-- The record `struct Parabola` of player.c. -/
structure Parabola where
  y : ℚ
  ticks : Nat

/-- The record `struct Player` of player.c (the fairy sprites, used only for
drawing, are left out). `ghost` is the array `ghost[GHOST_MAX]`, entry 0 first;
an entry beyond the end of the list reads as the zero record. -/
structure Player where
  x : ℚ
  y : ℚ
  ghost : List Parabola
  parabola : Parabola
  mouseUp : Bool
  isDead : Bool

/-- The record `struct Timer` of timer.c. -/
structure Timer where
  ticks : ℚ
  prev : Nat
  now : Nat
  start : Nat

/-- The game context `struct Flappy` of common.h, without the SDL handles.
`rnd_pcg` is the generator: the stream of the values it is going to return.
`last` is the function-static array `last[16]` of `ObstaclePush`. -/
structure Flappy where
  player : Player
  timer : Timer
  obstacleList : List Obstacle
  particleList : List Particle
  colliderList : List Collider
  rnd_pcg : Nat → Nat
  input : Input
  theme : FlappyTheme
  state : FlappyState
  paused : Bool
  scale : Nat
  highscoreNew : Bool
  highscore : Nat
  score : Nat
  buttonhover : Bool
  playerflapped : Bool
  jabuHazardActive : Bool
  ticks : Nat
  stateTicks : Nat
  stateStartTime : Nat
  themeTicks : Nat
  themeStartTime : Nat
  last : List Nat

/-- The pool idiom shared by the three `...Push` functions: walk the list to
the first node for which `expired` holds and set that node up in place; `none`
when the list has no such node (the caller then links a new node at the head). -/
def poolReuse {α : Type} (expired : α → Bool) (setup : α → α) : List α → Option (List α)
  | [] => none
  | a :: as =>
    if expired a then some (setup a :: as)
    else (poolReuse expired setup as).map (fun r => a :: r)

/-- Apply `f` to the node at position `n`, leaving the other nodes alone. -/
def modifyNth {α : Type} (f : α → α) : List α → Nat → List α
  | [], _ => []
  | a :: as, 0 => f a :: as
  | a :: as, n + 1 => a :: modifyNth f as n

/-! ## collision.c -/

/-- Rectangle-rectangle collision; the C function returns 0 or 1. -/
def CollisionRectRect (a b : SDL_Rect) : Bool :=
  if a.x + a.w < b.x ∨ a.y + a.h < b.y ∨ a.x > b.x + b.w ∨ a.y > b.y + b.h then false
  else true

/-- Point-rectangle collision; the C function returns the value of the `&&`
chain, 0 or 1. -/
def CollisionPointRect (x y : Int) (rect : SDL_Rect) : Bool :=
  decide (x > rect.x) && decide (x < rect.x + rect.w) && decide (y > rect.y)
    && decide (y < rect.y + rect.h)

/-! ## collider.c -/

/-- What one pass of `ColliderArenaProcess` does, in order: `touched c t` is
the statement `c->touched = touch->touched = 1` for the colliders at positions
`c` (the one the loop is at) and `t` (the one `Touch` found); `called k` is an
invocation of the callback of the collider at position `k`. -/
inductive ArenaEvent where
  | touched (c t : Nat)
  | called (k : Nat)
deriving DecidableEq

def ColorTweak (color : Nat) : Nat := Nat.xor color 0xffffffff

/-- The `for` loop of `Touch`: the position of the first node, from position
`i` on, that is not expired, is not `self`, has another group and whose
rectangle collides with the one of `self`. -/
def Touch.scan (self : Collider) (selfIdx : Nat) : List Collider → Nat → Option Nat
  | [], _ => none
  | c :: cs, i =>
    if c.expired || i == selfIdx || c.group == self.group then Touch.scan self selfIdx cs (i + 1)
    else if CollisionRectRect self.rect c.rect then some i
    else Touch.scan self selfIdx cs (i + 1)

/-- The function `Touch(game, this)`, `this` being the node at position
`selfIdx` of the collider list; `none` is the NULL result. -/
def Touch (colliderList : List Collider) (selfIdx : Nat) : Option Nat :=
  match colliderList.get? selfIdx with
  | none => none
  | some self =>
    if self.expired || self.touched then none
    else Touch.scan self selfIdx colliderList 0

/-- The function `ColliderInitRect`: the rectangle scaled by `game->scale`. -/
def ColliderInitRect (g : Flappy) (x y w h : ℚ) : SDL_Rect :=
  { x := roundf (x * g.scale), y := roundf (y * g.scale),
    w := roundf (w * g.scale), h := roundf (h * g.scale) }

def ColliderArenaInit (g : Flappy) : Flappy :=
  { g with colliderList := g.colliderList.map (fun c => { c with expired := true }) }

def ColliderArenaPush (g : Flappy) (inst : Nat) (cb : Option ColliderCallback) (color : Nat)
    (init : SDL_Rect) : Flappy :=
  let fresh : Collider :=
    { inst := inst, rect := init, expired := false, touched := false, color := color,
      group := color, cb := cb }
  match poolReuse (fun c => c.expired) (fun _ => fresh) g.colliderList with
  | some l => { g with colliderList := l }
  | none => { g with colliderList := fresh :: g.colliderList }

/-- The two colour tweaks and the statement `c->touched = touch->touched = 1`. -/
def ColliderArenaProcess.mark (l : List Collider) (c t : Nat) : List Collider :=
  let m : Collider → Collider := fun k => { k with color := ColorTweak k.color, touched := true }
  modifyNth m (modifyNth m l c) t

/-- The statement `if (k->cb) k->cb(game, k->instance)` for the node at
position `k`. -/
def ColliderArenaProcess.invoke (cbs : ColliderCallback → Flappy → Nat → Flappy) (g : Flappy)
    (k : Nat) : Flappy × List ArenaEvent :=
  match g.colliderList.get? k with
  | none => (g, [])
  | some c =>
    match c.cb with
    | none => (g, [])
    | some f => (cbs f g c.inst, [ArenaEvent.called k])

/-- The body of the `for` loop of `ColliderArenaProcess`, for the node at
position `c`. -/
def ColliderArenaProcess.body (cbs : ColliderCallback → Flappy → Nat → Flappy) (g : Flappy)
    (c : Nat) : Flappy × List ArenaEvent :=
  match Touch g.colliderList c with
  | none => (g, [])
  | some t =>
    let g1 := { g with colliderList := ColliderArenaProcess.mark g.colliderList c t }
    let r2 := ColliderArenaProcess.invoke cbs g1 t
    let r3 := ColliderArenaProcess.invoke cbs r2.1 c
    (r3.1, ArenaEvent.touched c t :: (r2.2 ++ r3.2))

/-- The first `n` iterations of the `for` loop of `ColliderArenaProcess`: the
game they leave and the events so far. Nodes are named by position, which is
exact as long as the callbacks leave the collider list in place (the callback
of this repository, `OnTouchWorld`, does). -/
def ColliderArenaProcess.iter (cbs : ColliderCallback → Flappy → Nat → Flappy) (g : Flappy) :
    Nat → Flappy × List ArenaEvent
  | 0 => (g, [])
  | n + 1 =>
    let r := ColliderArenaProcess.iter cbs g n
    let s := ColliderArenaProcess.body cbs r.1 n
    (s.1, r.2 ++ s.2)

/-- The function `ColliderArenaProcess`, with the events of the pass. -/
def ColliderArenaProcess (cbs : ColliderCallback → Flappy → Nat → Flappy) (g : Flappy) :
    Flappy × List ArenaEvent :=
  ColliderArenaProcess.iter cbs g g.colliderList.length

/-! ## timer.c -/

/-- The function `TimerAdvance`. `freq` is `SDL_GetPerformanceFrequency()` and
`counter` the sample `SDL_GetPerformanceCounter()` taken by this call. -/
def TimerAdvance (freq counter : Nat) (timer : Timer) (isPaused : Bool) : Timer :=
  let ticks : ℚ :=
    if !isPaused then
      timer.ticks +
        ((((timer.now + (18446744073709551616 - timer.prev % 18446744073709551616))
            % 18446744073709551616) * 1000 % 18446744073709551616 : Nat) : ℚ) / (freq : ℚ)
    else timer.ticks
  { timer with
    ticks := ticks
    prev := timer.now
    now := (counter + (18446744073709551616 - timer.start % 18446744073709551616))
      % 18446744073709551616 }

/-- The function `TimerGetTicks`: the `double` converted to `uint32_t`. -/
def TimerGetTicks (timer : Timer) : Nat := f2u32 timer.ticks

/-! ## particle.c -/

def ParticlePush (g : Flappy) (type : ParticleType) (x y : ℚ) : Flappy :=
  let fresh : Particle := { ticks := g.ticks, x := x, y := y, expired := false, anim := type }
  match poolReuse (fun p => p.expired) (fun _ => fresh) g.particleList with
  | some l => { g with particleList := l }
  | none => { g with particleList := fresh :: g.particleList }

/-- The macros `WIDTH` and `HEIGHT` of particle.c: the size of an animation
frame. -/
def WIDTH : Int := 32
def HEIGHT : Int := 32

/-- The record `struct Frame` of particle.c; `dur` is a `uint32_t`. -/
structure Frame where
  row : Int
  col : Int
  dur : Nat
deriving DecidableEq

def PLAYER_PARTFREQ : Nat := 100
def SPARKLE_SPEED : Nat := PLAYER_PARTFREQ * 2
def DEATH_SPEED : Nat := 125

/-- The table `anim[]` of particle.c. Each array ends with the frame
`{ -1, -1, -1 }`, whose `dur` is `(uint32_t)-1`. The table has no entry for
`PARTICLE_MAX` (`ParticlePush` asserts `type < PARTICLE_MAX`). -/
def anim : ParticleType → List Frame
  | PARTICLE_SPARKLE_BLUE =>
    [⟨1, 0, SPARKLE_SPEED⟩, ⟨1, 1, SPARKLE_SPEED⟩, ⟨1, 2, SPARKLE_SPEED⟩, ⟨-1, -1, 4294967295⟩]
  | PARTICLE_SPARKLE_GRAY =>
    [⟨2, 0, SPARKLE_SPEED⟩, ⟨2, 1, SPARKLE_SPEED⟩, ⟨2, 2, SPARKLE_SPEED⟩, ⟨-1, -1, 4294967295⟩]
  | PARTICLE_SPARKLE_YELLOW =>
    [⟨3, 0, SPARKLE_SPEED⟩, ⟨3, 1, SPARKLE_SPEED⟩, ⟨1, 2, SPARKLE_SPEED⟩, ⟨-1, -1, 4294967295⟩]
  | PARTICLE_SPARKLE_PURPLE =>
    [⟨3, 2, SPARKLE_SPEED⟩, ⟨3, 3, SPARKLE_SPEED⟩, ⟨1, 2, SPARKLE_SPEED⟩, ⟨-1, -1, 4294967295⟩]
  | PARTICLE_DEATH =>
    [⟨0, 0, DEATH_SPEED⟩, ⟨0, 1, DEATH_SPEED⟩, ⟨0, 2, DEATH_SPEED⟩, ⟨0, 3, DEATH_SPEED⟩,
      ⟨-1, -1, 4294967295⟩]
  | PARTICLE_MAX => []

/-- The inner `for` loop of `ParticleDrawAll` over the frames from `f` on, with
the variable `walk` (a `uint32_t`): the frame the loop breaks at, `none` when it
reaches a frame with `row < 0`. -/
def ParticleDrawAll.frame (ticks : Nat) : List Frame → Nat → Option Frame
  | [], _ => none
  | f :: fs, walk =>
    if f.row < 0 then none
    else if ticks ≥ walk ∧ ticks < (walk + f.dur) % 4294967296 then some f
    else ParticleDrawAll.frame ticks fs ((walk + f.dur) % 4294967296)

/-- One turn of the outer loop of `ParticleDrawAll`: the node afterwards and
the call of `TextureDraw` it makes, if any (clipping rectangle, `x`, `y`). -/
def ParticleDrawAll.visit (g : Flappy) (p : Particle) : Particle × List (SDL_Rect × ℚ × ℚ) :=
  let ticks : Nat := sub32 g.ticks p.ticks
  let x : ℚ := p.x - ((WIDTH / 2 : Int) : ℚ) - WORLD_SCROLL (ticks : ℚ)
  let y : ℚ := p.y - ((HEIGHT / 2 : Int) : ℚ)
  if p.expired then (p, [])
  else
    match ParticleDrawAll.frame ticks (anim p.anim) 0 with
    | none => ({ p with expired := true }, [])
    | some f => (p, [({ x := f.col * WIDTH, y := f.row * HEIGHT, w := WIDTH, h := HEIGHT }, x, y)])

/-- The function `ParticleDrawAll`: the game with the particles that reached
the end of their animation expired, and the calls of `TextureDraw` in order. -/
def ParticleDrawAll (g : Flappy) : Flappy × List (SDL_Rect × ℚ × ℚ) :=
  ({ g with particleList := g.particleList.map (fun p => (ParticleDrawAll.visit g p).1) },
    g.particleList.flatMap (fun p => (ParticleDrawAll.visit g p).2))

/-! ## flappy.c, first part -/

/-- The function `FlappyRand`: the next 32-bit value of the generator and the
game with the generator advanced. -/
def FlappyRand (g : Flappy) : Nat × Flappy :=
  (g.rnd_pcg 0 % 4294967296, { g with rnd_pcg := fun n => g.rnd_pcg (n + 1) })

def FlappyGameOver (g : Flappy) : Flappy :=
  let g1 := { g with highscoreNew := false }
  let g2 := if g1.score > g1.highscore then { g1 with highscore := g1.score, highscoreNew := true }
    else g1
  { g2 with state := FLAPPY_STATE_GAMEOVER, paused := false, stateStartTime := g2.ticks,
            stateTicks := 0 }

/-! ## player.c -/

def GHOST_MAX : Nat := 64

/-- The entry `ghost[i]` of the ring. -/
def Player.ghostAt (player : Player) (i : Nat) : Parabola :=
  player.ghost.getD i { y := 0, ticks := 0 }

/-- The function `ParabolaMotion`. -/
def ParabolaMotion (p : Parabola) (milliseconds : Nat) : ℚ :=
  let seconds : ℚ := (milliseconds : ℚ) * (1 / 1000)
  PLAYER_GRV * seconds ^ 2 + PLAYER_YVEL * seconds + p.y

def ConvertCenter (x y : ℚ) : ℚ × ℚ := (x + 16 / 2, y + 8 / 2)

def PlayerGetCenter (player : Player) : ℚ × ℚ := ConvertCenter player.x player.y

def PlayerGetX (player : Player) : ℚ := player.x

def PlayerSetPos (player : Player) (x y : ℚ) : Player := { player with x := x, y := y }

/-- The function `PlayerInit`; the two coordinates are the integer quotients
`(WINDOW_W - 16) / 2` and `(WINDOW_H - 20) / 2`. -/
def PlayerInit (g : Flappy) : Flappy :=
  { g with player := { PlayerSetPos g.player 92 46 with isDead := false } }

/-- The statements of `OnTouchWorld` that follow its assertions, `player` being
the player of the game, `game->player`: the one `struct Player` there is. -/
def OnTouchWorld.run (g : Flappy) : Flappy :=
  let g1 := { g with player := { g.player with isDead := true } }
  let c := PlayerGetCenter g1.player
  let g2 := ParticlePush g1 PARTICLE_DEATH c.1 c.2
  FlappyGameOver g2

/-- The callback `OnTouchWorld(game, instance)`. An instance pointer is a
number: 0 is NULL and 1 is `&game->player`, the instance `PlayerUpdate`
registers. With NULL the statement `assert(player)` stops the program, and no
other instance is a player: the result is `none`. -/
def OnTouchWorld (g : Flappy) (inst : Nat) : Option Flappy :=
  if inst = 1 then some (OnTouchWorld.run g) else none

/-- The pointer `OnTouchWorld` as it is stored in a collider. -/
def OnTouchWorld_ptr : ColliderCallback := 1

/-- The callback table of the program, for a pass whose calls return:
`OnTouchWorld` is the only function of the repository that is ever registered
as a collider callback, and the table gives what it leaves when its assertion
holds, that is, when the instance is the player (`OnTouchWorld_player`). Every
collider that a tick registers with a callback carries that instance
(`register_instances`). -/
def callbacks : ColliderCallback → Flappy → Nat → Flappy := fun _ g _ => OnTouchWorld.run g

/-- The `for` loop of `GhostY`: from entry `p` on, the first entry whose
window `[ghost[p].ticks, ghost[p-1].ticks)` holds `t`; `GHOST_MAX` stands for
`ghostEnd`. `fuel` bounds the number of entries still to test. -/
def GhostY.scan (player : Player) (t : Nat) : Nat → Nat → Nat
  | 0, _ => GHOST_MAX
  | fuel + 1, p =>
    if t ≥ (player.ghostAt p).ticks ∧ t < (player.ghostAt (p - 1)).ticks then p
    else GhostY.scan player t fuel (p + 1)

/-- The function `GhostY`: the height, and the value written through `since`. -/
def GhostY (g : Flappy) (player : Player) (x : ℚ) : ℚ × Nat :=
  let ago : Nat := f2u32 (((player.x - x) / SCROLL_SPEED) * 1000)
  let t : Nat := sub32 g.ticks ago
  let p : Nat := if t < (player.ghostAt 0).ticks then GhostY.scan player t (GHOST_MAX - 1) 1 else 0
  if p = GHOST_MAX ∨ (player.ghostAt p).ticks = 0 then ((WINDOW_H * 2 : Int), 0)
  else
    let along : Nat := sub32 t (player.ghostAt p).ticks
    (ParabolaMotion (player.ghostAt p) along, along)

/-- The function `GhostPush`: every entry moves one place along, the last one
is lost, the new record becomes entry 0. -/
def GhostPush (player : Player) (parabola : Parabola) : Player :=
  { player with ghost := (parabola :: player.ghost).take GHOST_MAX }

/-- The rectangle of the player's collider, as `PlayerUpdate` registers it:
`ColliderInitRect(game, player->x + 4, player->y + 4, 8, 4)`. -/
def PlayerUpdate.rect (g : Flappy) : SDL_Rect :=
  ColliderInitRect g (g.player.x + 4) (g.player.y + 4) 8 4

def PlayerUpdate (g : Flappy) : Flappy :=
  if g.player.isDead then g
  else if g.state ≠ FLAPPY_STATE_PLAYING then g
  else
    let player1 : Player :=
      if g.playerflapped then
        { g.player with
          y := ParabolaMotion g.player.parabola (sub32 g.ticks g.player.parabola.ticks) }
      else g.player
    let flap : Bool := !g.buttonhover && player1.mouseUp && g.input.mouseDown
    let player2 : Player :=
      if flap then
        let cleared : Player :=
          if !g.playerflapped then
            { player1 with ghost := List.replicate GHOST_MAX { y := 0, ticks := 0 } }
          else player1
        let current : Parabola := { ticks := g.ticks, y := cleared.y }
        GhostPush { cleared with parabola := current } current
      else player1
    let g1 : Flappy := if flap then { g with playerflapped := true } else g
    let player3 : Player := { player2 with mouseUp := !g.input.mouseDown }
    let g2 : Flappy := { g1 with player := player3 }
    ColliderArenaPush g2 1 (some OnTouchWorld_ptr) COLOR_PLAYER (PlayerUpdate.rect g2)

/-! ## obstacle.c -/

def OB_W : Int := 16
def OB_H : Int := 64
def OB_GAP : Int := 24
def OB_DIST : Int := 48

/-- The table `yArray` of `ObstaclePush`: low, medium, high. -/
def yArray : List Int := [76, 50, 25]

/-- The entry `last[i]` of the history. -/
def Flappy.lastAt (g : Flappy) (i : Nat) : Nat := g.last.getD i 0

/-- The counting loop of `ObstaclePush`: how many of the 16 history entries
equal `v`. -/
def ObstaclePush.common (g : Flappy) (v : Nat) : Nat :=
  ((List.range 16).filter (fun i => g.lastAt i == v)).length

/-- The failsafe `switch` of `ObstaclePush`, entered when the replacement
still equals `last[0]`: high becomes low, low becomes high, any other value is
decided by one more draw. -/
def ObstaclePush.failsafe (v : Nat) (g : Flappy) : Nat × Flappy :=
  if v = 2 then (0, g)
  else if v = 0 then (2, g)
  else
    let r := FlappyRand g
    ((if r.1 % 2 = 1 then 2 else 0), r.2)

/-- The value the three-way `if` of `ObstaclePush` assigns to `this`: the
source writes `this = common[k]` for the least common category `k`, that is
the count of `k` in the history, not `k`. -/
def ObstaclePush.leastCommon (g : Flappy) : Nat :=
  if ObstaclePush.common g 0 < ObstaclePush.common g 1
      ∧ ObstaclePush.common g 0 < ObstaclePush.common g 2 then ObstaclePush.common g 0
  else if ObstaclePush.common g 1 < ObstaclePush.common g 0
      ∧ ObstaclePush.common g 1 < ObstaclePush.common g 2 then ObstaclePush.common g 1
  else ObstaclePush.common g 2

/-- The block `if (this == last[0] && this == last[1]) { ... }` of
`ObstaclePush`, `v` being the value of `this` on entry. -/
def ObstaclePush.streak (v : Nat) (g : Flappy) : Nat × Flappy :=
  if v = g.lastAt 0 ∧ v = g.lastAt 1 then
    let b : Nat × Flappy :=
      if ObstaclePush.leastCommon g = g.lastAt 0 then
        ObstaclePush.failsafe (ObstaclePush.leastCommon g) g
      else (ObstaclePush.leastCommon g, g)
    (b.1 % 3, b.2)
  else (v, g)

/-- The block `if (game->theme == FLAPPY_THEME_JABU) { ... }` of
`ObstaclePush`, `v` being the value of `this` on entry. -/
def ObstaclePush.jabu (v : Nat) (g : Flappy) : Nat × Flappy :=
  if g.theme = FLAPPY_THEME_JABU then
    (if g.jabuHazardActive then (2, g)
     else
      let r := FlappyRand g
      ((if r.1 % 2 = 1 then 1 else 0), r.2))
  else (v, g)

/-- The part of `ObstaclePush` from the first draw to the update of the
history: the resolved value of `this` and the game with the generator advanced
and the history shifted (`memmove`, then `last[0] = this`). -/
def ObstaclePush.resolve (g : Flappy) : Nat × Flappy :=
  let r := FlappyRand g
  let a := ObstaclePush.streak (r.1 % 3) r.2
  let c := ObstaclePush.jabu a.1 a.2
  (c.1, { c.2 with last := (c.1 :: c.2.last).take 16 })

/-- The function `ObstaclePush`. The node is chosen and set up as in the
source; the assignment `ob->y = yArray[this]`, which the source makes last, is
part of the same set-up here. A node from `calloc` is all zero. -/
def ObstaclePush (g : Flappy) : Flappy :=
  let r := ObstaclePush.resolve g
  let setup : Obstacle → Obstacle := fun ob =>
    { ob with
      upper := { x := -100, y := -100, w := OB_W, h := OB_H }
      lower := { x := -100, y := -100, w := OB_W, h := OB_H }
      expired := false
      ticks := g.ticks
      cleared := false
      y := ((yArray.getD r.1 0 : Int) : ℚ) }
  let zero : Obstacle :=
    { upper := { x := 0, y := 0, w := 0, h := 0 }, lower := { x := 0, y := 0, w := 0, h := 0 },
      x := 0, y := 0, ticks := 0, expired := false, cleared := false }
  match poolReuse (fun ob => ob.expired) setup g.obstacleList with
  | some l => { r.2 with obstacleList := l }
  | none => { r.2 with obstacleList := setup zero :: g.obstacleList }

def ObstacleResetAll (g : Flappy) : Flappy :=
  { g with obstacleList := g.obstacleList.map (fun ob => { ob with expired := true }) }

/-- The position `ob->x` that `ObstacleUpdateAll` computes for a node. -/
def ObstacleUpdateAll.x (g : Flappy) (ob : Obstacle) : ℚ :=
  ((WINDOW_W + OB_W : Int) : ℚ) - WORLD_SCROLL ((sub32 g.ticks ob.ticks : Nat) : ℚ)

/-- The test `ob->x < -OB_W` of `ObstacleUpdateAll`: the node has scrolled off
the left edge. -/
def ObstacleUpdateAll.offScreen (g : Flappy) (ob : Obstacle) : Bool :=
  decide (ObstacleUpdateAll.x g ob < ((-OB_W : Int) : ℚ))

/-- The condition under which the loop of `ObstacleUpdateAll` credits a live,
on-screen node to the score. -/
def ObstacleUpdateAll.scores (g : Flappy) (ob : Obstacle) : Bool :=
  decide (g.state = FLAPPY_STATE_PLAYING) && !ob.cleared
    && decide (ObstacleUpdateAll.x g ob + (OB_W : ℚ) < PlayerGetX g.player)

/-- One turn of the loop of `ObstacleUpdateAll`, for the node `ob`: the game
(score and colliders), the variable `rightmost` and the node afterwards. -/
def ObstacleUpdateAll.visit (g : Flappy) (rightmost : Int) (ob : Obstacle) :
    Flappy × Int × Obstacle :=
  if ob.expired then (g, rightmost, ob)
  else
    let x : ℚ := ObstacleUpdateAll.x g ob
    let ob1 : Obstacle := { ob with x := x }
    let rightmost1 : Int := if x > (rightmost : ℚ) then truncf x else rightmost
    if ObstacleUpdateAll.offScreen g ob then (g, rightmost1, { ob1 with expired := true })
    else
      let scored : Bool := ObstacleUpdateAll.scores g ob
      let ob2 : Obstacle := if scored then { ob1 with cleared := true } else ob1
      let g1 : Flappy := if scored then { g with score := (g.score + 1) % 4294967296 } else g
      let hi : SDL_Rect :=
        { x := truncf x, y := truncf (ob2.y - ((OB_GAP / 2 + OB_H : Int) : ℚ)), w := OB_W, h := OB_H }
      let lo : SDL_Rect :=
        { x := truncf x, y := truncf (ob2.y + ((OB_GAP / 2 : Int) : ℚ)), w := OB_W, h := OB_H }
      let ob3 : Obstacle := { ob2 with upper := hi, lower := lo }
      let g2 := ColliderArenaPush g1 0 none COLOR_WORLD (ColliderInitRect g1 x hi.y hi.w hi.h)
      let g3 := ColliderArenaPush g2 0 none COLOR_WORLD
        (ColliderInitRect g2 x lo.y lo.w ((FLOOR_Y - lo.y : Int) : ℚ))
      (g3, rightmost1, ob3)

/-- The `for` loop of `ObstacleUpdateAll` over the nodes of the list. -/
def ObstacleUpdateAll.loop : List Obstacle → Flappy → Int → Flappy × Int × List Obstacle
  | [], g, rightmost => (g, rightmost, [])
  | ob :: obs, g, rightmost =>
    let r := ObstacleUpdateAll.visit g rightmost ob
    let s := ObstacleUpdateAll.loop obs r.1 r.2.1
    (s.1, s.2.1, r.2.2 :: s.2.2)

/-- The game after the `for` loop of `ObstacleUpdateAll`, and `rightmost`. -/
def ObstacleUpdateAll.scroll (g : Flappy) : Flappy × Int :=
  let r := ObstacleUpdateAll.loop g.obstacleList g 0
  ({ r.1 with obstacleList := r.2.2 }, r.2.1)

def ObstacleUpdateAll (g : Flappy) : Flappy :=
  let r := ObstacleUpdateAll.scroll g
  if r.2 < WINDOW_W - OB_DIST then ObstaclePush r.1 else r.1

/-! ## world.c -/

def JABU_FREQ : Nat := 10000
def JABU_SPEED : Nat := 1500
def JABU_TIME : Nat := 1500
def JABU_CYCLE : Nat := JABU_FREQ + JABU_SPEED * 2 + JABU_TIME

/-- The function `JabuHazardHeight`: the height, and the game with
`jabuHazardActive` set. `sinq p` stands for the libm value `sin(p * M_PI_2)`,
which has no exact rational form. -/
def JabuHazardHeight (sinq : ℚ → ℚ) (g : Flappy) : ℚ × Flappy :=
  let lo : ℚ := (WINDOW_H : ℚ)
  let hi : ℚ := 48
  let diff : ℚ := lo - hi
  let g0 := { g with jabuHazardActive := false }
  if g.state ≠ FLAPPY_STATE_GAMEOVER ∧ g.state ≠ FLAPPY_STATE_PLAYING then (lo, g0)
  else
    let ticks0 : Nat :=
      if g.state = FLAPPY_STATE_GAMEOVER then g.themeTicks else min g.themeTicks g.stateTicks
    let ticks1 : Nat := ticks0 % JABU_CYCLE
    if ticks1 < JABU_FREQ then
      (lo, if ticks1 ≥ JABU_FREQ / 2 then { g0 with jabuHazardActive := true } else g0)
    else
      let ticks2 : Nat := ticks1 - JABU_FREQ
      if ticks2 ≥ JABU_SPEED ∧ ticks2 ≤ JABU_SPEED + JABU_TIME then (hi, g0)
      else if ticks2 ≥ JABU_SPEED + JABU_TIME then
        (hi + diff * (sinq ((((ticks2 : ℚ) - ((JABU_SPEED + JABU_TIME : Nat) : ℚ))
            / (JABU_SPEED : ℚ)) - 1) + 1), g0)
      else
        (lo - diff * sinq ((ticks2 : ℚ) / (JABU_SPEED : ℚ)), { g0 with jabuHazardActive := true })

def WorldDoHazards (sinq : ℚ → ℚ) (g : Flappy) : Flappy :=
  if g.theme = FLAPPY_THEME_JABU then
    let r := JabuHazardHeight sinq g
    ColliderArenaPush r.2 0 none COLOR_WORLD
      (ColliderInitRect r.2 0 (r.1 + 4) (WINDOW_W : ℚ) (WINDOW_H : ℚ))
  else g

/-! ## flappy.c, second part -/

/-- The timer statements at the start of `FlappyUpdate`. -/
def FlappyUpdate.timers (freq counter : Nat) (g : Flappy) : Flappy :=
  let timer := TimerAdvance freq counter g.timer g.paused
  let ticks := TimerGetTicks timer
  { g with
    timer := timer
    ticks := ticks
    stateTicks := sub32 ticks g.stateStartTime
    themeTicks := sub32 ticks g.themeStartTime }

/-- The rectangle of the ceiling collider:
`ColliderInitRect(game, 0, -WINDOW_H, WINDOW_W, WINDOW_H)`. -/
def FlappyUpdate.ceilingRect (g : Flappy) : SDL_Rect :=
  ColliderInitRect g 0 ((-WINDOW_H : Int) : ℚ) (WINDOW_W : ℚ) (WINDOW_H : ℚ)

/-- The rectangle of the floor collider:
`ColliderInitRect(game, 0, FLOOR_Y, WINDOW_W, WINDOW_H)`. -/
def FlappyUpdate.floorRect (g : Flappy) : SDL_Rect :=
  ColliderInitRect g 0 (FLOOR_Y : ℚ) (WINDOW_W : ℚ) (WINDOW_H : ℚ)

/-- The function `FlappyUpdate` up to, not including, the call of
`ColliderArenaProcess`: timers, arena reset and every registration of the
tick. -/
def FlappyUpdate.register (sinq : ℚ → ℚ) (freq counter : Nat) (g : Flappy) : Flappy :=
  let g1 := FlappyUpdate.timers freq counter g
  let g2 := if g1.state = FLAPPY_STATE_TITLE then PlayerInit g1 else g1
  let g3 := ColliderArenaInit g2
  let g4 := ColliderArenaPush g3 0 none COLOR_WORLD (FlappyUpdate.ceilingRect g3)
  let g5 := ColliderArenaPush g4 0 none COLOR_WORLD (FlappyUpdate.floorRect g4)
  let g6 := WorldDoHazards sinq g5
  let g7 := if g6.state ≠ FLAPPY_STATE_TITLE then ObstacleUpdateAll g6 else g6
  PlayerUpdate g7

/-- The function `FlappyUpdate`. `freq` and `counter` are the values the two
SDL performance-counter calls of `TimerAdvance` return in this tick. -/
def FlappyUpdate (sinq : ℚ → ℚ) (freq counter : Nat) (g : Flappy) : Flappy :=
  (ColliderArenaProcess callbacks (FlappyUpdate.register sinq freq counter g)).1

def FlappyStartGame (g : Flappy) : Flappy :=
  let g1 :=
    { g with playerflapped := false, paused := false, score := 0, jabuHazardActive := false,
             state := FLAPPY_STATE_PLAYING }
  let g2 := ObstacleResetAll (PlayerInit g1)
  { g2 with themeStartTime := g2.ticks, stateStartTime := g2.ticks, stateTicks := 0 }

/-- The function `FlappyGoTitle`. -/
def FlappyGoTitle (g : Flappy) : Flappy :=
  let g1 := FlappyStartGame g
  { g1 with state := FLAPPY_STATE_TITLE, stateStartTime := g1.ticks, stateTicks := 0 }

/-- The function `FlappyGamePause`. -/
def FlappyGamePause (g : Flappy) : Flappy := { g with paused := !g.paused }

/-- The theme `(theme + 1) % FLAPPY_THEME_MAX`, as `FlappyNextTheme` computes
it on the value of the enumeration (`FLAPPY_THEME_MAX` is 6). -/
def FlappyTheme.next : FlappyTheme → FlappyTheme
  | FLAPPY_THEME_FOREST => FLAPPY_THEME_MOUNTAIN
  | FLAPPY_THEME_MOUNTAIN => FLAPPY_THEME_JABU
  | FLAPPY_THEME_JABU => FLAPPY_THEME_WATERTEMPLE
  | FLAPPY_THEME_WATERTEMPLE => FLAPPY_THEME_DESERT
  | FLAPPY_THEME_DESERT => FLAPPY_THEME_TERMINA
  | FLAPPY_THEME_TERMINA => FLAPPY_THEME_FOREST
  | FLAPPY_THEME_MAX => FLAPPY_THEME_MOUNTAIN

/-- The function `FlappyNextTheme`. -/
def FlappyNextTheme (g : Flappy) : Flappy :=
  { g with jabuHazardActive := false, themeStartTime := g.ticks, theme := g.theme.next }

/-- The state `FlappyNew` builds: the context and the player come zeroed from
`calloc`, the static history of `ObstaclePush` is zero, the generator is seeded
(`rnd` is the stream it will produce), `scale` is the window scale chosen and
`start` the counter sample `TimerNew` stores. -/
def FlappyNew (rnd : Nat → Nat) (scale start : Nat) : Flappy :=
  { player :=
      { x := 0, y := 0, ghost := List.replicate GHOST_MAX { y := 0, ticks := 0 },
        parabola := { y := 0, ticks := 0 }, mouseUp := false, isDead := false }
    timer := { ticks := 0, prev := 0, now := 0, start := start }
    obstacleList := []
    particleList := []
    colliderList := []
    rnd_pcg := rnd
    input := { quit := false, space := false, mouseDown := false, clicked := false }
    theme := FLAPPY_THEME_FOREST
    state := FLAPPY_STATE_TITLE
    paused := false
    scale := scale
    highscoreNew := false
    highscore := 0
    score := 0
    buttonhover := false
    playerflapped := false
    jabuHazardActive := false
    ticks := 0
    stateTicks := 0
    stateStartTime := 0
    themeTicks := 0
    themeStartTime := 0
    last := List.replicate 16 0 }

/-! ## Notions used to state the properties -/

/-- The node `c` at position `i` passes every test of the loop of `Touch` run
for `self` (at position `selfIdx`): live, not `self`, another group, colliding. -/
def Touch.accepts (self : Collider) (selfIdx : Nat) (c : Collider) (i : Nat) : Prop :=
  c.expired = false ∧ i ≠ selfIdx ∧ c.group ≠ self.group ∧
    CollisionRectRect self.rect c.rect = true

/-- The event of `if (k->cb) k->cb(...)` read off the list alone. -/
def callEvent (l : List Collider) (k : Nat) : List ArenaEvent :=
  match l.get? k with
  | none => []
  | some c => if c.cb.isSome then [ArenaEvent.called k] else []

/-- One turn of the loop of `ColliderArenaProcess` as it acts on the collider
list, when the callbacks leave the list alone. -/
def arenaStep (l : List Collider) (c : Nat) : List Collider × List ArenaEvent :=
  match Touch l c with
  | none => (l, [])
  | some t => (ColliderArenaProcess.mark l c t, ArenaEvent.touched c t :: (callEvent l t ++ callEvent l c))

/-- The first `n` turns of the loop on the list alone. -/
def arenaRun (l : List Collider) : Nat → List Collider × List ArenaEvent
  | 0 => (l, [])
  | n + 1 =>
    let r := arenaRun l n
    let s := arenaStep r.1 n
    (s.1, r.2 ++ s.2)

/-- The events of one resolved touch between the node the loop is at, `c`, and
the node found, `t`: both are marked, then the callback of `t` runs if it has
one, then the callback of `c` if it has one. -/
def touchBlock (l : List Collider) (ct : Nat × Nat) : List ArenaEvent :=
  ArenaEvent.touched ct.1 ct.2 :: (callEvent l ct.2 ++ callEvent l ct.1)

/-- The resolved touches `(c, t)` of a pass, in order. -/
def resolvedTouches : List ArenaEvent → List (Nat × Nat)
  | [] => []
  | ArenaEvent.touched c t :: es => (c, t) :: resolvedTouches es
  | ArenaEvent.called _ :: es => resolvedTouches es

/-- The game after `n` calls of `ObstaclePush`. -/
def ObstaclePush.times : Nat → Flappy → Flappy
  | 0, g => g
  | n + 1, g => ObstaclePush.times n (ObstaclePush g)

/-- A stream of generator values that starts with the values of `l`. -/
def drawsOf (l : List Nat) : Nat → Nat := fun i => l.getD i 0

/-- Three consecutive equal entries somewhere in a list. -/
def hasThreeEqual : List Nat → Bool
  | a :: b :: c :: rest => (a == b && b == c) || hasThreeEqual (b :: c :: rest)
  | _ => false

/-- The game after one `FlappyUpdate` tick for each counter sample of the list. -/
def FlappyUpdate.ticks (sinq : ℚ → ℚ) (freq : Nat) : List Nat → Flappy → Flappy
  | [], g => g
  | counter :: rest, g => FlappyUpdate.ticks sinq freq rest (FlappyUpdate sinq freq counter g)

/-- How many nodes were live and not cleared before and are cleared after;
`old` and `new` list the same nodes. -/
def newlyCleared (old new : List Obstacle) : Nat :=
  ((old.zip new).filter (fun p => !p.1.expired && !p.1.cleared && p.2.cleared)).length

/-- The fields of a node that a pass of `ColliderArenaProcess` never writes. -/
def Collider.static (c : Collider) : Nat × SDL_Rect × Bool × Nat × Option ColliderCallback :=
  (c.inst, c.rect, c.expired, c.group, c.cb)

/-- An arena of two live colliders of one group whose rectangles overlap. -/
def arenaSameGroup : Flappy :=
  { FlappyNew (fun _ => 0) 4 0 with
    colliderList :=
      [ { inst := 0, rect := ⟨0, 0, 10, 10⟩, expired := false, touched := false,
          color := COLOR_WORLD, group := COLOR_WORLD, cb := some OnTouchWorld_ptr },
        { inst := 0, rect := ⟨5, 5, 10, 10⟩, expired := false, touched := false,
          color := COLOR_WORLD, group := COLOR_WORLD, cb := some OnTouchWorld_ptr } ] }

/-- The arena of a tick in which the player (last) overlaps both the floor and
the lower half of an obstacle; window scale 1. In order of registration:
ceiling, floor, upper half, lower half, player. -/
def arenaFloorAndPipe : Flappy :=
  { FlappyNew (fun _ => 0) 1 0 with
    state := FLAPPY_STATE_PLAYING
    colliderList :=
      [ { inst := 0, rect := ⟨0, -112, 200, 112⟩, expired := false, touched := false,
          color := COLOR_WORLD, group := COLOR_WORLD, cb := none },
        { inst := 0, rect := ⟨0, 101, 200, 112⟩, expired := false, touched := false,
          color := COLOR_WORLD, group := COLOR_WORLD, cb := none },
        { inst := 0, rect := ⟨90, 0, 16, 64⟩, expired := false, touched := false,
          color := COLOR_WORLD, group := COLOR_WORLD, cb := none },
        { inst := 0, rect := ⟨90, 88, 16, 13⟩, expired := false, touched := false,
          color := COLOR_WORLD, group := COLOR_WORLD, cb := none },
        { inst := 1, rect := ⟨96, 97, 8, 4⟩, expired := false, touched := false,
          color := COLOR_PLAYER, group := COLOR_PLAYER, cb := some OnTouchWorld_ptr } ] }

/-- A game in the Playing state at tick 100 whose player flapped once, at tick 0
and height 46: the ring holds that flap alone. -/
def gameFlapAtZero : Flappy :=
  { FlappyNew (fun _ => 0) 4 0 with
    state := FLAPPY_STATE_PLAYING
    playerflapped := true
    ticks := 100
    player :=
      { x := 92, y := 46, ghost := { y := 46, ticks := 0 } :: List.replicate 63 { y := 0, ticks := 0 },
        parabola := { y := 46, ticks := 0 }, mouseUp := true, isDead := false } }

/-- A game in the Playing state at tick 3000 whose player flapped once, at tick
2500 and height 46. -/
def gameEarlyFlap : Flappy :=
  { FlappyNew (fun _ => 0) 4 0 with
    state := FLAPPY_STATE_PLAYING
    playerflapped := true
    ticks := 3000
    player :=
      { x := 92, y := 46,
        ghost := { y := 46, ticks := 2500 } :: List.replicate 63 { y := 0, ticks := 0 },
        parabola := { y := 46, ticks := 2500 }, mouseUp := true, isDead := false } }

/-- The loop of `ObstacleUpdateAll` credits the node `ob` to the score: it is
live, still on screen, and passes the scoring test. -/
def ObstacleUpdateAll.counted (g : Flappy) (ob : Obstacle) : Bool :=
  !ob.expired && !ObstacleUpdateAll.offScreen g ob && ObstacleUpdateAll.scores g ob

/-- The nodes of the pool after `ObstacleUpdateAll` that were in the pool
before the call (a node the call allocates is linked in front of them). -/
def ObstacleUpdateAll.oldNodes (g : Flappy) : List Obstacle :=
  (ObstacleUpdateAll g).obstacleList.drop
    ((ObstacleUpdateAll g).obstacleList.length - g.obstacleList.length)

/-- The relation between a node before and after the loop of
`ObstacleUpdateAll` run in the game `g`. -/
def ObstacleUpdateAll.scrolled (g : Flappy) (a b : Obstacle) : Prop :=
  b.cleared = (a.cleared || ObstacleUpdateAll.counted g a) ∧
    b.expired = (a.expired || ObstacleUpdateAll.offScreen g a)

/-- The relation between a node before and after `ObstaclePush`: left alone, or
expired before and set up anew. -/
def ObstaclePush.reused (b c : Obstacle) : Prop :=
  c = b ∨ (b.expired = true ∧ c.cleared = false ∧ c.expired = false)

/-- The relation between a node before and after a whole call of
`ObstacleUpdateAll` in the game `g`. -/
def ObstacleUpdateAll.updated (g : Flappy) (a c : Obstacle) : Prop :=
  ∃ b, ObstacleUpdateAll.scrolled g a b ∧ ObstaclePush.reused b c

/-- A run in the Playing state, window scale 1, at tick 8000, after two long
frames: the pool holds the obstacle spawned at tick 4400, still ahead of the
player, and behind it the obstacle spawned at tick 0, which the player passed
at tick 4400 (`cleared`, score 1). -/
def gameScrolledOff : Flappy :=
  { FlappyNew (fun _ => 0) 1 0 with
    state := FLAPPY_STATE_PLAYING
    playerflapped := true
    ticks := 8000
    score := 1
    player :=
      { x := 92, y := 46, ghost := List.replicate 64 { y := 0, ticks := 0 },
        parabola := { y := 46, ticks := 7900 }, mouseUp := true, isDead := false }
    obstacleList :=
      [ { upper := { x := -100, y := -100, w := 16, h := 64 },
          lower := { x := -100, y := -100, w := 16, h := 64 },
          x := 0, y := 50, ticks := 4400, expired := false, cleared := false },
        { upper := { x := 75, y := 0, w := 16, h := 64 },
          lower := { x := 75, y := 88, w := 16, h := 64 },
          x := 376 / 5, y := 76, ticks := 0, expired := false, cleared := true } ] }

/-- The game `g'` has the scale, the state, the player, the flag
`playerflapped` and the time of `g` and still holds every live collider of
`g`. -/
def Flappy.keepsArena (g g' : Flappy) : Prop :=
  g'.scale = g.scale ∧ g'.state = g.state ∧ g'.player = g.player ∧
    (g'.playerflapped = g.playerflapped ∧ g'.ticks = g.ticks) ∧
    ∀ c ∈ g.colliderList, c.expired = false → c ∈ g'.colliderList

/-- What `OnTouchWorld` establishes: the player is dead and the state is
GameOver. -/
def Flappy.isOver (g : Flappy) : Prop :=
  g.player.isDead = true ∧ g.state = FLAPPY_STATE_GAMEOVER

/-- A run in the Playing state, window scale 1, at tick 5780: the player
flapped once, at tick 5000 and height 46, and has been falling since; the
timer holds the sample taken 20 ms after the last tick. -/
def gameFalling : Flappy :=
  { FlappyNew (fun _ => 0) 1 0 with
    state := FLAPPY_STATE_PLAYING
    playerflapped := true
    ticks := 5780
    stateTicks := 780
    stateStartTime := 5000
    themeTicks := 780
    themeStartTime := 5000
    timer := { ticks := 5780, prev := 5780, now := 5800, start := 0 }
    player :=
      { x := 92, y := 2242 / 25,
        ghost := { y := 46, ticks := 5000 } :: List.replicate 63 { y := 0, ticks := 0 },
        parabola := { y := 46, ticks := 5000 }, mouseUp := true, isDead := false }
    obstacleList :=
      [ { upper := { x := 157, y := -26, w := 16, h := 64 },
          lower := { x := 157, y := 62, w := 16, h := 64 },
          x := 315 / 2, y := 50, ticks := 5000, expired := false, cleared := false } ] }

/-- The set-up that `ObstaclePush` gives the node it takes in the game `g`. -/
def ObstaclePush.setup (g : Flappy) (ob : Obstacle) : Obstacle :=
  { ob with
    upper := { x := -100, y := -100, w := OB_W, h := OB_H }
    lower := { x := -100, y := -100, w := OB_W, h := OB_H }
    expired := false
    ticks := g.ticks
    cleared := false
    y := ((yArray.getD (ObstaclePush.resolve g).1 0 : Int) : ℚ) }

/-- The node `calloc` returns: all zero. -/
def ObstaclePush.zero : Obstacle :=
  { upper := { x := 0, y := 0, w := 0, h := 0 }, lower := { x := 0, y := 0, w := 0, h := 0 },
    x := 0, y := 0, ticks := 0, expired := false, cleared := false }

/-- The node that one turn of the loop of `ObstacleUpdateAll`, run in the game
`g`, leaves of the node `ob`. -/
def ObstacleUpdateAll.node (g : Flappy) (ob : Obstacle) : Obstacle :=
  (ObstacleUpdateAll.visit g 0 ob).2.2

/-- A game in the Playing state at tick 6000 with one obstacle on screen,
spawned at tick 5000. -/
def gameObstacleAhead : Flappy :=
  { FlappyNew (fun _ => 0) 1 0 with
    state := FLAPPY_STATE_PLAYING
    ticks := 6000
    stateTicks := 1000
    stateStartTime := 5000
    themeTicks := 1000
    themeStartTime := 5000
    timer := { ticks := 6000, prev := 5980, now := 6000, start := 0 }
    player :=
      { x := 92, y := 46, ghost := List.replicate 64 { y := 0, ticks := 0 },
        parabola := { y := 0, ticks := 0 }, mouseUp := true, isDead := false }
    obstacleList :=
      [ { upper := { x := 184, y := -26, w := 16, h := 64 },
          lower := { x := 184, y := 62, w := 16, h := 64 },
          x := 4616 / 25, y := 50, ticks := 5000, expired := false, cleared := false } ] }

/-- The game in `FlappyUpdate` just before the obstacles are updated: the
timers are advanced, the arena is reset, and the ceiling, the floor and the
stage hazard are registered. -/
def FlappyUpdate.hazards (sinq : ℚ → ℚ) (freq counter : Nat) (g : Flappy) : Flappy :=
  let g1 := FlappyUpdate.timers freq counter g
  let g2 := if g1.state = FLAPPY_STATE_TITLE then PlayerInit g1 else g1
  let g3 := ColliderArenaInit g2
  let g4 := ColliderArenaPush g3 0 none COLOR_WORLD (FlappyUpdate.ceilingRect g3)
  let g5 := ColliderArenaPush g4 0 none COLOR_WORLD (FlappyUpdate.floorRect g4)
  WorldDoHazards sinq g5

/-- A game in the GameOver state at tick 7000, window scale 1: the player died
at height 94, the one obstacle of the pool was spawned at tick 5000 and stands
at `216 - 64 = 152`; the timer holds the sample taken 20 ms after the last
tick. -/
def gameOverScrolling : Flappy :=
  { FlappyNew (fun _ => 0) 1 0 with
    state := FLAPPY_STATE_GAMEOVER
    playerflapped := true
    ticks := 7000
    stateTicks := 200
    stateStartTime := 6800
    themeTicks := 2000
    themeStartTime := 5000
    timer := { ticks := 7000, prev := 7000, now := 7020, start := 0 }
    player :=
      { x := 92, y := 94,
        ghost := { y := 46, ticks := 6000 } :: List.replicate 63 { y := 0, ticks := 0 },
        parabola := { y := 46, ticks := 6000 }, mouseUp := true, isDead := true }
    obstacleList :=
      [ { upper := { x := 152, y := -26, w := 16, h := 64 },
          lower := { x := 152, y := 62, w := 16, h := 64 },
          x := 152, y := 50, ticks := 5000, expired := false, cleared := false } ] }

/-- The timer after one `TimerAdvance` call for each entry of the list: the
clock sample and the pause flag of the call. -/
def TimerAdvance.run (freq : Nat) : List (Nat × Bool) → Timer → Timer
  | [], timer => timer
  | call :: rest, timer => TimerAdvance.run freq rest (TimerAdvance freq call.1 timer call.2)

/-- What an unpaused `TimerAdvance` call adds to the accumulated time of a
timer whose fields are `prev` and `now`: `(now - prev) * 1000` in `uint64_t`,
divided by the frequency. -/
def TimerAdvance.step (freq prev now : Nat) : ℚ :=
  ((((now + (18446744073709551616 - prev % 18446744073709551616))
      % 18446744073709551616) * 1000 % 18446744073709551616 : Nat) : ℚ) / (freq : ℚ)

/-- A timer at 1000 ms, sampled every 16 ms, with frequency 1000. -/
def timerRunning : Timer := { ticks := 1000, prev := 984, now := 1000, start := 0 }

/-- A game in the Playing state at tick 3000 whose player flapped twice, at
tick 2500 (height 46) and at tick 2800 (height 40). -/
def gameTwoFlaps : Flappy :=
  { FlappyNew (fun _ => 0) 4 0 with
    state := FLAPPY_STATE_PLAYING
    playerflapped := true
    ticks := 3000
    player :=
      { x := 92, y := 38,
        ghost := { y := 40, ticks := 2800 } :: { y := 46, ticks := 2500 }
          :: List.replicate 62 { y := 0, ticks := 0 },
        parabola := { y := 40, ticks := 2800 }, mouseUp := true, isDead := false } }

/-- A game of the Jabu theme in the Playing state. -/
def gameJabu : Flappy :=
  { FlappyNew (drawsOf [1, 3]) 4 0 with
    state := FLAPPY_STATE_PLAYING
    theme := FLAPPY_THEME_JABU
    jabuHazardActive := true
    ticks := 16000 }

/-- A game in the Playing state at tick 3000 in which the mouse button goes
down: the player, who flapped at tick 2500 and height 46, flaps again. -/
def gameFlapping : Flappy :=
  { gameEarlyFlap with
    input := { quit := false, space := false, mouseDown := true, clicked := false } }

/-- The frames of an animation of the table, without the closing frame. -/
def animFrames (type : ParticleType) : List Frame :=
  (anim type).takeWhile (fun f => decide (0 ≤ f.row))

/-- The sum of the durations of the first `k` frames of a list. -/
def framesBefore (frames : List Frame) (k : Nat) : Nat :=
  ((frames.take k).map (fun f => f.dur)).sum

/-- The length of an animation of the table: the sum of its frame durations. -/
def animLength (type : ParticleType) : Nat :=
  ((animFrames type).map (fun f => f.dur)).sum

/-- A game at tick 1250 with two sparkles, spawned at ticks 1000 and 600. -/
def gameSparkles : Flappy :=
  { FlappyNew (fun _ => 0) 4 0 with
    state := FLAPPY_STATE_PLAYING
    ticks := 1250
    particleList :=
      [ { ticks := 1000, x := 100, y := 50, expired := false, anim := PARTICLE_SPARKLE_BLUE },
        { ticks := 600, x := 90, y := 52, expired := false, anim := PARTICLE_SPARKLE_BLUE } ] }

/-- No live collider of the list has a callback. -/
def arenaNoCallback (l : List Collider) : Prop :=
  ∀ c ∈ l, c.expired = false → c.cb = none

/-- The game states that the program reaches from the state `FlappyNew` builds:
by ticks of `FlappyUpdate`, by the functions the buttons call, and by input
(the input record and the hover flag are written between ticks). -/
inductive Flappy.Reachable : Flappy → Prop where
  | new (rnd : Nat → Nat) (scale start : Nat) : Flappy.Reachable (FlappyNew rnd scale start)
  | update (sinq : ℚ → ℚ) (freq counter : Nat) (g : Flappy) :
      Flappy.Reachable g → Flappy.Reachable (FlappyUpdate sinq freq counter g)
  | start (g : Flappy) : Flappy.Reachable g → Flappy.Reachable (FlappyStartGame g)
  | title (g : Flappy) : Flappy.Reachable g → Flappy.Reachable (FlappyGoTitle g)
  | pause (g : Flappy) : Flappy.Reachable g → Flappy.Reachable (FlappyGamePause g)
  | theme (g : Flappy) : Flappy.Reachable g → Flappy.Reachable (FlappyNextTheme g)
  | input (i : Input) (hover : Bool) (g : Flappy) :
      Flappy.Reachable g → Flappy.Reachable { g with input := i, buttonhover := hover }

/-- How many callback invocations a list of events holds. -/
def callCount (evs : List ArenaEvent) : Nat :=
  evs.countP (fun e => match e with
    | ArenaEvent.called _ => true
    | ArenaEvent.touched _ _ => false)

/-- The arena `arenaFloorAndPipe` in a run whose score 3 is above the high score
2 held so far. -/
def arenaNewHighscore : Flappy :=
  { arenaFloorAndPipe with score := 3, highscore := 2 }

/-- The high score after a number of callback invocations, by their count. -/
def highscoreAfter (g0 G : Flappy) (n : Nat) : Prop :=
  G.score = g0.score ∧
  (n = 0 → G.highscore = g0.highscore ∧ G.highscoreNew = g0.highscoreNew) ∧
  (1 ≤ n → G.highscore = max g0.highscore g0.score) ∧
  (n = 1 → G.highscoreNew = decide (g0.highscore < g0.score)) ∧
  (2 ≤ n → G.highscoreNew = false)

/-- Two nodes that are both live were spawned more than 2000 ms apart. -/
def Obstacle.spaced (a b : Obstacle) : Prop :=
  a.expired = false → b.expired = false →
    a.ticks + 2000 < b.ticks ∨ b.ticks + 2000 < a.ticks

/-- At the time `now` (a `uint32_t`), no live node of the pool was spawned
later than `now`, and any two live nodes were spawned more than 2000 ms
apart. -/
def ObstacleUpdateAll.wellSpaced (now : Nat) (l : List Obstacle) : Prop :=
  (∀ ob ∈ l, ob.expired = false → ob.ticks ≤ now ∧ now < 4294967296) ∧
    l.Pairwise Obstacle.spaced

/-- The games of one run: the game `FlappyStartGame` leaves, and the game a
call of `ObstacleUpdateAll` leaves when it is made on the pool of a game of the
run at a time not before that game's time. What else the game holds at the call
(score, state, player, colliders, generator) is free. -/
inductive ObstacleUpdateAll.Run : Flappy → Prop where
  | start (g : Flappy) : ObstacleUpdateAll.Run (FlappyStartGame g)
  | tick (g g' : Flappy) : ObstacleUpdateAll.Run g → g'.obstacleList = g.obstacleList →
      g.ticks ≤ g'.ticks → g'.ticks < 4294967296 → ObstacleUpdateAll.Run (ObstacleUpdateAll g')

/-- The number of live nodes of a pool. -/
def liveCount (l : List Obstacle) : Nat := (l.filter (fun ob => !ob.expired)).length

/-- The game after `FlappyStartGame` and one call of `ObstacleUpdateAll`, at
the time 100. -/
def gameFirstSpawn : Flappy :=
  ObstacleUpdateAll { FlappyStartGame (FlappyNew (fun _ => 0) 1 0) with ticks := 100 }

/-- The game `gameFirstSpawn` after a second call, at the time 2200. -/
def gameTwoSpawns : Flappy :=
  ObstacleUpdateAll { gameFirstSpawn with ticks := 2200 }

/-- Every live collider whose callback is set carries the player's
instance. -/
def arenaPlayerCallbacks (l : List Collider) : Prop :=
  ∀ c ∈ l, c.expired = false → c.cb.isSome = true → c.inst = 1

/-- A callback table for observing a pass: each call appends two decimal digits
to the score, the instance it was called with and the number of colliders it
finds marked `touched`. -/
def probeCallbacks : ColliderCallback → Flappy → Nat → Flappy := fun _ g inst =>
  { g with
    score := g.score * 100 + inst * 10 + (g.colliderList.filter (fun c => c.touched)).length }

/-- An arena of two live, unmarked colliders of different groups whose
rectangles overlap, each with a callback; the instances 1 and 2 tell the two
apart. -/
def arenaProbe : Flappy :=
  { FlappyNew (fun _ => 0) 4 0 with
    colliderList :=
      [ { inst := 1, rect := ⟨0, 0, 10, 10⟩, expired := false, touched := false,
          color := COLOR_WORLD, group := COLOR_WORLD, cb := some 2 },
        { inst := 2, rect := ⟨5, 5, 10, 10⟩, expired := false, touched := false,
          color := COLOR_PLAYER, group := COLOR_PLAYER, cb := some 2 } ] }

/-- The game after `FlappyStartGame` from the initial state, window scale 1. -/
def gameStarted : Flappy := FlappyStartGame (FlappyNew (fun _ => 0) 1 0)

/-- The first tick of the run, with the timer sample 3750 (frequency 1000): the
time is still 0 and the first obstacle is spawned. -/
def gameFirstTick : Flappy := FlappyUpdate (fun _ => 0) 1000 3750 gameStarted

/-- The second tick of the run: the time is 3750 ms, and the obstacle has
reached the player, who never flapped. -/
def gameCrashed : Flappy := FlappyUpdate (fun _ => 0) 1000 3770 gameFirstTick

/-! # Theorems -/

/-! ## Lists and pools -/

theorem modifyNth_length {α : Type} (f : α → α) (l : List α) (n : Nat) :
    (modifyNth f l n).length = l.length := by
  induction l generalizing n with
  | nil => rfl
  | cons a as ih => cases n <;> simp [modifyNth, ih]

theorem getElem?_modifyNth {α : Type} (f : α → α) (l : List α) (n k : Nat) :
    (modifyNth f l n)[k]? = if k = n then (l[k]?).map f else l[k]? := by
  induction l generalizing n k with
  | nil => simp [modifyNth]
  | cons a as ih =>
    cases n with
    | zero => cases k <;> simp [modifyNth]
    | succ n => cases k <;> simp [modifyNth, ih]

/-! ## The collider arena -/

theorem scan_sound (self : Collider) (si : Nat) (cs : List Collider) (i j : Nat)
    (h : Touch.scan self si cs i = some j) :
    ∃ k c, j = i + k ∧ cs[k]? = some c ∧ Touch.accepts self si c j := by
  induction cs generalizing i with
  | nil => simp [Touch.scan] at h
  | cons c cs ih =>
    unfold Touch.scan at h
    split at h
    · obtain ⟨k, c', hj, hk, hok⟩ := ih (i + 1) h
      exact ⟨k + 1, c', by omega, by simpa using hk, hok⟩
    · rename_i hc
      split at h
      · rename_i hcol
        simp only [Option.some.injEq] at h
        subst h
        refine ⟨0, c, rfl, by simp, ?_⟩
        simp only [Bool.or_eq_true, beq_iff_eq, not_or, Bool.not_eq_true] at hc
        exact ⟨hc.1.1, hc.1.2, hc.2, hcol⟩
      · obtain ⟨k, c', hj, hk, hok⟩ := ih (i + 1) h
        exact ⟨k + 1, c', by omega, by simpa using hk, hok⟩

theorem scan_complete (self : Collider) (si : Nat) (cs : List Collider) (i : Nat)
    (h : Touch.scan self si cs i = none) :
    ∀ k c, cs[k]? = some c → ¬ Touch.accepts self si c (i + k) := by
  induction cs generalizing i with
  | nil => intro k c hk; simp at hk
  | cons c cs ih =>
    unfold Touch.scan at h
    intro k c' hk
    split at h
    · rename_i hc
      cases k with
      | zero =>
        simp only [List.getElem?_cons_zero, Option.some.injEq] at hk
        subst hk
        simp only [Bool.or_eq_true, beq_iff_eq] at hc
        rintro ⟨h1, h2, h3, -⟩
        rcases hc with (hc | hc) | hc
        · simp [h1] at hc
        · exact h2 (by simpa using hc)
        · exact h3 hc
      | succ k =>
        have := ih (i + 1) h k c' (by simpa using hk)
        rwa [show i + 1 + k = i + (k + 1) by omega] at this
    · split at h
      · simp at h
      · rename_i hcol
        cases k with
        | zero =>
          simp only [List.getElem?_cons_zero, Option.some.injEq] at hk
          subst hk
          rintro ⟨-, -, -, h4⟩
          exact hcol h4
        | succ k =>
          have := ih (i + 1) h k c' (by simpa using hk)
          rwa [show i + 1 + k = i + (k + 1) by omega] at this


theorem Touch_sound (l : List Collider) (s j : Nat) (h : Touch l s = some j) :
    ∃ cs cj, l[s]? = some cs ∧ l[j]? = some cj ∧ cs.expired = false ∧ cs.touched = false ∧
      Touch.accepts cs s cj j := by
  unfold Touch at h
  simp only [List.get?_eq_getElem?] at h
  cases hs : l[s]? with
  | none => simp [hs] at h
  | some cs =>
    simp only [hs] at h
    split at h
    · simp at h
    · rename_i hc
      simp only [Bool.or_eq_true, not_or, Bool.not_eq_true] at hc
      obtain ⟨k, c, hj, hk, hok⟩ := scan_sound cs s l 0 j h
      simp only [Nat.zero_add] at hj
      subst hj
      exact ⟨cs, c, rfl, hk, hc.1, hc.2, hok⟩

theorem Touch_complete (l : List Collider) (s : Nat) (h : Touch l s = none) (cs : Collider)
    (hs : l[s]? = some cs) (he : cs.expired = false) (ht : cs.touched = false) :
    ∀ j cj, l[j]? = some cj → ¬ Touch.accepts cs s cj j := by
  unfold Touch at h
  simp only [List.get?_eq_getElem?, hs, he, ht, Bool.or_self, Bool.false_eq_true, if_false] at h
  intro j cj hj
  have := scan_complete cs s l 0 h j cj hj
  simpa using this

theorem Touch_none_of_flag (l : List Collider) (s : Nat) (cs : Collider) (hs : l[s]? = some cs)
    (h : cs.expired = true ∨ cs.touched = true) : Touch l s = none := by
  unfold Touch
  simp only [List.get?_eq_getElem?, hs]
  rcases h with h | h <;> simp [h]

theorem Touch_none_of_ge (l : List Collider) (s : Nat) (h : l.length ≤ s) : Touch l s = none := by
  unfold Touch
  simp [List.getElem?_eq_none h]


/-! ## The arena pass on the list alone -/

theorem mark_length (l : List Collider) (c t : Nat) :
    (ColliderArenaProcess.mark l c t).length = l.length := by
  simp [ColliderArenaProcess.mark, modifyNth_length]

theorem getElem?_mark (l : List Collider) (c t k : Nat) (hct : c ≠ t) :
    (ColliderArenaProcess.mark l c t)[k]? =
      if k = c ∨ k = t then
        (l[k]?).map (fun x => { x with color := ColorTweak x.color, touched := true })
      else l[k]? := by
  simp only [ColliderArenaProcess.mark, getElem?_modifyNth]
  by_cases h1 : k = t
  · subst h1
    have : ¬ k = c := fun h => hct h.symm
    simp [this]
  · by_cases h2 : k = c
    · subst h2
      simp [h1]
    · simp [h1, h2]

theorem callEvent_mark (l : List Collider) (c t k : Nat) (hct : c ≠ t) :
    callEvent (ColliderArenaProcess.mark l c t) k = callEvent l k := by
  unfold callEvent
  simp only [List.get?_eq_getElem?, getElem?_mark l c t k hct]
  split_ifs with h
  · cases l[k]? <;> simp
  · rfl

theorem invoke_colliderList (cbs : ColliderCallback → Flappy → Nat → Flappy)
    (H : ∀ f g i, (cbs f g i).colliderList = g.colliderList) (g : Flappy) (k : Nat) :
    (ColliderArenaProcess.invoke cbs g k).1.colliderList = g.colliderList := by
  unfold ColliderArenaProcess.invoke
  split
  · rfl
  · split
    · rfl
    · exact H _ _ _

theorem invoke_events (cbs : ColliderCallback → Flappy → Nat → Flappy) (g : Flappy) (k : Nat) :
    (ColliderArenaProcess.invoke cbs g k).2 = callEvent g.colliderList k := by
  unfold ColliderArenaProcess.invoke callEvent
  cases g.colliderList.get? k with
  | none => rfl
  | some c => cases hcb : c.cb <;> simp [hcb]

theorem body_eq_arenaStep (cbs : ColliderCallback → Flappy → Nat → Flappy)
    (H : ∀ f g i, (cbs f g i).colliderList = g.colliderList) (g : Flappy) (c : Nat) :
    (ColliderArenaProcess.body cbs g c).1.colliderList = (arenaStep g.colliderList c).1 ∧
      (ColliderArenaProcess.body cbs g c).2 = (arenaStep g.colliderList c).2 := by
  unfold ColliderArenaProcess.body arenaStep
  cases hT : Touch g.colliderList c with
  | none => exact ⟨rfl, rfl⟩
  | some t =>
    obtain ⟨cs, cj, -, -, -, -, -, hne, -, -⟩ := Touch_sound _ _ _ hT
    have hct : c ≠ t := fun h => hne h.symm
    simp only [invoke_colliderList cbs H, invoke_events, callEvent_mark _ _ _ _ hct, and_self]

theorem iter_eq_arenaRun (cbs : ColliderCallback → Flappy → Nat → Flappy)
    (H : ∀ f g i, (cbs f g i).colliderList = g.colliderList) (g : Flappy) (n : Nat) :
    (ColliderArenaProcess.iter cbs g n).1.colliderList = (arenaRun g.colliderList n).1 ∧
      (ColliderArenaProcess.iter cbs g n).2 = (arenaRun g.colliderList n).2 := by
  induction n with
  | zero => exact ⟨rfl, rfl⟩
  | succ n ih =>
    simp only [ColliderArenaProcess.iter, arenaRun]
    have hb := body_eq_arenaStep cbs H (ColliderArenaProcess.iter cbs g n).1 n
    rw [ih.1] at hb
    exact ⟨hb.1, by rw [ih.2, hb.2]⟩


theorem arenaStep_of_none (l : List Collider) (c : Nat) (h : Touch l c = none) :
    arenaStep l c = (l, []) := by
  simp [arenaStep, h]

theorem accepts_of_static {s s' c c' : Collider} {i j : Nat} (hs : s'.static = s.static)
    (hc : c'.static = c.static) (h : Touch.accepts s i c j) : Touch.accepts s' i c' j := by
  simp only [Collider.static, Prod.mk.injEq] at hs hc
  obtain ⟨h1, h2, h3, h4⟩ := h
  refine ⟨by rw [hc.2.2.1]; exact h1, h2, by rw [hc.2.2.2.1, hs.2.2.2.1]; exact h3, ?_⟩
  rw [hs.2.1, hc.2.1]; exact h4

/-- What one turn of the loop does to the node at position `k`. -/
theorem arenaStep_get (l : List Collider) (c k : Nat) (x : Collider) (hx : l[k]? = some x) :
    ∃ x', (arenaStep l c).1[k]? = some x' ∧ x'.static = x.static ∧
      (x.touched = true → x'.touched = true) ∧
      (x'.touched = true → x.touched = true ∨
        (x.cb.isSome = true → ArenaEvent.called k ∈ (arenaStep l c).2)) := by
  cases hT : Touch l c with
  | none =>
    rw [arenaStep_of_none l c hT]
    exact ⟨x, hx, rfl, id, fun h => Or.inl h⟩
  | some t =>
    obtain ⟨cs, cj, hcs, hcj, -, -, -, hne, -, -⟩ := Touch_sound _ _ _ hT
    have hct : c ≠ t := fun h => hne h.symm
    simp only [arenaStep, hT]
    rw [getElem?_mark l c t k hct]
    by_cases hk : k = c ∨ k = t
    · simp only [hk, if_true, hx, Option.map_some']
      refine ⟨_, rfl, rfl, fun _ => rfl, fun _ => Or.inr ?_⟩
      intro hcb
      rcases hk with hk | hk
      · subst hk
        simp [callEvent, hx, hcb]
      · subst hk
        simp [callEvent, hx, hcb]
    · simp only [hk, if_false]
      exact ⟨x, hx, rfl, id, fun h => Or.inl h⟩

/-- A live node that some node of the list collides with across groups is
marked once the loop has been at it. -/
theorem arenaStep_touch (l : List Collider) (c : Nat) (x : Collider) (hx : l[c]? = some x)
    (hlive : x.expired = false)
    (hp : ∃ j cj, l[j]? = some cj ∧ Touch.accepts x c cj j) :
    ∃ x', (arenaStep l c).1[c]? = some x' ∧ x'.touched = true := by
  cases ht : x.touched with
  | true =>
    rw [arenaStep_of_none l c (Touch_none_of_flag l c x hx (Or.inr ht))]
    exact ⟨x, hx, ht⟩
  | false =>
    cases hT : Touch l c with
    | none =>
      obtain ⟨j, cj, hj, hacc⟩ := hp
      exact absurd hacc (Touch_complete l c hT x hx hlive ht j cj hj)
    | some t =>
      obtain ⟨cs, cj, hcs, hcj, -, -, -, hne, -, -⟩ := Touch_sound _ _ _ hT
      have hct : c ≠ t := fun h => hne h.symm
      simp only [arenaStep, hT]
      rw [getElem?_mark l c t c hct]
      simp [hx]

theorem arenaRun_inv (l : List Collider) (n : Nat) :
    (∀ k x, l[k]? = some x →
      ∃ x', (arenaRun l n).1[k]? = some x' ∧ x'.static = x.static ∧
        (x.touched = true → x'.touched = true) ∧
        (x'.touched = true → x.touched = true ∨
          (x.cb.isSome = true → ArenaEvent.called k ∈ (arenaRun l n).2))) ∧
    (∀ k x, k < n → l[k]? = some x → x.expired = false →
      (∃ j cj, l[j]? = some cj ∧ Touch.accepts x k cj j) →
      ∃ x', (arenaRun l n).1[k]? = some x' ∧ x'.touched = true) := by
  induction n with
  | zero =>
    refine ⟨fun k x hx => ⟨x, hx, rfl, id, fun h => Or.inl h⟩, ?_⟩
    intro k x hk
    omega
  | succ n ih =>
    obtain ⟨ihA, ihB⟩ := ih
    have hA : ∀ k x, l[k]? = some x →
        ∃ x', (arenaRun l (n + 1)).1[k]? = some x' ∧ x'.static = x.static ∧
          (x.touched = true → x'.touched = true) ∧
          (x'.touched = true → x.touched = true ∨
            (x.cb.isSome = true → ArenaEvent.called k ∈ (arenaRun l (n + 1)).2)) := by
      intro k x hx
      obtain ⟨x', hx', hs', hm', hp'⟩ := ihA k x hx
      obtain ⟨x'', hx'', hs'', hm'', hp''⟩ := arenaStep_get (arenaRun l n).1 n k x' hx'
      refine ⟨x'', hx'', hs''.trans hs', fun h => hm'' (hm' h), ?_⟩
      intro ht
      have hcb : x'.cb = x.cb := by
        simp only [Collider.static, Prod.mk.injEq] at hs'
        exact hs'.2.2.2.2
      rcases hp'' ht with h | h
      · rcases hp' h with h | h
        · exact Or.inl h
        · exact Or.inr fun hc => List.mem_append_left _ (h hc)
      · exact Or.inr fun hc => List.mem_append_right _ (h (by rw [hcb]; exact hc))
    refine ⟨hA, ?_⟩
    intro k x hk hx hlive hp
    by_cases hkn : k < n
    · obtain ⟨x', hx', ht'⟩ := ihB k x hkn hx hlive hp
      obtain ⟨x'', hx'', -, hm'', -⟩ := arenaStep_get (arenaRun l n).1 n k x' hx'
      exact ⟨x'', hx'', hm'' ht'⟩
    · have hkeq : k = n := by omega
      subst hkeq
      obtain ⟨x', hx', hs', -, -⟩ := ihA k x hx
      obtain ⟨j, cj, hj, hacc⟩ := hp
      obtain ⟨cj', hj', hsj', -, -⟩ := ihA j cj hj
      have hlive' : x'.expired = false := by
        simp only [Collider.static, Prod.mk.injEq] at hs'
        rw [hs'.2.2.1]; exact hlive
      exact arenaStep_touch (arenaRun l k).1 k x' hx' hlive' ⟨j, cj', hj', accepts_of_static hs' hsj' hacc⟩

/-- A live, unmarked node with a callback that some node collides with across
groups has its callback run in the pass. -/
theorem arenaRun_called (l : List Collider) (k : Nat) (x : Collider) (hx : l[k]? = some x)
    (hlive : x.expired = false) (ht : x.touched = false) (hcb : x.cb.isSome = true)
    (hp : ∃ j cj, l[j]? = some cj ∧ Touch.accepts x k cj j) :
    ArenaEvent.called k ∈ (arenaRun l l.length).2 := by
  have hk : k < l.length := by
    by_contra h
    rw [List.getElem?_eq_none (by omega)] at hx
    cases hx
  obtain ⟨hA, hB⟩ := arenaRun_inv l l.length
  obtain ⟨x', hx', ht'⟩ := hB k x hk hx hlive hp
  obtain ⟨x'', hx'', -, -, hp''⟩ := hA k x hx
  rw [hx'] at hx''
  cases hx''
  rcases hp'' ht' with h | h
  · rw [ht] at h; cases h
  · exact h hcb

theorem Touch_none_of_same_group (l : List Collider)
    (h : ∀ ci ∈ l, ∀ cj ∈ l, ci.expired = false → cj.expired = false →
      CollisionRectRect ci.rect cj.rect = true → ci.group = cj.group) (s : Nat) :
    Touch l s = none := by
  cases hT : Touch l s with
  | none => rfl
  | some j =>
    obtain ⟨cs, cj, hcs, hcj, he, -, hacc⟩ := Touch_sound l s j hT
    obtain ⟨h1, -, h3, h4⟩ := hacc
    have := h cs (List.getElem?_mem hcs) cj (List.getElem?_mem hcj) he h1 h4
    exact absurd this.symm h3

/-- C1. In a pass of `ColliderArenaProcess` over an arena in which any two live
colliders whose rectangles collide carry the same group, whatever the
rectangles and the callbacks are, no touch is resolved: the pass has no event
(no collider is marked, no callback is invoked) and returns the game as it
was. -/
theorem ColliderArenaProcess_same_group (cbs : ColliderCallback → Flappy → Nat → Flappy)
    (g : Flappy)
    (h : ∀ ci ∈ g.colliderList, ∀ cj ∈ g.colliderList, ci.expired = false → cj.expired = false →
      CollisionRectRect ci.rect cj.rect = true → ci.group = cj.group) :
    ColliderArenaProcess cbs g = (g, []) := by
  have key : ∀ n, ColliderArenaProcess.iter cbs g n = (g, []) := by
    intro n
    induction n with
    | zero => rfl
    | succ n ih =>
      simp only [ColliderArenaProcess.iter, ih, ColliderArenaProcess.body,
        Touch_none_of_same_group g.colliderList h n, List.append_nil]
  exact key _

theorem ColliderArenaProcess_same_group_witness :
    ColliderArenaProcess callbacks arenaSameGroup = (arenaSameGroup, []) :=
  ColliderArenaProcess_same_group callbacks arenaSameGroup (by decide)

theorem resolvedTouches_append (a b : List ArenaEvent) :
    resolvedTouches (a ++ b) = resolvedTouches a ++ resolvedTouches b := by
  induction a with
  | nil => rfl
  | cons e es ih => cases e <;> simp [resolvedTouches, ih]

theorem resolvedTouches_callEvent (l : List Collider) (k : Nat) :
    resolvedTouches (callEvent l k) = [] := by
  unfold callEvent
  cases l.get? k with
  | none => rfl
  | some c => by_cases h : c.cb.isSome <;> simp [h, resolvedTouches]

theorem callEvent_of_static (l l' : List Collider)
    (h : ∀ k : Nat, (l'[k]?).map Collider.static = (l[k]?).map Collider.static) (k : Nat) :
    callEvent l' k = callEvent l k := by
  have hk := h k
  unfold callEvent
  simp only [List.get?_eq_getElem?]
  cases h1 : l[k]? with
  | none =>
    rw [h1] at hk
    cases h2 : l'[k]? with
    | none => rfl
    | some c' => rw [h2] at hk; simp at hk
  | some c =>
    rw [h1] at hk
    cases h2 : l'[k]? with
    | none => rw [h2] at hk; simp at hk
    | some c' =>
      rw [h2] at hk
      simp only [Option.map_some', Option.some.injEq, Collider.static, Prod.mk.injEq] at hk
      simp [hk.2.2.2.2]

theorem modifyNth_static (l : List Collider) (n k : Nat) :
    ((modifyNth (fun x : Collider => { x with color := ColorTweak x.color, touched := true })
      l n)[k]?).map Collider.static = (l[k]?).map Collider.static := by
  rw [getElem?_modifyNth]
  split_ifs
  · cases l[k]? <;> rfl
  · rfl

theorem arenaStep_static (l : List Collider) (c k : Nat) :
    ((arenaStep l c).1[k]?).map Collider.static = (l[k]?).map Collider.static := by
  unfold arenaStep
  cases hT : Touch l c with
  | none => rfl
  | some t =>
    simp only [ColliderArenaProcess.mark]
    rw [modifyNth_static, modifyNth_static]

theorem arenaRun_static (l : List Collider) (n k : Nat) :
    ((arenaRun l n).1[k]?).map Collider.static = (l[k]?).map Collider.static := by
  induction n with
  | zero => rfl
  | succ n ih =>
    simp only [arenaRun]
    rw [arenaStep_static, ih]

theorem arenaRun_blocks (l : List Collider) (n : Nat) :
    (arenaRun l n).2 = (resolvedTouches (arenaRun l n).2).flatMap (touchBlock l) := by
  induction n with
  | zero => rfl
  | succ n ih =>
    simp only [arenaRun]
    rw [resolvedTouches_append, List.flatMap_append, ← ih]
    congr 1
    unfold arenaStep
    cases hT : Touch (arenaRun l n).1 n with
    | none => rfl
    | some t =>
      simp only [resolvedTouches, resolvedTouches_append, resolvedTouches_callEvent,
        List.append_nil, List.flatMap_cons, List.flatMap_nil, touchBlock]
      rw [callEvent_of_static l _ (arenaRun_static l n), callEvent_of_static l _ (arenaRun_static l n)]

theorem arenaRun_marks (l : List Collider) (n : Nat) :
    ∀ ct ∈ resolvedTouches (arenaRun l n).2,
      ((arenaRun l n).1[ct.1]?).map (fun c => c.touched) = some true ∧
      ((arenaRun l n).1[ct.2]?).map (fun c => c.touched) = some true := by
  induction n with
  | zero => intro ct h; simp [arenaRun, resolvedTouches] at h
  | succ n ih =>
    have keep : ∀ k : Nat, ((arenaRun l n).1[k]?).map (fun c => c.touched) = some true →
        ((arenaRun l (n + 1)).1[k]?).map (fun c => c.touched) = some true := by
      intro k hk
      cases hx : (arenaRun l n).1[k]? with
      | none => rw [hx] at hk; cases hk
      | some x =>
        rw [hx] at hk
        obtain ⟨x', hx', -, hm, -⟩ := arenaStep_get (arenaRun l n).1 n k x hx
        simp only [arenaRun, hx', Option.map_some', Option.some.injEq]
        exact hm (by simpa using hk)
    intro ct hct
    simp only [arenaRun, resolvedTouches_append, List.mem_append] at hct
    rcases hct with hct | hct
    · exact ⟨keep _ (ih ct hct).1, keep _ (ih ct hct).2⟩
    · unfold arenaStep at hct
      cases hT : Touch (arenaRun l n).1 n with
      | none => simp [hT, resolvedTouches] at hct
      | some t =>
        simp only [hT, resolvedTouches, resolvedTouches_append, resolvedTouches_callEvent,
          List.append_nil, List.mem_singleton] at hct
        subst hct
        obtain ⟨cs, cj, hcs, hcj, -, -, -, hne, -, -⟩ := Touch_sound _ _ _ hT
        have hct : n ≠ t := fun h => hne h.symm
        simp only [arenaRun, arenaStep, hT, getElem?_mark _ _ _ _ hct]
        simp [hcs, hcj]

theorem CollisionRectRect_comm (a b : SDL_Rect) :
    CollisionRectRect a b = CollisionRectRect b a := by
  unfold CollisionRectRect
  by_cases h : a.x + a.w < b.x ∨ a.y + a.h < b.y ∨ a.x > b.x + b.w ∨ a.y > b.y + b.h
  · have h' : b.x + b.w < a.x ∨ b.y + b.h < a.y ∨ b.x > a.x + a.w ∨ b.y > a.y + a.h := by
      rcases h with h | h | h | h
      · exact Or.inr (Or.inr (Or.inl h))
      · exact Or.inr (Or.inr (Or.inr h))
      · exact Or.inl h
      · exact Or.inr (Or.inl h)
    rw [if_pos h, if_pos h']
  · have h' : ¬ (b.x + b.w < a.x ∨ b.y + b.h < a.y ∨ b.x > a.x + a.w ∨ b.y > a.y + a.h) := by
      intro h'
      apply h
      rcases h' with h' | h' | h' | h'
      · exact Or.inr (Or.inr (Or.inl h'))
      · exact Or.inr (Or.inr (Or.inr h'))
      · exact Or.inl h'
      · exact Or.inr (Or.inl h')
    rw [if_neg h, if_neg h']

theorem callbacks_colliderList (f : ColliderCallback) (g : Flappy) (i : Nat) :
    (callbacks f g i).colliderList = g.colliderList := by
  simp only [callbacks, OnTouchWorld.run, FlappyGameOver, ParticlePush]
  split <;> split <;> rfl

/-- C3 fails on the code. In this arena the pass resolves two touches with the
player's collider (position 4) as the collider found, one from the floor and
one from the lower half of the obstacle: the player's collider is marked twice
and its callback is invoked twice. -/
theorem ColliderArenaProcess_touches_twice :
    (ColliderArenaProcess callbacks arenaFloorAndPipe).2 =
      [ArenaEvent.touched 1 4, ArenaEvent.called 4, ArenaEvent.touched 3 4, ArenaEvent.called 4] ∧
    (ColliderArenaProcess callbacks arenaFloorAndPipe).2.count (ArenaEvent.called 4) = 2 := by
  decide

/-- C5 fails on the code. Outside the Jabu theme, from the initial history, the
draws 1, 2, 1, 2, 1, 2, 0, 0, 0 are stored as drawn: the last three categories
stored are equal. At the ninth call the draw 0 equals the two most recent
entries; the counts of 0, 1 and 2 in the history are 10, 3 and 3, no count is
least, so `this = common[2]` assigns the count 3, which differs from `last[0]`
(no failsafe) and is reduced modulo 3 to 0. -/
theorem ObstaclePush_three_in_a_row :
    (FlappyNew (drawsOf [1, 2, 1, 2, 1, 2, 0, 0, 0]) 4 0).theme ≠ FLAPPY_THEME_JABU ∧
    (FlappyNew (drawsOf [1, 2, 1, 2, 1, 2, 0, 0, 0]) 4 0).last = List.replicate 16 0 ∧
    (ObstaclePush.times 9 (FlappyNew (drawsOf [1, 2, 1, 2, 1, 2, 0, 0, 0]) 4 0)).last.take 9
      = [0, 0, 0, 2, 1, 2, 1, 2, 1] ∧
    hasThreeEqual
      ((ObstaclePush.times 9 (FlappyNew (drawsOf [1, 2, 1, 2, 1, 2, 0, 0, 0]) 4 0)).last.take 9)
      = true := by
  decide

/-- The example of the specification: the draws Low, Low, Low, Low are stored
as High, Low, Low, High (most recent first below). -/
theorem ObstaclePush_four_low :
    (ObstaclePush.times 4 (FlappyNew (drawsOf [0, 0, 0, 0]) 4 0)).last.take 4 = [2, 0, 0, 2] ∧
    hasThreeEqual ((ObstaclePush.times 4 (FlappyNew (drawsOf [0, 0, 0, 0]) 4 0)).last.take 4)
      = false := by
  decide

/-- C8. `FlappyStartGame` leaves score 0, the player alive and the state
Playing, and marks every node of the obstacle pool expired (the pool keeps its
nodes). -/
theorem FlappyStartGame_resets (g : Flappy) :
    (FlappyStartGame g).score = 0 ∧ (FlappyStartGame g).player.isDead = false ∧
    (FlappyStartGame g).state = FLAPPY_STATE_PLAYING ∧
    (FlappyStartGame g).obstacleList.length = g.obstacleList.length ∧
    ∀ ob ∈ (FlappyStartGame g).obstacleList, ob.expired = true := by
  refine ⟨rfl, rfl, rfl, ?_, ?_⟩
  · simp [FlappyStartGame, ObstacleResetAll, PlayerInit]
  · intro ob hob
    simp only [FlappyStartGame, ObstacleResetAll, PlayerInit, List.mem_map] at hob
    obtain ⟨o, -, rfl⟩ := hob
    rfl

theorem truncf_natCast (n : Nat) : truncf (n : ℚ) = (n : Int) := by
  unfold truncf
  have h : (0 : ℚ) ≤ (n : ℚ) := Nat.cast_nonneg n
  rw [if_pos h]
  show ⌊(n : ℚ)⌋ = (n : Int)
  exact Int.floor_natCast n

theorem f2u32_natCast (n : Nat) : f2u32 (n : ℚ) = n % 4294967296 := by
  unfold f2u32
  rw [truncf_natCast]
  omega

theorem sub32_of_le (a b : Nat) (hb : b ≤ a) (ha : a < 4294967296) : sub32 a b = a - b := by
  unfold sub32
  omega

@[simp]
theorem ColliderArenaPush_player (g : Flappy) (inst : Nat) (cb : Option ColliderCallback)
    (color : Nat) (init : SDL_Rect) : (ColliderArenaPush g inst cb color init).player = g.player := by
  simp only [ColliderArenaPush]; split <;> rfl

@[simp]
theorem ColliderArenaPush_timer (g : Flappy) (inst : Nat) (cb : Option ColliderCallback)
    (color : Nat) (init : SDL_Rect) : (ColliderArenaPush g inst cb color init).timer = g.timer := by
  simp only [ColliderArenaPush]; split <;> rfl

@[simp]
theorem ColliderArenaPush_obstacleList (g : Flappy) (inst : Nat) (cb : Option ColliderCallback)
    (color : Nat) (init : SDL_Rect) : (ColliderArenaPush g inst cb color init).obstacleList = g.obstacleList := by
  simp only [ColliderArenaPush]; split <;> rfl

@[simp]
theorem ColliderArenaPush_particleList (g : Flappy) (inst : Nat) (cb : Option ColliderCallback)
    (color : Nat) (init : SDL_Rect) : (ColliderArenaPush g inst cb color init).particleList = g.particleList := by
  simp only [ColliderArenaPush]; split <;> rfl

@[simp]
theorem ColliderArenaPush_rnd_pcg (g : Flappy) (inst : Nat) (cb : Option ColliderCallback)
    (color : Nat) (init : SDL_Rect) : (ColliderArenaPush g inst cb color init).rnd_pcg = g.rnd_pcg := by
  simp only [ColliderArenaPush]; split <;> rfl

@[simp]
theorem ColliderArenaPush_input (g : Flappy) (inst : Nat) (cb : Option ColliderCallback)
    (color : Nat) (init : SDL_Rect) : (ColliderArenaPush g inst cb color init).input = g.input := by
  simp only [ColliderArenaPush]; split <;> rfl

@[simp]
theorem ColliderArenaPush_theme (g : Flappy) (inst : Nat) (cb : Option ColliderCallback)
    (color : Nat) (init : SDL_Rect) : (ColliderArenaPush g inst cb color init).theme = g.theme := by
  simp only [ColliderArenaPush]; split <;> rfl

@[simp]
theorem ColliderArenaPush_state (g : Flappy) (inst : Nat) (cb : Option ColliderCallback)
    (color : Nat) (init : SDL_Rect) : (ColliderArenaPush g inst cb color init).state = g.state := by
  simp only [ColliderArenaPush]; split <;> rfl

@[simp]
theorem ColliderArenaPush_paused (g : Flappy) (inst : Nat) (cb : Option ColliderCallback)
    (color : Nat) (init : SDL_Rect) : (ColliderArenaPush g inst cb color init).paused = g.paused := by
  simp only [ColliderArenaPush]; split <;> rfl

@[simp]
theorem ColliderArenaPush_scale (g : Flappy) (inst : Nat) (cb : Option ColliderCallback)
    (color : Nat) (init : SDL_Rect) : (ColliderArenaPush g inst cb color init).scale = g.scale := by
  simp only [ColliderArenaPush]; split <;> rfl

@[simp]
theorem ColliderArenaPush_highscoreNew (g : Flappy) (inst : Nat) (cb : Option ColliderCallback)
    (color : Nat) (init : SDL_Rect) : (ColliderArenaPush g inst cb color init).highscoreNew = g.highscoreNew := by
  simp only [ColliderArenaPush]; split <;> rfl

@[simp]
theorem ColliderArenaPush_highscore (g : Flappy) (inst : Nat) (cb : Option ColliderCallback)
    (color : Nat) (init : SDL_Rect) : (ColliderArenaPush g inst cb color init).highscore = g.highscore := by
  simp only [ColliderArenaPush]; split <;> rfl

@[simp]
theorem ColliderArenaPush_score (g : Flappy) (inst : Nat) (cb : Option ColliderCallback)
    (color : Nat) (init : SDL_Rect) : (ColliderArenaPush g inst cb color init).score = g.score := by
  simp only [ColliderArenaPush]; split <;> rfl

@[simp]
theorem ColliderArenaPush_buttonhover (g : Flappy) (inst : Nat) (cb : Option ColliderCallback)
    (color : Nat) (init : SDL_Rect) : (ColliderArenaPush g inst cb color init).buttonhover = g.buttonhover := by
  simp only [ColliderArenaPush]; split <;> rfl

@[simp]
theorem ColliderArenaPush_playerflapped (g : Flappy) (inst : Nat) (cb : Option ColliderCallback)
    (color : Nat) (init : SDL_Rect) : (ColliderArenaPush g inst cb color init).playerflapped = g.playerflapped := by
  simp only [ColliderArenaPush]; split <;> rfl

@[simp]
theorem ColliderArenaPush_jabuHazardActive (g : Flappy) (inst : Nat) (cb : Option ColliderCallback)
    (color : Nat) (init : SDL_Rect) : (ColliderArenaPush g inst cb color init).jabuHazardActive = g.jabuHazardActive := by
  simp only [ColliderArenaPush]; split <;> rfl

@[simp]
theorem ColliderArenaPush_ticks (g : Flappy) (inst : Nat) (cb : Option ColliderCallback)
    (color : Nat) (init : SDL_Rect) : (ColliderArenaPush g inst cb color init).ticks = g.ticks := by
  simp only [ColliderArenaPush]; split <;> rfl

@[simp]
theorem ColliderArenaPush_stateTicks (g : Flappy) (inst : Nat) (cb : Option ColliderCallback)
    (color : Nat) (init : SDL_Rect) : (ColliderArenaPush g inst cb color init).stateTicks = g.stateTicks := by
  simp only [ColliderArenaPush]; split <;> rfl

@[simp]
theorem ColliderArenaPush_stateStartTime (g : Flappy) (inst : Nat) (cb : Option ColliderCallback)
    (color : Nat) (init : SDL_Rect) : (ColliderArenaPush g inst cb color init).stateStartTime = g.stateStartTime := by
  simp only [ColliderArenaPush]; split <;> rfl

@[simp]
theorem ColliderArenaPush_themeTicks (g : Flappy) (inst : Nat) (cb : Option ColliderCallback)
    (color : Nat) (init : SDL_Rect) : (ColliderArenaPush g inst cb color init).themeTicks = g.themeTicks := by
  simp only [ColliderArenaPush]; split <;> rfl

@[simp]
theorem ColliderArenaPush_themeStartTime (g : Flappy) (inst : Nat) (cb : Option ColliderCallback)
    (color : Nat) (init : SDL_Rect) : (ColliderArenaPush g inst cb color init).themeStartTime = g.themeStartTime := by
  simp only [ColliderArenaPush]; split <;> rfl

@[simp]
theorem ColliderArenaPush_last (g : Flappy) (inst : Nat) (cb : Option ColliderCallback)
    (color : Nat) (init : SDL_Rect) : (ColliderArenaPush g inst cb color init).last = g.last := by
  simp only [ColliderArenaPush]; split <;> rfl

/-- The height `PlayerUpdate` leaves in `player.y` for a live player in the
Playing state. -/
theorem PlayerUpdate_y (g : Flappy) (hd : g.player.isDead = false)
    (hs : g.state = FLAPPY_STATE_PLAYING) :
    (PlayerUpdate g).player.y =
      if g.playerflapped then
        ParabolaMotion g.player.parabola (sub32 g.ticks g.player.parabola.ticks)
      else g.player.y := by
  unfold PlayerUpdate
  rw [if_neg (by simp [hd]), if_neg (by simp [hs])]
  simp only [ColliderArenaPush_player]
  by_cases hf : g.playerflapped = true <;>
    by_cases hflap : (!g.buttonhover && g.player.mouseUp && g.input.mouseDown) = true <;>
    simp [hf, hflap, GhostPush]

/-- The query of `GhostY` at the player's own position: the newest entry of the
ring answers it. -/
theorem GhostY_at_player (g : Flappy) (player : Player) (hlt : g.ticks < 4294967296)
    (hle : (player.ghostAt 0).ticks ≤ g.ticks) :
    GhostY g player player.x =
      if (player.ghostAt 0).ticks = 0 then (((WINDOW_H * 2 : Int) : ℚ), 0)
      else (ParabolaMotion (player.ghostAt 0) (g.ticks - (player.ghostAt 0).ticks),
        g.ticks - (player.ghostAt 0).ticks) := by
  have hago : f2u32 (((player.x - player.x) / SCROLL_SPEED) * 1000) = 0 := by
    have : ((player.x - player.x) / SCROLL_SPEED) * 1000 = ((0 : Nat) : ℚ) := by simp
    rw [this, f2u32_natCast]
  have ht : sub32 g.ticks 0 = g.ticks := by
    rw [sub32_of_le _ _ (Nat.zero_le _) hlt]; rfl
  unfold GhostY
  simp only [hago, ht, if_neg (Nat.not_lt.mpr hle)]
  have h64 : ¬ (0 = GHOST_MAX) := by decide
  by_cases h0 : (player.ghostAt 0).ticks = 0
  · simp [h0]
  · simp only [h64, h0, or_self, if_false, sub32_of_le _ _ hle hlt]

/-- C9, as stated, fails at flap time 0: the ring holds the single flap
(46, 0), the query at tick 100 is at the player's own position, and `GhostY`
returns the off-screen value 224 and reports 0, whereas the live height of the
arc, which `PlayerUpdate` assigns to `player.y`, is 38. -/
theorem GhostY_single_flap_counterexample :
    GhostY gameFlapAtZero gameFlapAtZero.player gameFlapAtZero.player.x = (224, 0) ∧
    (PlayerUpdate gameFlapAtZero).player.y = 38 := by
  constructor
  · rw [GhostY_at_player gameFlapAtZero gameFlapAtZero.player (by decide) (by decide)]
    simp [gameFlapAtZero, Player.ghostAt, WINDOW_H]
  · rw [PlayerUpdate_y gameFlapAtZero rfl rfl]
    simp [gameFlapAtZero, ParabolaMotion, sub32, PLAYER_GRV, PLAYER_YVEL]
    norm_num

/-- C9, amended. For every flap time `T0 > 0`, height `Y0` and current time
`now = g.ticks >= T0` (a `uint32_t`), when the ghost ring holds the single flap
`(Y0, T0)` and all other entries are empty, `GhostY` queried at the player's
current horizontal position returns the height of the current arc,
`G*t^2 + V*t + Y0` with `t = (now - T0) / 1000`, `G = 200`, `V = -100`, and
reports `now - T0`; when `(Y0, T0)` is the player's current parabola, that
height is the value `PlayerUpdate` assigns to `player.y`. -/
theorem GhostY_single_flap (g : Flappy) (Y0 : ℚ) (T0 : Nat) (hT0 : 0 < T0) (hnow : T0 ≤ g.ticks)
    (hlt : g.ticks < 4294967296)
    (hring : g.player.ghost
      = { y := Y0, ticks := T0 } :: List.replicate 63 { y := 0, ticks := 0 }) :
    GhostY g g.player g.player.x =
      (200 * (((g.ticks - T0 : Nat) : ℚ) / 1000) ^ 2 + (-100) * (((g.ticks - T0 : Nat) : ℚ) / 1000)
        + Y0, g.ticks - T0) ∧
    (g.player.parabola = { y := Y0, ticks := T0 } → g.playerflapped = true →
      g.player.isDead = false → g.state = FLAPPY_STATE_PLAYING →
      (PlayerUpdate g).player.y = (GhostY g g.player g.player.x).1) := by
  have h0 : g.player.ghostAt 0 = { y := Y0, ticks := T0 } := by
    simp [Player.ghostAt, hring]
  have hG : GhostY g g.player g.player.x =
      (ParabolaMotion { y := Y0, ticks := T0 } (g.ticks - T0), g.ticks - T0) := by
    rw [GhostY_at_player g g.player hlt (by rw [h0]; exact hnow), h0]
    simp only [if_neg (Nat.pos_iff_ne_zero.mp hT0)]
  refine ⟨?_, ?_⟩
  · rw [hG]
    simp only [ParabolaMotion, PLAYER_GRV, PLAYER_YVEL, Prod.mk.injEq, and_true]
    ring
  · intro hp hf hd hs
    rw [hG]
    have hsub : sub32 g.ticks T0 = g.ticks - T0 := sub32_of_le _ _ hnow hlt
    rw [PlayerUpdate_y g hd hs, if_pos hf, hp]
    simp only [hsub]

theorem GhostY_single_flap_witness :
    GhostY gameEarlyFlap gameEarlyFlap.player gameEarlyFlap.player.x =
      (200 * (((gameEarlyFlap.ticks - 2500 : Nat) : ℚ) / 1000) ^ 2
        + (-100) * (((gameEarlyFlap.ticks - 2500 : Nat) : ℚ) / 1000) + 46,
        gameEarlyFlap.ticks - 2500) ∧
    (gameEarlyFlap.player.parabola = { y := 46, ticks := 2500 } →
      gameEarlyFlap.playerflapped = true →
      gameEarlyFlap.player.isDead = false → gameEarlyFlap.state = FLAPPY_STATE_PLAYING →
      (PlayerUpdate gameEarlyFlap).player.y
        = (GhostY gameEarlyFlap gameEarlyFlap.player gameEarlyFlap.player.x).1) :=
  GhostY_single_flap gameEarlyFlap 46 2500 (by decide) (by decide) (by decide) rfl

/-- C10 fails on the code. At tick 3000, with the single flap (46, 2500) in the
ring and the player at x = 92, the query at x = -32 lies 3875 ms back, before
every recorded flap; `game->ticks - ago` wraps to 4294966421, which is not below
the newest timestamp, so entry 0 is taken: `GhostY` reports 4294963921 as the
time since the flap and returns the parabola at that time, not 224. -/
theorem GhostY_wraps_before_start :
    f2u32 (((gameEarlyFlap.player.x - (-32)) / SCROLL_SPEED) * 1000) = 3875 ∧
    (GhostY gameEarlyFlap gameEarlyFlap.player (-32)).2 = 4294963921 ∧
    (GhostY gameEarlyFlap gameEarlyFlap.player (-32)).1 ≠ 224 := by
  have hago : f2u32 (((gameEarlyFlap.player.x - (-32)) / SCROLL_SPEED) * 1000) = 3875 := by
    have : ((gameEarlyFlap.player.x - (-32)) / SCROLL_SPEED) * 1000 = ((3875 : Nat) : ℚ) := by
      simp only [gameEarlyFlap, SCROLL_SPEED]
      norm_num
    rw [this, f2u32_natCast]
  have h0 : gameEarlyFlap.player.ghostAt 0 = { y := 46, ticks := 2500 } := rfl
  have ht : sub32 gameEarlyFlap.ticks 3875 = 4294966421 := by decide
  have hG : GhostY gameEarlyFlap gameEarlyFlap.player (-32) =
      (ParabolaMotion { y := 46, ticks := 2500 } 4294963921, 4294963921) := by
    unfold GhostY
    simp only [hago, ht, h0]
    have h1 : ¬ (4294966421 < 2500) := by decide
    have h2 : ¬ (0 = GHOST_MAX ∨ 2500 = 0) := by decide
    have h3 : sub32 4294966421 2500 = 4294963921 := by decide
    simp only [if_neg h1, h0, if_neg h2, h3]
  refine ⟨hago, by rw [hG], ?_⟩
  rw [hG]
  simp only [ParabolaMotion, PLAYER_GRV, PLAYER_YVEL]
  norm_num

/-- The loop of `GhostY` on a ring whose first `n` entries are all later than
`t` and whose other entries are empty ends on an empty entry or on `ghostEnd`. -/
theorem GhostY_scan_unrecorded (player : Player) (t n : Nat)
    (hrec : ∀ q, q < n → t < (player.ghostAt q).ticks)
    (hempty : ∀ q, n ≤ q → (player.ghostAt q).ticks = 0) (fuel p : Nat)
    (hp1 : 1 ≤ p) (hpn : p ≤ n) :
    GhostY.scan player t fuel p = GHOST_MAX ∨
      (player.ghostAt (GhostY.scan player t fuel p)).ticks = 0 := by
  induction fuel generalizing p with
  | zero => exact Or.inl rfl
  | succ fuel ih =>
    unfold GhostY.scan
    by_cases hc : t ≥ (player.ghostAt p).ticks ∧ t < (player.ghostAt (p - 1)).ticks
    · rw [if_pos hc]
      right
      by_cases hlt : p < n
      · have := hrec p hlt
        omega
      · exact hempty p (by omega)
    · rw [if_neg hc]
      apply ih (p + 1) (by omega)
      by_contra hgt
      have hpeq : p = n := by omega
      apply hc
      rw [hempty p (by omega)]
      exact ⟨Nat.zero_le _, hrec (p - 1) (by omega)⟩

/-- The off-screen answer of `GhostY` where `game->ticks - ago` does not wrap: if
the query lies `ago <= game->ticks` milliseconds back and the target time
`game->ticks - ago` is earlier than each of the `n` recorded flaps of the ring
(the other entries being empty), `GhostY` returns 224 and reports 0. -/
theorem GhostY_sentinel_of_no_wrap (g : Flappy) (player : Player) (x : ℚ) (n : Nat)
    (hlt : g.ticks < 4294967296)
    (hago : f2u32 (((player.x - x) / SCROLL_SPEED) * 1000) ≤ g.ticks)
    (hrec : ∀ q, q < n →
      g.ticks - f2u32 (((player.x - x) / SCROLL_SPEED) * 1000) < (player.ghostAt q).ticks)
    (hempty : ∀ q, n ≤ q → (player.ghostAt q).ticks = 0) :
    GhostY g player x = (224, 0) := by
  unfold GhostY
  simp only [sub32_of_le _ _ hago hlt]
  by_cases h0 : g.ticks - f2u32 (((player.x - x) / SCROLL_SPEED) * 1000) < (player.ghostAt 0).ticks
  · have hn : 1 ≤ n := by
      by_contra h
      have := hempty 0 (by omega)
      omega
    rw [if_pos h0]
    rcases GhostY_scan_unrecorded player _ n hrec hempty (GHOST_MAX - 1) 1 (le_refl 1) hn with h | h
    · rw [if_pos (Or.inl h)]; simp [WINDOW_H]
    · rw [if_pos (Or.inr h)]; simp [WINDOW_H]
  · rw [if_neg h0]
    have : (player.ghostAt 0).ticks = 0 := by
      by_contra h
      have hn : n = 0 := by
        by_contra hn
        exact h0 (hrec 0 (by omega))
      exact h (hempty 0 (by omega))
    rw [if_pos (Or.inr this)]; simp [WINDOW_H]

theorem poolReuse_forall₂ {α : Type} (e : α → Bool) (s : α → α) (l l' : List α)
    (h : poolReuse e s l = some l') :
    List.Forall₂ (fun a b => b = a ∨ (e a = true ∧ b = s a)) l l' := by
  induction l generalizing l' with
  | nil => simp [poolReuse] at h
  | cons a as ih =>
    unfold poolReuse at h
    split at h
    · rename_i he
      simp only [Option.some.injEq] at h
      subst h
      refine List.Forall₂.cons (Or.inr ⟨he, rfl⟩) ?_
      exact List.forall₂_same.mpr fun x _ => Or.inl rfl
    · cases hr : poolReuse e s as with
      | none => simp [hr] at h
      | some r =>
        simp only [hr, Option.map_some', Option.some.injEq] at h
        subst h
        exact List.Forall₂.cons (Or.inl rfl) (ih r hr)

theorem ObstacleUpdateAll_x_congr (g g' : Flappy) (ob : Obstacle) (h : g'.ticks = g.ticks) :
    ObstacleUpdateAll.x g' ob = ObstacleUpdateAll.x g ob := by
  simp [ObstacleUpdateAll.x, h]

theorem ObstacleUpdateAll_offScreen_congr (g g' : Flappy) (ob : Obstacle)
    (h : g'.ticks = g.ticks) :
    ObstacleUpdateAll.offScreen g' ob = ObstacleUpdateAll.offScreen g ob := by
  simp [ObstacleUpdateAll.offScreen, ObstacleUpdateAll_x_congr g g' ob h]

theorem ObstacleUpdateAll_counted_congr (g g' : Flappy) (ob : Obstacle) (h : g'.ticks = g.ticks)
    (hs : g'.state = g.state) (hp : g'.player = g.player) :
    ObstacleUpdateAll.counted g' ob = ObstacleUpdateAll.counted g ob := by
  simp [ObstacleUpdateAll.counted, ObstacleUpdateAll.scores, ObstacleUpdateAll_x_congr g g' ob h,
    ObstacleUpdateAll_offScreen_congr g g' ob h, hs, hp]

/-- One turn of the loop of `ObstacleUpdateAll`: what it leaves of the game and
of the node. -/
theorem ObstacleUpdateAll_visit_spec (g : Flappy) (rm : Int) (ob : Obstacle) :
    (ObstacleUpdateAll.visit g rm ob).1.ticks = g.ticks ∧
    (ObstacleUpdateAll.visit g rm ob).1.state = g.state ∧
    (ObstacleUpdateAll.visit g rm ob).1.player = g.player ∧
    (ObstacleUpdateAll.visit g rm ob).1.score
      = (if ObstacleUpdateAll.counted g ob then (g.score + 1) % 4294967296 else g.score) ∧
    (ObstacleUpdateAll.visit g rm ob).2.2.cleared
      = (ob.cleared || ObstacleUpdateAll.counted g ob) ∧
    (ObstacleUpdateAll.visit g rm ob).2.2.expired
      = (ob.expired || ObstacleUpdateAll.offScreen g ob) := by
  unfold ObstacleUpdateAll.visit ObstacleUpdateAll.counted
  by_cases he : ob.expired = true
  · simp [he]
  · by_cases hx : ObstacleUpdateAll.offScreen g ob = true
    · simp [he, hx]
    · by_cases hsc : ObstacleUpdateAll.scores g ob = true
      · simp [he, hx, hsc]
      · simp [he, hx, hsc]

theorem ObstacleUpdateAll_loop_spec (obs : List Obstacle) (g : Flappy) (rm : Int) :
    (ObstacleUpdateAll.loop obs g rm).1.ticks = g.ticks ∧
    (ObstacleUpdateAll.loop obs g rm).1.state = g.state ∧
    (ObstacleUpdateAll.loop obs g rm).1.player = g.player ∧
    (ObstacleUpdateAll.loop obs g rm).1.score
      = (if (obs.filter (ObstacleUpdateAll.counted g)).length = 0 then g.score
         else (g.score + (obs.filter (ObstacleUpdateAll.counted g)).length) % 4294967296) ∧
    List.Forall₂ (ObstacleUpdateAll.scrolled g) obs (ObstacleUpdateAll.loop obs g rm).2.2 := by
  induction obs generalizing g rm with
  | nil => simp [ObstacleUpdateAll.loop]
  | cons ob obs ih =>
    obtain ⟨v1, v2, v3, v4, v5, v6⟩ := ObstacleUpdateAll_visit_spec g rm ob
    obtain ⟨l1, l2, l3, l4, l5⟩ :=
      ih (ObstacleUpdateAll.visit g rm ob).1 (ObstacleUpdateAll.visit g rm ob).2.1
    have hc : ∀ o, ObstacleUpdateAll.counted (ObstacleUpdateAll.visit g rm ob).1 o
        = ObstacleUpdateAll.counted g o :=
      fun o => ObstacleUpdateAll_counted_congr g _ o v1 v2 v3
    have ho : ∀ o, ObstacleUpdateAll.offScreen (ObstacleUpdateAll.visit g rm ob).1 o
        = ObstacleUpdateAll.offScreen g o :=
      fun o => ObstacleUpdateAll_offScreen_congr g _ o v1
    have hf : obs.filter (ObstacleUpdateAll.counted (ObstacleUpdateAll.visit g rm ob).1)
        = obs.filter (ObstacleUpdateAll.counted g) := by
      congr 1
      funext o
      exact hc o
    simp only [ObstacleUpdateAll.loop]
    refine ⟨l1.trans v1, l2.trans v2, l3.trans v3, ?_, ?_⟩
    · rw [l4, v4, hf]
      by_cases hcnt : ObstacleUpdateAll.counted g ob = true
      · simp only [hcnt, if_true, List.filter_cons_of_pos, List.length_cons]
        by_cases hz : (obs.filter (ObstacleUpdateAll.counted g)).length = 0
        · simp [hz]
        · simp only [hz, if_false, Nat.add_one_ne_zero]
          omega
      · simp only [hcnt, Bool.false_eq_true, if_false, List.filter_cons_of_neg, not_false_eq_true]
    · refine List.Forall₂.cons ⟨v5, v6⟩ ?_
      refine List.Forall₂.imp ?_ l5
      intro a b hab
      unfold ObstacleUpdateAll.scrolled at hab ⊢
      rw [hc a, ho a] at hab
      exact hab

theorem ObstaclePush_failsafe_frame (v : Nat) (g : Flappy) :
    ∃ rnd, (ObstaclePush.failsafe v g).2 = { g with rnd_pcg := rnd } := by
  unfold ObstaclePush.failsafe
  split_ifs
  · exact ⟨g.rnd_pcg, rfl⟩
  · exact ⟨g.rnd_pcg, rfl⟩
  · exact ⟨_, rfl⟩

theorem ObstaclePush_streak_frame (v : Nat) (g : Flappy) :
    ∃ rnd, (ObstaclePush.streak v g).2 = { g with rnd_pcg := rnd } := by
  unfold ObstaclePush.streak
  simp only []
  split_ifs
  · exact ObstaclePush_failsafe_frame _ g
  · exact ⟨g.rnd_pcg, rfl⟩
  · exact ⟨g.rnd_pcg, rfl⟩

theorem ObstaclePush_jabu_frame (v : Nat) (g : Flappy) :
    ∃ rnd, (ObstaclePush.jabu v g).2 = { g with rnd_pcg := rnd } := by
  unfold ObstaclePush.jabu
  split_ifs
  · exact ⟨g.rnd_pcg, rfl⟩
  · exact ⟨_, rfl⟩
  · exact ⟨g.rnd_pcg, rfl⟩

/-- The part `resolve` of `ObstaclePush` writes the generator and the history
only. -/
theorem ObstaclePush_resolve_frame (g : Flappy) :
    ∃ rnd last, (ObstaclePush.resolve g).2 = { g with rnd_pcg := rnd, last := last } := by
  unfold ObstaclePush.resolve
  obtain ⟨r1, h1⟩ := ObstaclePush_streak_frame ((FlappyRand g).1 % 3) (FlappyRand g).2
  obtain ⟨r2, h2⟩ := ObstaclePush_jabu_frame
    (ObstaclePush.streak ((FlappyRand g).1 % 3) (FlappyRand g).2).1
    (ObstaclePush.streak ((FlappyRand g).1 % 3) (FlappyRand g).2).2
  simp only []
  rw [h2, h1]
  exact ⟨_, _, rfl⟩

theorem ObstaclePush_spec (g : Flappy) :
    (ObstaclePush g).score = g.score ∧ (ObstaclePush g).state = g.state ∧
    (ObstaclePush g).player = g.player ∧ (ObstaclePush g).ticks = g.ticks ∧
    (ObstaclePush g).colliderList = g.colliderList ∧ (ObstaclePush g).scale = g.scale ∧
    ∃ pre l', (ObstaclePush g).obstacleList = pre ++ l' ∧
      List.Forall₂ ObstaclePush.reused g.obstacleList l' := by
  obtain ⟨rnd, last, hf⟩ := ObstaclePush_resolve_frame g
  simp only [ObstaclePush]
  cases hr : poolReuse (fun ob => ob.expired) _ g.obstacleList with
  | none =>
    simp only []
    rw [hf]
    refine ⟨rfl, rfl, rfl, rfl, rfl, rfl, [_], g.obstacleList, rfl, ?_⟩
    exact List.forall₂_same.mpr fun x _ => Or.inl rfl
  | some l =>
    simp only []
    rw [hf]
    refine ⟨rfl, rfl, rfl, rfl, rfl, rfl, [], l, rfl, ?_⟩
    refine List.Forall₂.imp ?_ (poolReuse_forall₂ _ _ _ _ hr)
    intro a b hab
    rcases hab with h | ⟨h1, h2⟩
    · exact Or.inl h
    · exact Or.inr ⟨h1, by rw [h2], by rw [h2]⟩

theorem forall₂_comp {α β γ : Type} {R : α → β → Prop} {S : β → γ → Prop} {l : List α}
    {m : List β} {n : List γ} (h1 : List.Forall₂ R l m) (h2 : List.Forall₂ S m n) :
    List.Forall₂ (fun a c => ∃ b, R a b ∧ S b c) l n := by
  induction h1 generalizing n with
  | nil => cases h2; exact List.Forall₂.nil
  | cons hab _ ih =>
    cases h2 with
    | cons hbc htl => exact List.Forall₂.cons ⟨_, hab, hbc⟩ (ih htl)

theorem forall₂_getElem? {α β : Type} {R : α → β → Prop} {l : List α} {m : List β}
    (h : List.Forall₂ R l m) (i : Nat) (a : α) (b : β) (ha : l[i]? = some a)
    (hb : m[i]? = some b) : R a b := by
  induction h generalizing i with
  | nil => simp at ha
  | cons hab _ ih =>
    cases i with
    | zero =>
      simp only [List.getElem?_cons_zero, Option.some.injEq] at ha hb
      subst ha; subst hb; exact hab
    | succ i => exact ih i (by simpa using ha) (by simpa using hb)

theorem ObstacleUpdateAll_counted_imp (g : Flappy) (a : Obstacle)
    (h : ObstacleUpdateAll.counted g a = true) :
    a.expired = false ∧ a.cleared = false ∧ ObstacleUpdateAll.offScreen g a = false := by
  simp only [ObstacleUpdateAll.counted, ObstacleUpdateAll.scores, Bool.and_eq_true,
    Bool.not_eq_true', decide_eq_true_eq] at h
  exact ⟨h.1.1, h.2.1.2, h.1.2⟩

theorem ObstacleUpdateAll_updated_counted (g : Flappy) (a c : Obstacle)
    (h : ObstacleUpdateAll.updated g a c) :
    (!a.expired && !a.cleared && c.cleared) = ObstacleUpdateAll.counted g a := by
  obtain ⟨b, ⟨hb1, hb2⟩, hbc⟩ := h
  cases hcnt : ObstacleUpdateAll.counted g a with
  | true =>
    obtain ⟨h1, h2, h3⟩ := ObstacleUpdateAll_counted_imp g a hcnt
    rcases hbc with hbc | ⟨hbe, -, -⟩
    · rw [hbc, hb1, hcnt, h1, h2]; rfl
    · rw [hb2, h1, h3] at hbe; cases hbe
  | false =>
    rcases hbc with hbc | ⟨hbe, hcc, -⟩
    · rw [hbc, hb1, hcnt]
      cases a.expired <;> cases a.cleared <;> rfl
    · rw [hcc]; simp

theorem newlyCleared_of_updated (g : Flappy) (old new : List Obstacle)
    (h : List.Forall₂ (ObstacleUpdateAll.updated g) old new) :
    newlyCleared old new = (old.filter (ObstacleUpdateAll.counted g)).length := by
  unfold newlyCleared
  induction h with
  | nil => rfl
  | @cons a c l₁ l₂ hab _ ih =>
    have := ObstacleUpdateAll_updated_counted g a c hab
    simp only [List.zip_cons_cons, List.filter_cons, this]
    split_ifs <;> simp [ih]

theorem ObstacleUpdateAll_scroll_spec (g : Flappy) :
    (ObstacleUpdateAll.scroll g).1.score
      = (if (g.obstacleList.filter (ObstacleUpdateAll.counted g)).length = 0 then g.score
         else (g.score + (g.obstacleList.filter (ObstacleUpdateAll.counted g)).length)
           % 4294967296) ∧
    List.Forall₂ (ObstacleUpdateAll.scrolled g) g.obstacleList
      (ObstacleUpdateAll.scroll g).1.obstacleList := by
  obtain ⟨-, -, -, l4, l5⟩ := ObstacleUpdateAll_loop_spec g.obstacleList g 0
  exact ⟨l4, l5⟩

/-- The whole call of `ObstacleUpdateAll`: the score, and the pool as the nodes
there were, updated, behind at most one new node. -/
theorem ObstacleUpdateAll_spec (g : Flappy) :
    (ObstacleUpdateAll g).score
      = (if (g.obstacleList.filter (ObstacleUpdateAll.counted g)).length = 0 then g.score
         else (g.score + (g.obstacleList.filter (ObstacleUpdateAll.counted g)).length)
           % 4294967296) ∧
    ∃ pre l', (ObstacleUpdateAll g).obstacleList = pre ++ l' ∧
      List.Forall₂ (ObstacleUpdateAll.updated g) g.obstacleList l' := by
  obtain ⟨l4, l5⟩ := ObstacleUpdateAll_scroll_spec g
  by_cases h : (ObstacleUpdateAll.scroll g).2 < WINDOW_W - OB_DIST
  · have e : ObstacleUpdateAll g = ObstaclePush (ObstacleUpdateAll.scroll g).1 := by
      unfold ObstacleUpdateAll
      simp only [h, if_true]
    obtain ⟨p1, -, -, -, -, -, pre, l', p7, p8⟩ := ObstaclePush_spec (ObstacleUpdateAll.scroll g).1
    rw [e]
    exact ⟨p1.trans l4, pre, l', p7, forall₂_comp l5 p8⟩
  · have e : ObstacleUpdateAll g = (ObstacleUpdateAll.scroll g).1 := by
      unfold ObstacleUpdateAll
      simp only [h, if_false]
    rw [e]
    refine ⟨l4, [], _, rfl, ?_⟩
    refine List.Forall₂.imp ?_ l5
    intro a b hab
    exact ⟨b, hab, Or.inl rfl⟩

theorem ObstacleUpdateAll_oldNodes (g : Flappy) :
    List.Forall₂ (ObstacleUpdateAll.updated g) g.obstacleList (ObstacleUpdateAll.oldNodes g) := by
  obtain ⟨-, pre, l', h1, h2⟩ := ObstacleUpdateAll_spec g
  have hlen : l'.length = g.obstacleList.length := h2.length_eq.symm
  unfold ObstacleUpdateAll.oldNodes
  rw [h1, List.length_append, hlen, Nat.add_sub_cancel, List.drop_left]
  exact h2

/-- C6, amended. One call of `ObstacleUpdateAll` leaves the nodes the pool had
in place (behind the node it may allocate) and raises the score, an
`unsigned`, by exactly the number of nodes that were live and not cleared
before the call and are cleared after it. The only nodes whose `cleared` flag
it sets back to 0 are nodes that were expired or scrolled off the screen in
this call and that `ObstaclePush` re-uses for the obstacle it spawns; an
obstacle that is live, cleared and still on screen stays live and cleared, and
so is never credited again. -/
theorem ObstacleUpdateAll_scoring (g : Flappy) :
    (ObstacleUpdateAll.oldNodes g).length = g.obstacleList.length ∧
    (ObstacleUpdateAll g).score =
      (if newlyCleared g.obstacleList (ObstacleUpdateAll.oldNodes g) = 0 then g.score
       else (g.score + newlyCleared g.obstacleList (ObstacleUpdateAll.oldNodes g))
         % 4294967296) ∧
    (∀ (i : Nat) (a c : Obstacle), g.obstacleList[i]? = some a →
      (ObstacleUpdateAll.oldNodes g)[i]? = some c → a.cleared = true →
      c.cleared = true ∨
        ((a.expired = true ∨ ObstacleUpdateAll.offScreen g a = true) ∧
          c.expired = false ∧ c.cleared = false)) ∧
    (∀ (i : Nat) (a c : Obstacle), g.obstacleList[i]? = some a →
      (ObstacleUpdateAll.oldNodes g)[i]? = some c → a.expired = false → a.cleared = true →
      ObstacleUpdateAll.offScreen g a = false → c.expired = false ∧ c.cleared = true) := by
  have hold := ObstacleUpdateAll_oldNodes g
  refine ⟨hold.length_eq.symm, ?_, ?_, ?_⟩
  · rw [newlyCleared_of_updated g _ _ hold]
    exact (ObstacleUpdateAll_spec g).1
  · intro i a c ha hc hcl
    obtain ⟨b, ⟨hb1, hb2⟩, hbc⟩ := forall₂_getElem? hold i a c ha hc
    rcases hbc with hbc | ⟨hbe, hcc, hce⟩
    · left
      rw [hbc, hb1, hcl]; rfl
    · right
      refine ⟨?_, hce, hcc⟩
      rw [hb2] at hbe
      simpa using hbe
  · intro i a c ha hc hae hcl hoff
    obtain ⟨b, ⟨hb1, hb2⟩, hbc⟩ := forall₂_getElem? hold i a c ha hc
    rw [hae, hoff] at hb2
    rcases hbc with hbc | ⟨hbe, -, -⟩
    · rw [hbc, hb1, hb2, hcl]; exact ⟨rfl, rfl⟩
    · rw [hb2] at hbe; cases hbe

theorem truncf_lt_of_lt (q : ℚ) (n : Int) (h0 : 0 ≤ q) (h : q < (n : ℚ)) : truncf q < n := by
  unfold truncf
  rw [if_pos h0]
  show ⌊q⌋ < n
  exact Int.floor_lt.mpr h

theorem ObstacleUpdateAll_visit_rightmost (g : Flappy) (rm : Int) (ob : Obstacle) :
    (ObstacleUpdateAll.visit g rm ob).2.1 =
      if ob.expired then rm
      else if ObstacleUpdateAll.x g ob > (rm : ℚ) then truncf (ObstacleUpdateAll.x g ob) else rm := by
  unfold ObstacleUpdateAll.visit
  by_cases he : ob.expired = true
  · simp [he]
  · by_cases hx : ObstacleUpdateAll.offScreen g ob = true
    · simp [he, hx]
    · simp [he, hx]

/-- The variable `rightmost` stays below a bound that every live node is
left of. -/
theorem ObstacleUpdateAll_rightmost_lt (obs : List Obstacle) (g : Flappy) (rm n : Int)
    (hrm : rm < n) (h0 : 0 ≤ rm)
    (h : ∀ ob ∈ obs, ob.expired = false → ObstacleUpdateAll.x g ob < (n : ℚ)) :
    (ObstacleUpdateAll.loop obs g rm).2.1 < n ∧ 0 ≤ (ObstacleUpdateAll.loop obs g rm).2.1 := by
  induction obs generalizing g rm with
  | nil => exact ⟨hrm, h0⟩
  | cons ob obs ih =>
    obtain ⟨v1, -, -, -, -, -⟩ := ObstacleUpdateAll_visit_spec g rm ob
    have hv : (ObstacleUpdateAll.visit g rm ob).2.1 < n ∧ 0 ≤ (ObstacleUpdateAll.visit g rm ob).2.1 := by
      rw [ObstacleUpdateAll_visit_rightmost]
      by_cases he : ob.expired = true
      · simp only [he, if_true]; exact ⟨hrm, h0⟩
      · have hx := h ob (List.mem_cons_self _ _) (by simpa using he)
        have hr : (if ObstacleUpdateAll.x g ob > (rm : ℚ) then truncf (ObstacleUpdateAll.x g ob)
            else rm) < n ∧ 0 ≤ (if ObstacleUpdateAll.x g ob > (rm : ℚ) then
              truncf (ObstacleUpdateAll.x g ob) else rm) := by
          split_ifs with hgt
          · have h0q : (0 : ℚ) ≤ ObstacleUpdateAll.x g ob := by
              have : ((0 : Int) : ℚ) ≤ (rm : ℚ) := by exact_mod_cast h0
              simp only [Int.cast_zero] at this
              exact le_of_lt (lt_of_le_of_lt this hgt)
            refine ⟨truncf_lt_of_lt _ _ h0q hx, ?_⟩
            unfold truncf
            rw [if_pos h0q]
            show 0 ≤ ⌊ObstacleUpdateAll.x g ob⌋
            exact Int.floor_nonneg.mpr h0q
          · exact ⟨hrm, h0⟩
        simp only [he, Bool.false_eq_true, if_false]
        exact hr
    simp only [ObstacleUpdateAll.loop]
    apply ih _ _ hv.1 hv.2
    intro o ho hoe
    rw [ObstacleUpdateAll_x_congr g _ o v1]
    exact h o (List.mem_cons_of_mem _ ho) hoe

/-- C6, as stated, fails: in this game the second node of the pool is live and
cleared; it has scrolled off the screen at this tick, so the loop of
`ObstacleUpdateAll` expires it, and since no obstacle is near the right edge
`ObstaclePush` re-uses it for the new obstacle: the call sets the `cleared`
flag of the node back to 0 (and leaves the score as it was). -/
theorem ObstacleUpdateAll_resets_cleared :
    gameScrolledOff.obstacleList.map (fun ob => (ob.expired, ob.cleared))
      = [(false, false), (false, true)] ∧
    (ObstacleUpdateAll gameScrolledOff).obstacleList.map (fun ob => (ob.expired, ob.cleared))
      = [(false, false), (false, false)] ∧
    (ObstacleUpdateAll gameScrolledOff).score = gameScrolledOff.score := by
  have hl : gameScrolledOff.obstacleList =
      [ { upper := { x := -100, y := -100, w := 16, h := 64 },
          lower := { x := -100, y := -100, w := 16, h := 64 },
          x := 0, y := 50, ticks := 4400, expired := false, cleared := false },
        { upper := { x := 75, y := 0, w := 16, h := 64 },
          lower := { x := 75, y := 88, w := 16, h := 64 },
          x := 376 / 5, y := 76, ticks := 0, expired := false, cleared := true } ] := rfl
  have hs1 : sub32 8000 4400 = 3600 := by decide
  have hs2 : sub32 8000 0 = 8000 := by decide
  have hxB : ∀ ob : Obstacle, ob.ticks = 4400 → ObstacleUpdateAll.x gameScrolledOff ob = 504 / 5 := by
    intro ob h
    simp only [ObstacleUpdateAll.x, gameScrolledOff, h, hs1, WORLD_SCROLL, SCROLL_SPEED, WINDOW_W,
      OB_W]
    norm_num
  have hxA : ∀ ob : Obstacle, ob.ticks = 0 → ObstacleUpdateAll.x gameScrolledOff ob = -40 := by
    intro ob h
    simp only [ObstacleUpdateAll.x, gameScrolledOff, h, hs2, WORLD_SCROLL, SCROLL_SPEED, WINDOW_W,
      OB_W]
    norm_num
  obtain ⟨hscore, hscr⟩ := ObstacleUpdateAll_scroll_spec gameScrolledOff
  have hrm := (ObstacleUpdateAll_rightmost_lt gameScrolledOff.obstacleList gameScrolledOff 0
    (WINDOW_W - OB_DIST) (by decide) (le_refl _) (by
      intro ob hob _
      rw [hl] at hob
      simp only [List.mem_cons, List.mem_singleton, List.not_mem_nil, or_false] at hob
      rcases hob with h | h
      · rw [hxB ob (by rw [h])]; norm_num [WINDOW_W, OB_DIST]
      · rw [hxA ob (by rw [h])]; norm_num [WINDOW_W, OB_DIST])).1
  have hu : ObstacleUpdateAll gameScrolledOff
      = ObstaclePush (ObstacleUpdateAll.scroll gameScrolledOff).1 := by
    unfold ObstacleUpdateAll
    have : (ObstacleUpdateAll.scroll gameScrolledOff).2 < WINDOW_W - OB_DIST := hrm
    simp only [this, if_true]
  have hcnt : gameScrolledOff.obstacleList.filter (ObstacleUpdateAll.counted gameScrolledOff)
      = [] := by
    rw [hl]
    simp only [List.filter_eq_nil_iff, List.mem_cons, List.mem_singleton, List.not_mem_nil,
      or_false]
    intro ob hob
    rcases hob with h | h
    · simp only [ObstacleUpdateAll.counted, ObstacleUpdateAll.scores, hxB ob (by rw [h]),
        PlayerGetX, OB_W]
      rw [h]
      simp [gameScrolledOff]
      norm_num
    · simp only [ObstacleUpdateAll.counted, ObstacleUpdateAll.scores]
      rw [h]
      simp
  rw [hl] at hscr
  obtain ⟨b', u', hB', htl, hlist⟩ := List.forall₂_cons_left_iff.mp hscr
  obtain ⟨a', u'', hA', htl2, hlist2⟩ := List.forall₂_cons_left_iff.mp htl
  have hnil : u'' = [] := by cases htl2; rfl
  subst hnil
  subst hlist2
  have hBe : b'.expired = false := by
    rw [hB'.2]
    simp [ObstacleUpdateAll.offScreen, hxB, OB_W]
    norm_num
  have hBc : b'.cleared = false := by
    rw [hB'.1]
    have := hcnt
    rw [hl] at this
    simp only [List.filter_eq_nil_iff, List.mem_cons, List.mem_singleton] at this
    simpa using this _ (Or.inl rfl)
  have hAe : a'.expired = true := by
    rw [hA'.2]
    simp [ObstacleUpdateAll.offScreen, hxA, OB_W]
    norm_num
  refine ⟨rfl, ?_, ?_⟩
  · rw [hu]
    generalize (ObstacleUpdateAll.scroll gameScrolledOff).1 = G at hlist
    simp only [ObstaclePush, hlist, poolReuse, hBe, hAe, Bool.false_eq_true, if_false,
      if_true, Option.map_some', List.map_cons, List.map_nil, hBc]
  · rw [hu, (ObstaclePush_spec _).1, hscore, hcnt]
    rfl

theorem keepsArena_refl (g : Flappy) : g.keepsArena g :=
  ⟨rfl, rfl, rfl, ⟨rfl, rfl⟩, fun _ h _ => h⟩

theorem keepsArena_trans {g g' g'' : Flappy} (h1 : g.keepsArena g') (h2 : g'.keepsArena g'') :
    g.keepsArena g'' := by
  obtain ⟨a1, a2, a3, ⟨a5, a6⟩, a4⟩ := h1
  obtain ⟨b1, b2, b3, ⟨b5, b6⟩, b4⟩ := h2
  refine ⟨b1.trans a1, b2.trans a2, b3.trans a3, ⟨b5.trans a5, b6.trans a6⟩, ?_⟩
  intro c hc he
  exact b4 c (a4 c hc he) he

theorem poolReuse_mem {α : Type} (e : α → Bool) (s : α → α) (l l' : List α)
    (h : poolReuse e s l = some l') :
    (∀ a ∈ l, e a = false → a ∈ l') ∧ ∃ a ∈ l, s a ∈ l' := by
  induction l generalizing l' with
  | nil => simp [poolReuse] at h
  | cons a as ih =>
    unfold poolReuse at h
    split at h
    · rename_i he
      simp only [Option.some.injEq] at h
      subst h
      refine ⟨?_, a, List.mem_cons_self _ _, List.mem_cons_self _ _⟩
      intro x hx hxe
      rcases List.mem_cons.mp hx with hx | hx
      · rw [hx, he] at hxe; cases hxe
      · exact List.mem_cons_of_mem _ hx
    · cases hr : poolReuse e s as with
      | none => simp [hr] at h
      | some r =>
        simp only [hr, Option.map_some', Option.some.injEq] at h
        subst h
        obtain ⟨i1, x, hx, hsx⟩ := ih r hr
        refine ⟨?_, x, List.mem_cons_of_mem _ hx, List.mem_cons_of_mem _ hsx⟩
        intro y hy hye
        rcases List.mem_cons.mp hy with hy | hy
        · rw [hy]; exact List.mem_cons_self _ _
        · exact List.mem_cons_of_mem _ (i1 y hy hye)

/-- `ColliderArenaPush` registers the collider and keeps every live one. -/
theorem ColliderArenaPush_mem (g : Flappy) (inst : Nat) (cb : Option ColliderCallback)
    (color : Nat) (init : SDL_Rect) :
    ({ inst := inst, rect := init, expired := false, touched := false, color := color,
       group := color, cb := cb } : Collider) ∈ (ColliderArenaPush g inst cb color init).colliderList ∧
    ∀ c ∈ g.colliderList, c.expired = false →
      c ∈ (ColliderArenaPush g inst cb color init).colliderList := by
  simp only [ColliderArenaPush]
  cases hr : poolReuse (fun c => c.expired) _ g.colliderList with
  | none =>
    simp only []
    exact ⟨List.mem_cons_self _ _, fun c hc _ => List.mem_cons_of_mem _ hc⟩
  | some l =>
    simp only []
    obtain ⟨h1, x, -, hx⟩ := poolReuse_mem _ _ _ _ hr
    exact ⟨hx, h1⟩

theorem ColliderArenaPush_keeps (g : Flappy) (inst : Nat) (cb : Option ColliderCallback)
    (color : Nat) (init : SDL_Rect) : g.keepsArena (ColliderArenaPush g inst cb color init) :=
  ⟨by simp, by simp, by simp, ⟨by simp, by simp⟩, (ColliderArenaPush_mem g inst cb color init).2⟩

theorem ColliderInitRect_congr (g g' : Flappy) (h : g'.scale = g.scale) (x y w h' : ℚ) :
    ColliderInitRect g' x y w h' = ColliderInitRect g x y w h' := by
  simp [ColliderInitRect, h]

theorem JabuHazardHeight_frame (sinq : ℚ → ℚ) (g : Flappy) :
    ∃ b, (JabuHazardHeight sinq g).2 = { g with jabuHazardActive := b } := by
  unfold JabuHazardHeight
  simp only []
  split_ifs <;> exact ⟨_, rfl⟩

theorem WorldDoHazards_keeps (sinq : ℚ → ℚ) (g : Flappy) :
    g.keepsArena (WorldDoHazards sinq g) ∧ (WorldDoHazards sinq g).score = g.score := by
  unfold WorldDoHazards
  split_ifs
  · obtain ⟨b, hb⟩ := JabuHazardHeight_frame sinq g
    simp only []
    refine ⟨@keepsArena_trans g (JabuHazardHeight sinq g).2 _ ?_ (ColliderArenaPush_keeps _ _ _ _ _),
      ?_⟩
    · rw [hb]; exact ⟨rfl, rfl, rfl, ⟨rfl, rfl⟩, fun _ h _ => h⟩
    · rw [ColliderArenaPush_score, hb]
  · exact ⟨keepsArena_refl g, rfl⟩

theorem ObstacleUpdateAll_visit_keeps (g : Flappy) (rm : Int) (ob : Obstacle) :
    g.keepsArena (ObstacleUpdateAll.visit g rm ob).1 := by
  unfold ObstacleUpdateAll.visit
  by_cases he : ob.expired = true
  · simp only [he, if_true]; exact keepsArena_refl g
  · by_cases hx : ObstacleUpdateAll.offScreen g ob = true
    · simp only [he, hx, if_true, Bool.false_eq_true, if_false]; exact keepsArena_refl g
    · simp only [he, hx, Bool.false_eq_true, if_false]
      refine keepsArena_trans (keepsArena_trans ?_ (ColliderArenaPush_keeps _ _ _ _ _))
        (ColliderArenaPush_keeps _ _ _ _ _)
      split_ifs
      · exact ⟨rfl, rfl, rfl, ⟨rfl, rfl⟩, fun _ h _ => h⟩
      · exact keepsArena_refl g

theorem ObstacleUpdateAll_loop_keeps (obs : List Obstacle) (g : Flappy) (rm : Int) :
    g.keepsArena (ObstacleUpdateAll.loop obs g rm).1 := by
  induction obs generalizing g rm with
  | nil => exact keepsArena_refl g
  | cons ob obs ih =>
    simp only [ObstacleUpdateAll.loop]
    exact keepsArena_trans (ObstacleUpdateAll_visit_keeps g rm ob) (ih _ _)

theorem ObstacleUpdateAll_keeps (g : Flappy) : g.keepsArena (ObstacleUpdateAll g) := by
  have hs : g.keepsArena (ObstacleUpdateAll.scroll g).1 := by
    obtain ⟨a1, a2, a3, a5, a4⟩ := ObstacleUpdateAll_loop_keeps g.obstacleList g 0
    exact ⟨a1, a2, a3, a5, a4⟩
  unfold ObstacleUpdateAll
  simp only []
  split_ifs
  · obtain ⟨-, p2, p3, p4, p5, p6, -⟩ := ObstaclePush_spec (ObstacleUpdateAll.scroll g).1
    refine keepsArena_trans hs ⟨p6, p2, p3, ⟨?_, p4⟩, ?_⟩
    · obtain ⟨rnd, last, hf⟩ := ObstaclePush_resolve_frame (ObstacleUpdateAll.scroll g).1
      simp only [ObstaclePush]
      split <;> (simp only []; rw [hf])
    · intro c hc _
      rw [p5]; exact hc
  · exact hs

/-- For a live player in the Playing state `PlayerUpdate` ends by registering
the player's collider, with the callback `OnTouchWorld`. -/
theorem PlayerUpdate_alive (g : Flappy) (hd : g.player.isDead = false)
    (hs : g.state = FLAPPY_STATE_PLAYING) :
    ∃ gm : Flappy, PlayerUpdate g = ColliderArenaPush gm 1 (some OnTouchWorld_ptr) COLOR_PLAYER
        (PlayerUpdate.rect gm) ∧
      gm.colliderList = g.colliderList ∧ gm.scale = g.scale ∧ gm.state = g.state ∧
      gm.score = g.score ∧ gm.player.isDead = false := by
  unfold PlayerUpdate
  rw [if_neg (by simp [hd]), if_neg (by simp [hs])]
  simp only []
  refine ⟨_, rfl, ?_, ?_, ?_, ?_, ?_⟩
  · split_ifs <;> rfl
  · split_ifs <;> rfl
  · split_ifs <;> rfl
  · split_ifs <;> rfl
  · by_cases hf : g.playerflapped = true <;>
      by_cases hflap : (!g.buttonhover && g.player.mouseUp && g.input.mouseDown) = true <;>
      simp [hf, hflap, GhostPush, hd]

theorem PlayerUpdate_of_not_playing (g : Flappy) (hs : g.state ≠ FLAPPY_STATE_PLAYING) :
    PlayerUpdate g = g := by
  unfold PlayerUpdate
  split_ifs <;> rfl

theorem PlayerUpdate_rect_congr (g g' : Flappy) (hs : g'.scale = g.scale)
    (hp : g'.player = g.player) : PlayerUpdate.rect g' = PlayerUpdate.rect g := by
  simp [PlayerUpdate.rect, ColliderInitRect, hs, hp]

theorem floorRect_congr (g g' : Flappy) (hs : g'.scale = g.scale) :
    FlappyUpdate.floorRect g' = FlappyUpdate.floorRect g := by
  simp [FlappyUpdate.floorRect, ColliderInitRect, hs]

theorem timers_frame (freq counter : Nat) (g : Flappy) :
    (FlappyUpdate.timers freq counter g).state = g.state ∧
    (FlappyUpdate.timers freq counter g).player = g.player ∧
    (FlappyUpdate.timers freq counter g).scale = g.scale ∧
    (FlappyUpdate.timers freq counter g).score = g.score :=
  ⟨rfl, rfl, rfl, rfl⟩

/-- The registrations of a tick that starts in the Playing state with a live
player: the arena holds the live floor collider and the live, unmarked collider
of the player, with its callback. -/
theorem register_playing (sinq : ℚ → ℚ) (freq counter : Nat) (g : Flappy)
    (hs : g.state = FLAPPY_STATE_PLAYING) (hd : g.player.isDead = false) :
    (∃ f ∈ (FlappyUpdate.register sinq freq counter g).colliderList,
      f.expired = false ∧ f.group = COLOR_WORLD ∧
      f.rect = FlappyUpdate.floorRect (FlappyUpdate.register sinq freq counter g)) ∧
    (∃ p ∈ (FlappyUpdate.register sinq freq counter g).colliderList,
      p.expired = false ∧ p.touched = false ∧ p.cb = some OnTouchWorld_ptr ∧
      p.group = COLOR_PLAYER ∧
      p.rect = PlayerUpdate.rect (FlappyUpdate.register sinq freq counter g)) := by
  unfold FlappyUpdate.register
  simp only []
  obtain ⟨t1, t2, t3, -⟩ := timers_frame freq counter g
  generalize FlappyUpdate.timers freq counter g = g1 at t1 t2 t3 ⊢
  have h1s : g1.state = FLAPPY_STATE_PLAYING := by rw [t1]; exact hs
  have h1d : g1.player.isDead = false := by rw [t2]; exact hd
  have e2 : (if g1.state = FLAPPY_STATE_TITLE then PlayerInit g1 else g1) = g1 := by
    rw [if_neg]; rw [h1s]; decide
  rw [e2]
  have h3 : (ColliderArenaInit g1).scale = g1.scale ∧ (ColliderArenaInit g1).state = g1.state ∧
      (ColliderArenaInit g1).player = g1.player := ⟨rfl, rfl, rfl⟩
  generalize ColliderArenaInit g1 = g3 at h3 ⊢
  have h4 := ColliderArenaPush_keeps g3 0 none COLOR_WORLD (FlappyUpdate.ceilingRect g3)
  generalize ColliderArenaPush g3 0 none COLOR_WORLD (FlappyUpdate.ceilingRect g3) = g4 at h4 ⊢
  have h5 := ColliderArenaPush_keeps g4 0 none COLOR_WORLD (FlappyUpdate.floorRect g4)
  have hfloor := (ColliderArenaPush_mem g4 0 none COLOR_WORLD (FlappyUpdate.floorRect g4)).1
  generalize ColliderArenaPush g4 0 none COLOR_WORLD (FlappyUpdate.floorRect g4) = g5 at h5 hfloor ⊢
  have h6 := (WorldDoHazards_keeps sinq g5).1
  generalize WorldDoHazards sinq g5 = g6 at h6 ⊢
  have h6s : g6.state = FLAPPY_STATE_PLAYING := by
    rw [h6.2.1, h5.2.1, h4.2.1, h3.2.1, h1s]
  have e7 : (if g6.state ≠ FLAPPY_STATE_TITLE then ObstacleUpdateAll g6 else g6)
      = ObstacleUpdateAll g6 := by
    rw [if_pos]; rw [h6s]; decide
  rw [e7]
  have h7 := ObstacleUpdateAll_keeps g6
  generalize ObstacleUpdateAll g6 = g7 at h7 ⊢
  have h57 := keepsArena_trans h6 h7
  have h7s : g7.state = FLAPPY_STATE_PLAYING := by rw [h7.2.1, h6s]
  have h7d : g7.player.isDead = false := by
    rw [h57.2.2.1, h5.2.2.1, h4.2.2.1, h3.2.2, h1d]
  obtain ⟨gm, hPU, hm1, hm2, -, -, -⟩ := PlayerUpdate_alive g7 h7d h7s
  rw [hPU]
  constructor
  · refine ⟨Collider.mk 0 (FlappyUpdate.floorRect g4) false false COLOR_WORLD COLOR_WORLD none,
      (ColliderArenaPush_mem _ _ _ _ _).2 _ ?_ rfl, rfl, rfl, ?_⟩
    · rw [hm1]; exact h57.2.2.2.2 _ hfloor rfl
    · simp only []
      apply (floorRect_congr _ _ _).symm
      rw [ColliderArenaPush_scale, hm2, h57.1, h5.1]
  · refine ⟨Collider.mk 1 (PlayerUpdate.rect gm) false false COLOR_PLAYER COLOR_PLAYER
        (some OnTouchWorld_ptr),
      (ColliderArenaPush_mem _ _ _ _ _).1, rfl, rfl, rfl, rfl, ?_⟩
    simp only []
    exact (PlayerUpdate_rect_congr _ _ (by simp) (by simp)).symm

theorem ParticlePush_frame (g : Flappy) (type : ParticleType) (x y : ℚ) :
    (ParticlePush g type x y).player = g.player ∧ (ParticlePush g type x y).score = g.score ∧
    (ParticlePush g type x y).colliderList = g.colliderList := by
  simp only [ParticlePush]
  split <;> exact ⟨rfl, rfl, rfl⟩

theorem FlappyGameOver_frame (g : Flappy) :
    (FlappyGameOver g).player = g.player ∧ (FlappyGameOver g).score = g.score ∧
    (FlappyGameOver g).state = FLAPPY_STATE_GAMEOVER := by
  by_cases h : g.score > g.highscore <;> simp [FlappyGameOver, h]

theorem callbacks_isOver (f : ColliderCallback) (g : Flappy) (i : Nat) :
    (callbacks f g i).isOver := by
  unfold Flappy.isOver callbacks OnTouchWorld.run
  simp only [PlayerGetCenter]
  refine ⟨?_, (FlappyGameOver_frame _).2.2⟩
  rw [(FlappyGameOver_frame _).1, (ParticlePush_frame _ _ _ _).1]

theorem callbacks_score (f : ColliderCallback) (g : Flappy) (i : Nat) :
    (callbacks f g i).score = g.score := by
  unfold callbacks OnTouchWorld.run
  simp only [PlayerGetCenter]
  rw [(FlappyGameOver_frame _).2.1, (ParticlePush_frame _ _ _ _).2.1]

/-- One callback statement of the pass, with the program's callback: either
nothing is called and the game is as before, or `OnTouchWorld` ran. -/
theorem invoke_callbacks (g : Flappy) (k : Nat) :
    (ColliderArenaProcess.invoke callbacks g k).1.score = g.score ∧
    (ColliderArenaProcess.invoke callbacks g k = (g, []) ∨
      ((ColliderArenaProcess.invoke callbacks g k).1.isOver ∧
        (ColliderArenaProcess.invoke callbacks g k).2 = [ArenaEvent.called k])) := by
  unfold ColliderArenaProcess.invoke
  cases g.colliderList.get? k with
  | none => exact ⟨rfl, Or.inl rfl⟩
  | some c =>
    simp only []
    cases c.cb with
    | none => exact ⟨rfl, Or.inl rfl⟩
    | some f =>
      exact ⟨callbacks_score f g c.inst, Or.inr ⟨callbacks_isOver f g c.inst, rfl⟩⟩

theorem body_callbacks (g : Flappy) (c : Nat) :
    (ColliderArenaProcess.body callbacks g c).1.score = g.score ∧
    (g.isOver → (ColliderArenaProcess.body callbacks g c).1.isOver) ∧
    (g.state = FLAPPY_STATE_GAMEOVER →
      (ColliderArenaProcess.body callbacks g c).1.state = FLAPPY_STATE_GAMEOVER) ∧
    ((∃ k, ArenaEvent.called k ∈ (ColliderArenaProcess.body callbacks g c).2) →
      (ColliderArenaProcess.body callbacks g c).1.isOver) := by
  unfold ColliderArenaProcess.body
  cases Touch g.colliderList c with
  | none =>
    exact ⟨rfl, id, id, fun ⟨k, hk⟩ => by simp at hk⟩
  | some t =>
    simp only []
    generalize hg1 : ({ g with colliderList := ColliderArenaProcess.mark g.colliderList c t } : Flappy)
      = g1
    have e1 : g1.score = g.score := by rw [← hg1]
    have e2 : g1.isOver ↔ g.isOver := by rw [← hg1]; exact Iff.rfl
    have e3 : g1.state = g.state := by rw [← hg1]
    obtain ⟨s1, c1⟩ := invoke_callbacks g1 t
    obtain ⟨s2, c2⟩ := invoke_callbacks (ColliderArenaProcess.invoke callbacks g1 t).1 c
    refine ⟨by rw [s2, s1, e1], ?_, ?_, ?_⟩
    · intro ho
      rcases c2 with c2 | c2
      · rw [c2]
        rcases c1 with c1 | c1
        · rw [c1]; exact e2.mpr ho
        · exact c1.1
      · exact c2.1
    · intro hst
      rcases c2 with c2 | c2
      · rw [c2]
        rcases c1 with c1 | c1
        · rw [c1, e3]; exact hst
        · exact c1.1.2
      · exact c2.1.2
    · rintro ⟨k, hk⟩
      rcases c2 with c2 | c2
      · rw [c2] at hk ⊢
        rcases c1 with c1 | c1
        · rw [c1] at hk; simp at hk
        · exact c1.1
      · exact c2.1

theorem iter_callbacks (g : Flappy) (n : Nat) :
    (ColliderArenaProcess.iter callbacks g n).1.score = g.score ∧
    (g.state = FLAPPY_STATE_GAMEOVER →
      (ColliderArenaProcess.iter callbacks g n).1.state = FLAPPY_STATE_GAMEOVER) ∧
    ((∃ k, ArenaEvent.called k ∈ (ColliderArenaProcess.iter callbacks g n).2) →
      (ColliderArenaProcess.iter callbacks g n).1.isOver) := by
  induction n with
  | zero => exact ⟨rfl, id, fun ⟨k, hk⟩ => by simp [ColliderArenaProcess.iter] at hk⟩
  | succ n ih =>
    obtain ⟨i1, i2, i3⟩ := ih
    obtain ⟨b1, b2, b3, b4⟩ := body_callbacks (ColliderArenaProcess.iter callbacks g n).1 n
    simp only [ColliderArenaProcess.iter]
    refine ⟨b1.trans i1, fun h => b3 (i2 h), ?_⟩
    rintro ⟨k, hk⟩
    rcases List.mem_append.mp hk with hk | hk
    · exact b2 (i3 ⟨k, hk⟩)
    · exact b4 ⟨k, hk⟩

/-- A pass with the program's callback over an arena in which a live, unmarked
collider with a callback collides with a live collider of another group ends
with the player dead and the state GameOver. -/
theorem ColliderArenaProcess_isOver (g : Flappy) (p f : Collider) (hp : p ∈ g.colliderList)
    (hf : f ∈ g.colliderList) (hpe : p.expired = false) (hpt : p.touched = false)
    (hpc : p.cb.isSome = true) (hfe : f.expired = false) (hg : f.group ≠ p.group)
    (hc : CollisionRectRect p.rect f.rect = true) :
    (ColliderArenaProcess callbacks g).1.isOver := by
  obtain ⟨kp, hkp⟩ := List.mem_iff_getElem?.mp hp
  obtain ⟨kf, hkf⟩ := List.mem_iff_getElem?.mp hf
  have hne : kf ≠ kp := by
    intro h
    rw [h, hkp] at hkf
    cases hkf
    exact hg rfl
  have hcalled := arenaRun_called g.colliderList kp p hkp hpe hpt hpc ⟨kf, f, hkf, hfe, hne, hg, hc⟩
  unfold ColliderArenaProcess
  apply (iter_callbacks g _).2.2
  rw [(iter_eq_arenaRun callbacks callbacks_colliderList g _).2]
  exact ⟨kp, hcalled⟩

theorem ObstacleUpdateAll_score_of_not_playing (g : Flappy)
    (hs : g.state ≠ FLAPPY_STATE_PLAYING) : (ObstacleUpdateAll g).score = g.score := by
  have hf : g.obstacleList.filter (ObstacleUpdateAll.counted g) = [] := by
    apply List.filter_eq_nil_iff.mpr
    intro ob _
    simp [ObstacleUpdateAll.counted, ObstacleUpdateAll.scores, hs]
  rw [(ObstacleUpdateAll_spec g).1, hf]
  rfl

/-- The registrations of a tick that starts in the GameOver state leave the
score and the state as they are. -/
theorem register_gameover (sinq : ℚ → ℚ) (freq counter : Nat) (g : Flappy)
    (hs : g.state = FLAPPY_STATE_GAMEOVER) :
    (FlappyUpdate.register sinq freq counter g).score = g.score ∧
    (FlappyUpdate.register sinq freq counter g).state = FLAPPY_STATE_GAMEOVER := by
  unfold FlappyUpdate.register
  simp only []
  obtain ⟨t1, -, -, t4⟩ := timers_frame freq counter g
  generalize FlappyUpdate.timers freq counter g = g1 at t1 t4 ⊢
  have h1s : g1.state = FLAPPY_STATE_GAMEOVER := by rw [t1]; exact hs
  have e2 : (if g1.state = FLAPPY_STATE_TITLE then PlayerInit g1 else g1) = g1 := by
    rw [if_neg]; rw [h1s]; decide
  rw [e2]
  have h3 : (ColliderArenaInit g1).score = g1.score ∧ (ColliderArenaInit g1).state = g1.state :=
    ⟨rfl, rfl⟩
  generalize ColliderArenaInit g1 = g3 at h3 ⊢
  have h4 := ColliderArenaPush_keeps g3 0 none COLOR_WORLD (FlappyUpdate.ceilingRect g3)
  have h4s : (ColliderArenaPush g3 0 none COLOR_WORLD (FlappyUpdate.ceilingRect g3)).score
      = g3.score := by simp
  generalize ColliderArenaPush g3 0 none COLOR_WORLD (FlappyUpdate.ceilingRect g3) = g4 at h4 h4s ⊢
  have h5 := ColliderArenaPush_keeps g4 0 none COLOR_WORLD (FlappyUpdate.floorRect g4)
  have h5s : (ColliderArenaPush g4 0 none COLOR_WORLD (FlappyUpdate.floorRect g4)).score
      = g4.score := by simp
  generalize ColliderArenaPush g4 0 none COLOR_WORLD (FlappyUpdate.floorRect g4) = g5 at h5 h5s ⊢
  obtain ⟨h6, h6s⟩ := WorldDoHazards_keeps sinq g5
  generalize WorldDoHazards sinq g5 = g6 at h6 h6s ⊢
  have h6st : g6.state = FLAPPY_STATE_GAMEOVER := by
    rw [h6.2.1, h5.2.1, h4.2.1, h3.2, h1s]
  have e7 : (if g6.state ≠ FLAPPY_STATE_TITLE then ObstacleUpdateAll g6 else g6)
      = ObstacleUpdateAll g6 := by
    rw [if_pos]; rw [h6st]; decide
  rw [e7]
  have h7 := ObstacleUpdateAll_keeps g6
  have h7s := ObstacleUpdateAll_score_of_not_playing g6 (by rw [h6st]; decide)
  generalize ObstacleUpdateAll g6 = g7 at h7 h7s ⊢
  have h7st : g7.state = FLAPPY_STATE_GAMEOVER := by rw [h7.2.1, h6st]
  rw [PlayerUpdate_of_not_playing g7 (by rw [h7st]; decide)]
  exact ⟨by rw [h7s, h6s, h5s, h4s, h3.1, t4], h7st⟩

/-- A tick of `FlappyUpdate` that starts in the GameOver state leaves the score
and the state as they are. -/
theorem FlappyUpdate_gameover (sinq : ℚ → ℚ) (freq counter : Nat) (g : Flappy)
    (hs : g.state = FLAPPY_STATE_GAMEOVER) :
    (FlappyUpdate sinq freq counter g).score = g.score ∧
    (FlappyUpdate sinq freq counter g).state = FLAPPY_STATE_GAMEOVER := by
  obtain ⟨r1, r2⟩ := register_gameover sinq freq counter g hs
  obtain ⟨i1, i2, -⟩ := iter_callbacks (FlappyUpdate.register sinq freq counter g)
    (FlappyUpdate.register sinq freq counter g).colliderList.length
  unfold FlappyUpdate ColliderArenaProcess
  exact ⟨i1.trans r1, i2 r2⟩

/-- Any number of ticks of `FlappyUpdate` from the GameOver state leave the
score and the state as they are. -/
theorem FlappyUpdate_ticks_gameover (sinq : ℚ → ℚ) (freq : Nat) (counters : List Nat)
    (g : Flappy) (hs : g.state = FLAPPY_STATE_GAMEOVER) :
    (FlappyUpdate.ticks sinq freq counters g).score = g.score ∧
    (FlappyUpdate.ticks sinq freq counters g).state = FLAPPY_STATE_GAMEOVER := by
  induction counters generalizing g with
  | nil => exact ⟨rfl, hs⟩
  | cons c rest ih =>
    obtain ⟨u1, u2⟩ := FlappyUpdate_gameover sinq freq c g hs
    obtain ⟨v1, v2⟩ := ih (FlappyUpdate sinq freq c g) u2
    simp only [FlappyUpdate.ticks]
    exact ⟨v1.trans u1, v2⟩

/-- C7. In the Playing state with a live player, if the player collider that a
`FlappyUpdate` tick registers (x+4, y+4, 8, 4) intersects the floor rectangle
(0, FLOOR_Y, WINDOW_W, WINDOW_H), then after the tick `isDead` is true and the
state is GameOver; every later tick of `FlappyUpdate`, whatever the timer
samples, leaves the score and the GameOver state as they are, and so does a
tick from any game in the GameOver state. -/
theorem FlappyUpdate_floor_collision (sinq : ℚ → ℚ) (freq counter : Nat) (g : Flappy)
    (hs : g.state = FLAPPY_STATE_PLAYING) (hd : g.player.isDead = false)
    (hc : CollisionRectRect (PlayerUpdate.rect (FlappyUpdate.register sinq freq counter g))
      (FlappyUpdate.floorRect (FlappyUpdate.register sinq freq counter g)) = true) :
    (FlappyUpdate sinq freq counter g).player.isDead = true ∧
    (FlappyUpdate sinq freq counter g).state = FLAPPY_STATE_GAMEOVER ∧
    (∀ (sinq2 : ℚ → ℚ) (freq2 : Nat) (later : List Nat),
      (FlappyUpdate.ticks sinq2 freq2 later (FlappyUpdate sinq freq counter g)).score
        = (FlappyUpdate sinq freq counter g).score ∧
      (FlappyUpdate.ticks sinq2 freq2 later (FlappyUpdate sinq freq counter g)).state
        = FLAPPY_STATE_GAMEOVER) ∧
    (∀ (g2 : Flappy) (sinq2 : ℚ → ℚ) (freq2 counter2 : Nat),
      g2.state = FLAPPY_STATE_GAMEOVER →
      (FlappyUpdate sinq2 freq2 counter2 g2).score = g2.score ∧
      (FlappyUpdate sinq2 freq2 counter2 g2).state = FLAPPY_STATE_GAMEOVER) := by
  obtain ⟨⟨f, hf, hfe, hfg, hfr⟩, ⟨p, hp, hpe, hpt, hpc, hpg, hpr⟩⟩ :=
    register_playing sinq freq counter g hs hd
  have hover : (FlappyUpdate sinq freq counter g).isOver := by
    unfold FlappyUpdate
    refine ColliderArenaProcess_isOver _ p f hp hf hpe hpt (by rw [hpc]; rfl) hfe ?_ ?_
    · rw [hfg, hpg]; decide
    · rw [hpr, hfr]; exact hc
  exact ⟨hover.1, hover.2,
    fun sinq2 freq2 later => FlappyUpdate_ticks_gameover sinq2 freq2 later _ hover.2,
    fun g2 sinq2 freq2 counter2 h2 => FlappyUpdate_gameover sinq2 freq2 counter2 g2 h2⟩

theorem PlayerUpdate_x (g : Flappy) : (PlayerUpdate g).player.x = g.player.x := by
  unfold PlayerUpdate
  by_cases hd : g.player.isDead = true
  · rw [if_pos hd]
  by_cases hs : g.state ≠ FLAPPY_STATE_PLAYING
  · rw [if_neg hd, if_pos hs]
  rw [if_neg hd, if_neg hs]
  simp only [ColliderArenaPush_player]
  by_cases hf : g.playerflapped = true <;>
    by_cases hflap : (!g.buttonhover && g.player.mouseUp && g.input.mouseDown) = true <;>
    simp [hf, hflap, GhostPush]

theorem PlayerUpdate_scale (g : Flappy) : (PlayerUpdate g).scale = g.scale := by
  unfold PlayerUpdate
  by_cases hd : g.player.isDead = true
  · rw [if_pos hd]
  by_cases hs : g.state ≠ FLAPPY_STATE_PLAYING
  · rw [if_neg hd, if_pos hs]
  rw [if_neg hd, if_neg hs]
  simp only [ColliderArenaPush_scale]
  split_ifs <;> rfl

/-- Where the registrations of a tick leave a live player in the Playing
state: the timers are advanced, then `PlayerUpdate` moves the player. -/
theorem register_player (sinq : ℚ → ℚ) (freq counter : Nat) (g : Flappy)
    (hs : g.state = FLAPPY_STATE_PLAYING) (hd : g.player.isDead = false) :
    (FlappyUpdate.register sinq freq counter g).scale = g.scale ∧
    (FlappyUpdate.register sinq freq counter g).player.x = g.player.x ∧
    (FlappyUpdate.register sinq freq counter g).player.y =
      if g.playerflapped then
        ParabolaMotion g.player.parabola
          (sub32 (TimerGetTicks (TimerAdvance freq counter g.timer g.paused))
            g.player.parabola.ticks)
      else g.player.y := by
  unfold FlappyUpdate.register
  simp only []
  have t1 : (FlappyUpdate.timers freq counter g).state = g.state := rfl
  have t2 : (FlappyUpdate.timers freq counter g).player = g.player := rfl
  have t3 : (FlappyUpdate.timers freq counter g).scale = g.scale := rfl
  have t4 : (FlappyUpdate.timers freq counter g).playerflapped = g.playerflapped := rfl
  have t5 : (FlappyUpdate.timers freq counter g).ticks
      = TimerGetTicks (TimerAdvance freq counter g.timer g.paused) := rfl
  generalize FlappyUpdate.timers freq counter g = g1 at t1 t2 t3 t4 t5 ⊢
  have h1s : g1.state = FLAPPY_STATE_PLAYING := by rw [t1]; exact hs
  have e2 : (if g1.state = FLAPPY_STATE_TITLE then PlayerInit g1 else g1) = g1 := by
    rw [if_neg]; rw [h1s]; decide
  rw [e2]
  have h3 : (ColliderArenaInit g1).scale = g1.scale ∧ (ColliderArenaInit g1).state = g1.state ∧
      (ColliderArenaInit g1).player = g1.player ∧
      (ColliderArenaInit g1).playerflapped = g1.playerflapped ∧
      (ColliderArenaInit g1).ticks = g1.ticks := ⟨rfl, rfl, rfl, rfl, rfl⟩
  generalize ColliderArenaInit g1 = g3 at h3 ⊢
  have h4 := ColliderArenaPush_keeps g3 0 none COLOR_WORLD (FlappyUpdate.ceilingRect g3)
  generalize ColliderArenaPush g3 0 none COLOR_WORLD (FlappyUpdate.ceilingRect g3) = g4 at h4 ⊢
  have h5 := ColliderArenaPush_keeps g4 0 none COLOR_WORLD (FlappyUpdate.floorRect g4)
  generalize ColliderArenaPush g4 0 none COLOR_WORLD (FlappyUpdate.floorRect g4) = g5 at h5 ⊢
  obtain ⟨h6, -⟩ := WorldDoHazards_keeps sinq g5
  generalize WorldDoHazards sinq g5 = g6 at h6 ⊢
  have h6st : g6.state = FLAPPY_STATE_PLAYING := by
    rw [h6.2.1, h5.2.1, h4.2.1, h3.2.1, h1s]
  have e7 : (if g6.state ≠ FLAPPY_STATE_TITLE then ObstacleUpdateAll g6 else g6)
      = ObstacleUpdateAll g6 := by
    rw [if_pos]; rw [h6st]; decide
  rw [e7]
  have h7 := ObstacleUpdateAll_keeps g6
  generalize ObstacleUpdateAll g6 = g7 at h7 ⊢
  have k1 : g7.scale = g.scale := by rw [h7.1, h6.1, h5.1, h4.1, h3.1, t3]
  have k2 : g7.state = FLAPPY_STATE_PLAYING := by rw [h7.2.1, h6st]
  have k3 : g7.player = g.player := by
    rw [h7.2.2.1, h6.2.2.1, h5.2.2.1, h4.2.2.1, h3.2.2.1, t2]
  have k4 : g7.playerflapped = g.playerflapped := by
    rw [h7.2.2.2.1.1, h6.2.2.2.1.1, h5.2.2.2.1.1, h4.2.2.2.1.1, h3.2.2.2.1, t4]
  have k5 : g7.ticks = TimerGetTicks (TimerAdvance freq counter g.timer g.paused) := by
    rw [h7.2.2.2.1.2, h6.2.2.2.1.2, h5.2.2.2.1.2, h4.2.2.2.1.2, h3.2.2.2.2, t5]
  refine ⟨by rw [PlayerUpdate_scale, k1], by rw [PlayerUpdate_x, k3], ?_⟩
  rw [PlayerUpdate_y g7 (by rw [k3]; exact hd) k2, k3, k4, k5]

theorem roundf_intCast (z : Int) : roundf (z : ℚ) = z := by
  have hhalf : ⌊(1 / 2 : ℚ)⌋ = 0 := by norm_num
  unfold roundf
  split_ifs with h
  · show ⌊(z : ℚ) + 1 / 2⌋ = z
    rw [Int.floor_int_add, hhalf, add_zero]
  · show -⌊-(z : ℚ) + 1 / 2⌋ = z
    have : (-(z : ℚ) + 1 / 2) = ((-z : Int) : ℚ) + 1 / 2 := by push_cast; ring
    rw [this, Int.floor_int_add, hhalf, add_zero, neg_neg]

/-- At window scale 1 `ColliderInitRect` leaves whole coordinates as they
are. -/
theorem ColliderInitRect_scale_one (g : Flappy) (hs : g.scale = 1) (x y w h : Int) :
    ColliderInitRect g (x : ℚ) (y : ℚ) (w : ℚ) (h : ℚ) = ⟨x, y, w, h⟩ := by
  simp only [ColliderInitRect, hs, Nat.cast_one, mul_one, roundf_intCast]

theorem FlappyUpdate_floor_collision_witness :
    (FlappyUpdate (fun _ => 0) 1000 5820 gameFalling).player.isDead = true ∧
    (FlappyUpdate (fun _ => 0) 1000 5820 gameFalling).state = FLAPPY_STATE_GAMEOVER ∧
    (∀ (sinq2 : ℚ → ℚ) (freq2 : Nat) (later : List Nat),
      (FlappyUpdate.ticks sinq2 freq2 later (FlappyUpdate (fun _ => 0) 1000 5820 gameFalling)).score
        = (FlappyUpdate (fun _ => 0) 1000 5820 gameFalling).score ∧
      (FlappyUpdate.ticks sinq2 freq2 later (FlappyUpdate (fun _ => 0) 1000 5820 gameFalling)).state
        = FLAPPY_STATE_GAMEOVER) ∧
    (∀ (g2 : Flappy) (sinq2 : ℚ → ℚ) (freq2 counter2 : Nat),
      g2.state = FLAPPY_STATE_GAMEOVER →
      (FlappyUpdate sinq2 freq2 counter2 g2).score = g2.score ∧
      (FlappyUpdate sinq2 freq2 counter2 g2).state = FLAPPY_STATE_GAMEOVER) :=
  FlappyUpdate_floor_collision (fun _ => 0) 1000 5820 gameFalling rfl rfl (by
    obtain ⟨r1, r2, r3⟩ := register_player (fun _ => 0) 1000 5820 gameFalling rfl rfl
    have hticks : TimerGetTicks (TimerAdvance 1000 5820 gameFalling.timer gameFalling.paused)
        = 5800 := by
      have e : (TimerAdvance 1000 5820 gameFalling.timer gameFalling.paused).ticks = 5800 := by
        simp [TimerAdvance, gameFalling, FlappyNew]
        norm_num
      unfold TimerGetTicks
      rw [e]
      exact f2u32_natCast 5800
    have hy : (FlappyUpdate.register (fun _ => 0) 1000 5820 gameFalling).player.y = 94 := by
      rw [r3, hticks]
      simp [gameFalling, FlappyNew, ParabolaMotion, sub32, PLAYER_GRV, PLAYER_YVEL]
      norm_num
    have hx : (FlappyUpdate.register (fun _ => 0) 1000 5820 gameFalling).player.x = 92 := by
      rw [r2]; rfl
    have hsc : (FlappyUpdate.register (fun _ => 0) 1000 5820 gameFalling).scale = 1 := by
      rw [r1]; rfl
    have hp : PlayerUpdate.rect (FlappyUpdate.register (fun _ => 0) 1000 5820 gameFalling)
        = ⟨96, 98, 8, 4⟩ := by
      unfold PlayerUpdate.rect
      rw [hx, hy]
      have := ColliderInitRect_scale_one _ hsc 96 98 8 4
      norm_num at this ⊢
      exact this
    have hfl : FlappyUpdate.floorRect (FlappyUpdate.register (fun _ => 0) 1000 5820 gameFalling)
        = ⟨0, 101, 200, 112⟩ := by
      unfold FlappyUpdate.floorRect
      have := ColliderInitRect_scale_one _ hsc 0 101 200 112
      simp only [FLOOR_Y, FLOOR_H, WINDOW_W, WINDOW_H]
      norm_num at this ⊢
      exact this
    rw [hp, hfl]
    decide)

/-- C11. For rectangles with non-negative width and height `CollisionRectRect`
returns 1 exactly when the closed intervals `[a.x, a.x + a.w]` and
`[b.x, b.x + b.w]` overlap and the closed intervals `[a.y, a.y + a.h]` and
`[b.y, b.y + b.h]` overlap. So two rectangles whose vertical extents overlap
and that share one vertical edge are reported intersecting (the same for a
horizontal edge), and a rectangle strictly beyond the extent of the other on
either axis gives 0. -/
theorem CollisionRectRect_closed_intervals (a b : SDL_Rect) (haw : 0 ≤ a.w) (hah : 0 ≤ a.h)
    (hbw : 0 ≤ b.w) (hbh : 0 ≤ b.h) :
    (CollisionRectRect a b = true ↔
      (Set.Icc a.x (a.x + a.w) ∩ Set.Icc b.x (b.x + b.w)).Nonempty ∧
      (Set.Icc a.y (a.y + a.h) ∩ Set.Icc b.y (b.y + b.h)).Nonempty) ∧
    (a.x + a.w = b.x → (Set.Icc a.y (a.y + a.h) ∩ Set.Icc b.y (b.y + b.h)).Nonempty →
      CollisionRectRect a b = true) ∧
    (a.y + a.h = b.y → (Set.Icc a.x (a.x + a.w) ∩ Set.Icc b.x (b.x + b.w)).Nonempty →
      CollisionRectRect a b = true) ∧
    (a.x + a.w < b.x ∨ b.x + b.w < a.x ∨ a.y + a.h < b.y ∨ b.y + b.h < a.y →
      CollisionRectRect a b = false) := by
  have key : ∀ p q r s : Int, (Set.Icc p q ∩ Set.Icc r s).Nonempty ↔ (p ≤ q ∧ p ≤ s) ∧ r ≤ q ∧ r ≤ s := by
    intro p q r s
    rw [Set.Icc_inter_Icc, Set.nonempty_Icc, sup_le_iff, le_inf_iff, le_inf_iff]
  simp only [key]
  unfold CollisionRectRect
  refine ⟨?_, ?_, ?_, ?_⟩
  · split_ifs with h
    · simp only [Bool.false_eq_true, false_iff]
      omega
    · simp only [true_iff]
      omega
  · intro h1 h2
    rw [if_neg (by omega)]
  · intro h1 h2
    rw [if_neg (by omega)]
  · intro h
    rw [if_pos (by omega)]

theorem CollisionRectRect_closed_intervals_witness :
    (CollisionRectRect ⟨0, 0, 10, 10⟩ ⟨10, 4, 5, 5⟩ = true ↔
      (Set.Icc (0 : Int) (0 + 10) ∩ Set.Icc 10 (10 + 5)).Nonempty ∧
      (Set.Icc (0 : Int) (0 + 10) ∩ Set.Icc 4 (4 + 5)).Nonempty) ∧
    ((0 : Int) + 10 = 10 → (Set.Icc (0 : Int) (0 + 10) ∩ Set.Icc 4 (4 + 5)).Nonempty →
      CollisionRectRect ⟨0, 0, 10, 10⟩ ⟨10, 4, 5, 5⟩ = true) ∧
    ((0 : Int) + 10 = 4 → (Set.Icc (0 : Int) (0 + 10) ∩ Set.Icc 10 (10 + 5)).Nonempty →
      CollisionRectRect ⟨0, 0, 10, 10⟩ ⟨10, 4, 5, 5⟩ = true) ∧
    ((0 : Int) + 10 < 10 ∨ (10 : Int) + 5 < 0 ∨ (0 : Int) + 10 < 4 ∨ (4 : Int) + 5 < 0 →
      CollisionRectRect ⟨0, 0, 10, 10⟩ ⟨10, 4, 5, 5⟩ = false) :=
  CollisionRectRect_closed_intervals ⟨0, 0, 10, 10⟩ ⟨10, 4, 5, 5⟩ (by decide) (by decide)
    (by decide) (by decide)

/-- C12. `CollisionRectRect` is symmetric: for all rectangles `a` and `b`,
`CollisionRectRect(a, b) = CollisionRectRect(b, a)`. -/
theorem CollisionRectRect_symmetric (a b : SDL_Rect) :
    CollisionRectRect a b = CollisionRectRect b a := by
  unfold CollisionRectRect
  by_cases h : a.x + a.w < b.x ∨ a.y + a.h < b.y ∨ a.x > b.x + b.w ∨ a.y > b.y + b.h
  · rw [if_pos h, if_pos (by omega)]
  · rw [if_neg h, if_neg (by omega)]

/-- C13. `CollisionPointRect` is the strict interior test: it is true exactly
when `r.x < x < r.x + r.w` and `r.y < y < r.y + r.h`. For `y` strictly inside
the vertical extent, a point with `x = r.x` is not inside, a point with
`x = r.x + r.w` is not inside, and a point with `x = r.x + 1` is inside when
`r.w > 1`. -/
theorem CollisionPointRect_open_intervals (x y : Int) (r : SDL_Rect) :
    (CollisionPointRect x y r = true ↔
      (r.x < x ∧ x < r.x + r.w) ∧ (r.y < y ∧ y < r.y + r.h)) ∧
    (r.y < y → y < r.y + r.h →
      CollisionPointRect r.x y r = false ∧ CollisionPointRect (r.x + r.w) y r = false ∧
      (1 < r.w → CollisionPointRect (r.x + 1) y r = true)) := by
  unfold CollisionPointRect
  refine ⟨?_, ?_⟩
  · simp only [Bool.and_eq_true, decide_eq_true_eq, gt_iff_lt]
    tauto
  · intro h1 h2
    refine ⟨?_, ?_, ?_⟩
    · simp
    · simp
    · intro hw
      simp only [Bool.and_eq_true, decide_eq_true_eq, gt_iff_lt]
      omega

/-- C18. `TimerAdvance` called with `isPaused` set leaves the accumulated time,
and so the value `TimerGetTicks` returns, as it was; it still records the clock
sample: `prev` takes the old `now`, and `now` takes the sample less `start`
(a `uint64_t` subtraction). -/
theorem TimerAdvance_paused (freq counter : Nat) (timer : Timer) :
    TimerGetTicks (TimerAdvance freq counter timer true) = TimerGetTicks timer ∧
    (TimerAdvance freq counter timer true).ticks = timer.ticks ∧
    (TimerAdvance freq counter timer true).prev = timer.now ∧
    (TimerAdvance freq counter timer true).now
      = (counter + (18446744073709551616 - timer.start % 18446744073709551616))
          % 18446744073709551616 ∧
    (TimerAdvance freq counter timer true).start = timer.start :=
  ⟨rfl, rfl, rfl, rfl, rfl⟩

/-- The pool idiom on a list: either no node is expired, or the list splits at
its first expired node and that node is the one set up. -/
theorem poolReuse_cases {α : Type} (e : α → Bool) (s : α → α) (l : List α) :
    (poolReuse e s l = none ∧ ∀ a ∈ l, e a = false) ∨
    (∃ pre c post, l = pre ++ c :: post ∧ (∀ x ∈ pre, e x = false) ∧ e c = true ∧
      poolReuse e s l = some (pre ++ s c :: post)) := by
  induction l with
  | nil => exact Or.inl ⟨rfl, fun a h => by simp at h⟩
  | cons a as ih =>
    by_cases he : e a = true
    · refine Or.inr ⟨[], a, as, rfl, fun x h => by simp at h, he, ?_⟩
      simp [poolReuse, he]
    · have he' : e a = false := by simpa using he
      rcases ih with ⟨h1, h2⟩ | ⟨pre, c, post, h1, h2, h3, h4⟩
      · refine Or.inl ⟨by simp [poolReuse, he', h1], ?_⟩
        intro x hx
        rcases List.mem_cons.mp hx with hx | hx
        · rw [hx]; exact he'
        · exact h2 x hx
      · refine Or.inr ⟨a :: pre, c, post, by rw [h1]; rfl, ?_, h3, by simp [poolReuse, he', h4]⟩
        intro x hx
        rcases List.mem_cons.mp hx with hx | hx
        · rw [hx]; exact he'
        · exact h2 x hx

theorem countP_eq_zero_of_live {α : Type} (e : α → Bool) (l : List α)
    (h : ∀ a ∈ l, e a = false) : l.countP e = 0 := by
  rw [List.countP_eq_zero]
  intro a ha
  rw [h a ha]
  decide

/-- One push on a pool: the number of nodes grows by one only when no node is
expired, and the number of expired nodes goes down by one when there is one. -/
theorem poolReuse_count {α : Type} (e : α → Bool) (s : α → α) (n : α) (l : List α)
    (hs : ∀ a, e (s a) = false) (hn : e n = false) :
    ((poolReuse e s l).getD (n :: l)).length
      = l.length + (if l.countP e = 0 then 1 else 0) ∧
    ((poolReuse e s l).getD (n :: l)).countP e = l.countP e - 1 := by
  rcases poolReuse_cases e s l with ⟨h1, h2⟩ | ⟨pre, c, post, h1, h2, h3, h4⟩
  · have hz := countP_eq_zero_of_live e l h2
    rw [h1, hz]
    simp [List.countP_cons, hn, hz]
  · have hz := countP_eq_zero_of_live e pre h2
    rw [h4, h1]
    simp [List.countP_append, List.countP_cons, hz, h3, hs]

theorem ColliderArenaPush_colliderList (g : Flappy) (inst : Nat) (cb : Option ColliderCallback)
    (color : Nat) (init : SDL_Rect) :
    (ColliderArenaPush g inst cb color init).colliderList
      = (poolReuse (fun c => c.expired)
          (fun _ => Collider.mk inst init false false color color cb) g.colliderList).getD
          (Collider.mk inst init false false color color cb :: g.colliderList) := by
  simp only [ColliderArenaPush]
  split <;> simp [*]

theorem ObstaclePush_obstacleList (g : Flappy) :
    (ObstaclePush g).obstacleList
      = (poolReuse (fun ob => ob.expired) (ObstaclePush.setup g) g.obstacleList).getD
          (ObstaclePush.setup g ObstaclePush.zero :: g.obstacleList) := by
  have e : (fun ob : Obstacle =>
      ({ ob with
        upper := { x := -100, y := -100, w := OB_W, h := OB_H }
        lower := { x := -100, y := -100, w := OB_W, h := OB_H }
        expired := false
        ticks := g.ticks
        cleared := false
        y := ((yArray.getD (ObstaclePush.resolve g).1 0 : Int) : ℚ) } : Obstacle))
      = ObstaclePush.setup g := rfl
  simp only [ObstaclePush, e]
  split
  · simp only [*, Option.getD_some]
  · simp only [*, Option.getD_none]
    rfl

theorem poolReuse_none {α : Type} (e : α → Bool) (s : α → α) (l : List α)
    (h : ∀ a ∈ l, e a = false) : poolReuse e s l = none := by
  induction l with
  | nil => rfl
  | cons a as ih =>
    have ha := h a (List.mem_cons_self _ _)
    simp [poolReuse, ha, ih (fun x hx => h x (List.mem_cons_of_mem _ hx))]

/-- The node a turn of the loop leaves does not depend on `rightmost`, and
depends on the game only through the time, the state and the player. -/
theorem ObstacleUpdateAll_visit_node (g g' : Flappy) (rm : Int) (ob : Obstacle)
    (h1 : g'.ticks = g.ticks) (h2 : g'.state = g.state) (h3 : g'.player = g.player) :
    (ObstacleUpdateAll.visit g' rm ob).2.2 = ObstacleUpdateAll.node g ob := by
  have hx : ObstacleUpdateAll.x g' ob = ObstacleUpdateAll.x g ob :=
    ObstacleUpdateAll_x_congr g g' ob h1
  have ho : ObstacleUpdateAll.offScreen g' ob = ObstacleUpdateAll.offScreen g ob :=
    ObstacleUpdateAll_offScreen_congr g g' ob h1
  have hs : ObstacleUpdateAll.scores g' ob = ObstacleUpdateAll.scores g ob := by
    simp only [ObstacleUpdateAll.scores, hx, h2, h3]
  unfold ObstacleUpdateAll.node ObstacleUpdateAll.visit
  by_cases he : ob.expired = true
  · simp [he]
  · by_cases hof : ObstacleUpdateAll.offScreen g ob = true
    · simp [he, hof, ho, hx]
    · by_cases hsc : ObstacleUpdateAll.scores g ob = true
      · simp [he, hof, ho, hx, hsc, hs]
      · simp [he, hof, ho, hx, hsc, hs]

/-- The loop of `ObstacleUpdateAll` treats every node on its own. -/
theorem ObstacleUpdateAll_loop_nodes (obs : List Obstacle) (g g' : Flappy) (rm : Int)
    (h1 : g'.ticks = g.ticks) (h2 : g'.state = g.state) (h3 : g'.player = g.player) :
    (ObstacleUpdateAll.loop obs g' rm).2.2 = obs.map (ObstacleUpdateAll.node g) := by
  induction obs generalizing g' rm with
  | nil => rfl
  | cons ob obs ih =>
    obtain ⟨v1, v2, v3, -, -, -⟩ := ObstacleUpdateAll_visit_spec g' rm ob
    simp only [ObstacleUpdateAll.loop, List.map_cons]
    rw [ObstacleUpdateAll_visit_node g g' rm ob h1 h2 h3,
      ih (ObstacleUpdateAll.visit g' rm ob).1 (ObstacleUpdateAll.visit g' rm ob).2.1
        (v1.trans h1) (v2.trans h2) (v3.trans h3)]

theorem ObstacleUpdateAll_scroll_obstacleList (g : Flappy) :
    (ObstacleUpdateAll.scroll g).1.obstacleList = g.obstacleList.map (ObstacleUpdateAll.node g) :=
  ObstacleUpdateAll_loop_nodes g.obstacleList g g 0 rfl rfl rfl

/-- What the loop does to a live node: it stores the position, and expires the
node when the position is left of `-OB_W`. -/
theorem ObstacleUpdateAll_node_live (g : Flappy) (ob : Obstacle) (he : ob.expired = false) :
    (ObstacleUpdateAll.node g ob).x = ObstacleUpdateAll.x g ob ∧
    (ObstacleUpdateAll.node g ob).expired = ObstacleUpdateAll.offScreen g ob ∧
    (ObstacleUpdateAll.node g ob).ticks = ob.ticks ∧
    (ObstacleUpdateAll.offScreen g ob = false →
      (ObstacleUpdateAll.node g ob).upper.x = truncf (ObstacleUpdateAll.x g ob) ∧
      (ObstacleUpdateAll.node g ob).lower.x = truncf (ObstacleUpdateAll.x g ob)) := by
  unfold ObstacleUpdateAll.node ObstacleUpdateAll.visit
  by_cases hof : ObstacleUpdateAll.offScreen g ob = true
  · simp [he, hof]
  · by_cases hsc : ObstacleUpdateAll.scores g ob = true
    · simp [he, hof, hsc]
    · simp [he, hof, hsc]

/-- The pool after `ObstacleUpdateAll`: the nodes as the loop leaves them, with
a push when `rightmost` is left of `WINDOW_W - OB_DIST`. -/
theorem ObstacleUpdateAll_obstacleList (g : Flappy) :
    (ObstacleUpdateAll g).obstacleList =
      if (ObstacleUpdateAll.scroll g).2 < WINDOW_W - OB_DIST then
        (poolReuse (fun ob => ob.expired) (ObstaclePush.setup (ObstacleUpdateAll.scroll g).1)
          (g.obstacleList.map (ObstacleUpdateAll.node g))).getD
          (ObstaclePush.setup (ObstacleUpdateAll.scroll g).1 ObstaclePush.zero
            :: g.obstacleList.map (ObstacleUpdateAll.node g))
      else g.obstacleList.map (ObstacleUpdateAll.node g) := by
  by_cases h : (ObstacleUpdateAll.scroll g).2 < WINDOW_W - OB_DIST
  · have e : ObstacleUpdateAll g = ObstaclePush (ObstacleUpdateAll.scroll g).1 := by
      unfold ObstacleUpdateAll
      simp only [h, if_true]
    rw [e, if_pos h, ObstaclePush_obstacleList, ObstacleUpdateAll_scroll_obstacleList]
  · have e : ObstacleUpdateAll g = (ObstacleUpdateAll.scroll g).1 := by
      unfold ObstacleUpdateAll
      simp only [h, if_false]
    rw [e, if_neg h, ObstacleUpdateAll_scroll_obstacleList]

/-- A push on a pool keeps the nodes in place; a node is left alone or set up. -/
theorem poolReuse_getD_drop {α : Type} (e : α → Bool) (s : α → α) (n : α) (l : List α) :
    List.Forall₂ (fun a b => b = a ∨ b = s a) l
      (((poolReuse e s l).getD (n :: l)).drop
        (((poolReuse e s l).getD (n :: l)).length - l.length)) := by
  cases hr : poolReuse e s l with
  | none =>
    simp only [Option.getD_none, List.length_cons, Nat.add_sub_cancel_left, List.drop_one,
      List.tail_cons]
    exact List.forall₂_same.mpr fun x _ => Or.inl rfl
  | some l' =>
    have hf := poolReuse_forall₂ e s l l' hr
    simp only [Option.getD_some, ← hf.length_eq, Nat.sub_self, List.drop_zero]
    exact List.Forall₂.imp (fun a b hab => hab.imp id (fun h => h.2)) hf

/-- The nodes the pool had, after `ObstacleUpdateAll`: each holds the position
the loop stored for it. -/
theorem ObstacleUpdateAll_oldNodes_x (g : Flappy) :
    List.Forall₂ (fun a c => c.x = (ObstacleUpdateAll.node g a).x) g.obstacleList
      (ObstacleUpdateAll.oldNodes g) := by
  unfold ObstacleUpdateAll.oldNodes
  rw [ObstacleUpdateAll_obstacleList]
  split_ifs with h
  · have hd := poolReuse_getD_drop (fun ob : Obstacle => ob.expired)
      (ObstaclePush.setup (ObstacleUpdateAll.scroll g).1)
      (ObstaclePush.setup (ObstacleUpdateAll.scroll g).1 ObstaclePush.zero)
      (g.obstacleList.map (ObstacleUpdateAll.node g))
    rw [List.length_map] at hd
    rw [List.forall₂_map_left_iff] at hd
    refine List.Forall₂.imp ?_ hd
    intro a c hac
    rcases hac with h | h
    · rw [h]
    · rw [h]; rfl
  · rw [List.length_map, Nat.sub_self, List.drop_zero, List.forall₂_map_right_iff]
    exact List.forall₂_same.mpr fun x _ => rfl

/-- The position of `ObstacleUpdateAll` in exact arithmetic, where the
`uint32_t` subtraction of the two times does not wrap. -/
theorem ObstacleUpdateAll_x_formula (g : Flappy) (ob : Obstacle) (hspawn : ob.ticks ≤ g.ticks)
    (hnow : g.ticks < 4294967296) :
    ObstacleUpdateAll.x g ob
      = ((WINDOW_W + OB_W : Int) : ℚ) - 32 * ((g.ticks - ob.ticks : Nat) : ℚ) / 1000 := by
  unfold ObstacleUpdateAll.x WORLD_SCROLL SCROLL_SPEED
  rw [sub32_of_le _ _ hspawn hnow]
  ring

/-- C15, amended. For a live obstacle and a current time `now` not before its
spawn time (both `uint32_t`), the horizontal position that `ObstacleUpdateAll`
computes and stores in the node is
`WINDOW_W + OB_W - 32 * (now - spawnTime) / 1000` in exact arithmetic: the
obstacle starts one obstacle width right of the screen. The position depends
on the game and the node only through the current time and the spawn time. -/
theorem ObstacleUpdateAll_position (g : Flappy) (i : Nat) (ob : Obstacle)
    (hi : g.obstacleList[i]? = some ob) (he : ob.expired = false)
    (hspawn : ob.ticks ≤ g.ticks) (hnow : g.ticks < 4294967296) :
    ObstacleUpdateAll.x g ob
      = ((WINDOW_W + OB_W : Int) : ℚ) - 32 * ((g.ticks - ob.ticks : Nat) : ℚ) / 1000 ∧
    (∃ c, (ObstacleUpdateAll.oldNodes g)[i]? = some c ∧
      c.x = ((WINDOW_W + OB_W : Int) : ℚ) - 32 * ((g.ticks - ob.ticks : Nat) : ℚ) / 1000) ∧
    (∀ (g' : Flappy) (ob' : Obstacle), g'.ticks = g.ticks → ob'.ticks = ob.ticks →
      ObstacleUpdateAll.x g' ob' = ObstacleUpdateAll.x g ob) := by
  have hf := ObstacleUpdateAll_x_formula g ob hspawn hnow
  have hold := ObstacleUpdateAll_oldNodes_x g
  refine ⟨hf, ?_, ?_⟩
  · have hlt : i < (ObstacleUpdateAll.oldNodes g).length := by
      rw [← hold.length_eq]
      exact (List.getElem?_eq_some_iff.mp hi).1
    refine ⟨(ObstacleUpdateAll.oldNodes g)[i], List.getElem?_eq_getElem hlt, ?_⟩
    rw [forall₂_getElem? hold i ob _ hi (List.getElem?_eq_getElem hlt),
      (ObstacleUpdateAll_node_live g ob he).1, hf]
  · intro g' ob' h1 h2
    simp only [ObstacleUpdateAll.x, h1, h2]

theorem ObstacleUpdateAll_position_witness :
    ObstacleUpdateAll.x gameObstacleAhead
        { upper := { x := 184, y := -26, w := 16, h := 64 },
          lower := { x := 184, y := 62, w := 16, h := 64 },
          x := 4616 / 25, y := 50, ticks := 5000, expired := false, cleared := false }
      = ((WINDOW_W + OB_W : Int) : ℚ) - 32 * ((6000 - 5000 : Nat) : ℚ) / 1000 ∧
    (∃ c, (ObstacleUpdateAll.oldNodes gameObstacleAhead)[0]? = some c ∧
      c.x = ((WINDOW_W + OB_W : Int) : ℚ) - 32 * ((6000 - 5000 : Nat) : ℚ) / 1000) :=
  have h := ObstacleUpdateAll_position gameObstacleAhead 0
    { upper := { x := 184, y := -26, w := 16, h := 64 },
      lower := { x := 184, y := 62, w := 16, h := 64 },
      x := 4616 / 25, y := 50, ticks := 5000, expired := false, cleared := false }
    rfl rfl (by decide) (by decide)
  ⟨h.1, h.2.1⟩

/-- C15, as stated, fails: at tick 6000 the live obstacle spawned at tick 5000
is placed at 216 - 32 = 184, whereas `WINDOW_W - 32 * (now - spawnTime) / 1000`
is 168. -/
theorem ObstacleUpdateAll_position_counterexample :
    gameObstacleAhead.ticks = 6000 ∧
    gameObstacleAhead.obstacleList.map (fun ob => (ob.expired, ob.ticks)) = [(false, 5000)] ∧
    (ObstacleUpdateAll.oldNodes gameObstacleAhead).map (fun ob => ob.x) = [184] ∧
    (WINDOW_W : ℚ) - 32 * ((6000 - 5000 : Nat) : ℚ) / 1000 = 168 := by
  refine ⟨rfl, rfl, ?_, by norm_num [WINDOW_W]⟩
  have hold := ObstacleUpdateAll_oldNodes_x gameObstacleAhead
  have hl : gameObstacleAhead.obstacleList =
      [ { upper := { x := 184, y := -26, w := 16, h := 64 },
          lower := { x := 184, y := 62, w := 16, h := 64 },
          x := 4616 / 25, y := 50, ticks := 5000, expired := false, cleared := false } ] := rfl
  rw [hl] at hold
  obtain ⟨c, u, hc, htl, hlist⟩ := List.forall₂_cons_left_iff.mp hold
  cases htl
  rw [hlist]
  rw [(ObstacleUpdateAll_node_live gameObstacleAhead _ rfl).1,
    ObstacleUpdateAll_x_formula gameObstacleAhead _ (by decide) (by decide)] at hc
  simp only [List.map_cons, List.map_nil, hc]
  norm_num [WINDOW_W, OB_W, gameObstacleAhead]

theorem register_eq_hazards (sinq : ℚ → ℚ) (freq counter : Nat) (g : Flappy) :
    FlappyUpdate.register sinq freq counter g =
      PlayerUpdate (if (FlappyUpdate.hazards sinq freq counter g).state ≠ FLAPPY_STATE_TITLE then
        ObstacleUpdateAll (FlappyUpdate.hazards sinq freq counter g)
        else FlappyUpdate.hazards sinq freq counter g) := rfl

theorem WorldDoHazards_frame (sinq : ℚ → ℚ) (g : Flappy) :
    (WorldDoHazards sinq g).obstacleList = g.obstacleList ∧
    (WorldDoHazards sinq g).rnd_pcg = g.rnd_pcg ∧ (WorldDoHazards sinq g).last = g.last ∧
    (WorldDoHazards sinq g).theme = g.theme := by
  unfold WorldDoHazards
  split_ifs
  · obtain ⟨b, hb⟩ := JabuHazardHeight_frame sinq g
    simp only [ColliderArenaPush_obstacleList, ColliderArenaPush_rnd_pcg, ColliderArenaPush_last,
      ColliderArenaPush_theme, hb, and_self]
  · exact ⟨rfl, rfl, rfl, rfl⟩

/-- What the first part of a tick leaves alone outside the title screen, and
the time it sets. -/
theorem hazards_frame (sinq : ℚ → ℚ) (freq counter : Nat) (g : Flappy)
    (hs : g.state ≠ FLAPPY_STATE_TITLE) :
    (FlappyUpdate.hazards sinq freq counter g).obstacleList = g.obstacleList ∧
    (FlappyUpdate.hazards sinq freq counter g).ticks
      = TimerGetTicks (TimerAdvance freq counter g.timer g.paused) ∧
    (FlappyUpdate.hazards sinq freq counter g).state = g.state ∧
    (FlappyUpdate.hazards sinq freq counter g).player = g.player ∧
    (FlappyUpdate.hazards sinq freq counter g).rnd_pcg = g.rnd_pcg ∧
    (FlappyUpdate.hazards sinq freq counter g).last = g.last ∧
    (FlappyUpdate.hazards sinq freq counter g).theme = g.theme := by
  unfold FlappyUpdate.hazards
  simp only []
  have t1 : (FlappyUpdate.timers freq counter g).state = g.state := rfl
  have t2 : (FlappyUpdate.timers freq counter g).player = g.player := rfl
  have t3 : (FlappyUpdate.timers freq counter g).obstacleList = g.obstacleList := rfl
  have t4 : (FlappyUpdate.timers freq counter g).rnd_pcg = g.rnd_pcg := rfl
  have t5 : (FlappyUpdate.timers freq counter g).ticks
      = TimerGetTicks (TimerAdvance freq counter g.timer g.paused) := rfl
  have t6 : (FlappyUpdate.timers freq counter g).last = g.last := rfl
  have t7 : (FlappyUpdate.timers freq counter g).theme = g.theme := rfl
  generalize FlappyUpdate.timers freq counter g = g1 at t1 t2 t3 t4 t5 t6 t7 ⊢
  have e2 : (if g1.state = FLAPPY_STATE_TITLE then PlayerInit g1 else g1) = g1 := by
    rw [if_neg]; rw [t1]; exact hs
  rw [e2]
  have h3 : (ColliderArenaInit g1).obstacleList = g1.obstacleList ∧
      (ColliderArenaInit g1).rnd_pcg = g1.rnd_pcg ∧ (ColliderArenaInit g1).last = g1.last ∧
      (ColliderArenaInit g1).theme = g1.theme ∧ (ColliderArenaInit g1).ticks = g1.ticks ∧
      (ColliderArenaInit g1).state = g1.state ∧ (ColliderArenaInit g1).player = g1.player :=
    ⟨rfl, rfl, rfl, rfl, rfl, rfl, rfl⟩
  generalize ColliderArenaInit g1 = g3 at h3 ⊢
  obtain ⟨k1, k2, k3, k4⟩ := WorldDoHazards_frame sinq
    (ColliderArenaPush (ColliderArenaPush g3 0 none COLOR_WORLD (FlappyUpdate.ceilingRect g3)) 0 none
      COLOR_WORLD (FlappyUpdate.floorRect
        (ColliderArenaPush g3 0 none COLOR_WORLD (FlappyUpdate.ceilingRect g3))))
  obtain ⟨⟨-, w2, w3, ⟨-, w5⟩, -⟩, -⟩ := WorldDoHazards_keeps sinq
    (ColliderArenaPush (ColliderArenaPush g3 0 none COLOR_WORLD (FlappyUpdate.ceilingRect g3)) 0 none
      COLOR_WORLD (FlappyUpdate.floorRect
        (ColliderArenaPush g3 0 none COLOR_WORLD (FlappyUpdate.ceilingRect g3))))
  simp only [ColliderArenaPush_obstacleList, ColliderArenaPush_rnd_pcg, ColliderArenaPush_last,
    ColliderArenaPush_theme, ColliderArenaPush_state, ColliderArenaPush_player,
    ColliderArenaPush_ticks] at k1 k2 k3 k4 w2 w3 w5
  exact ⟨by rw [k1, h3.1, t3], by rw [w5, h3.2.2.2.2.1, t5], by rw [w2, h3.2.2.2.2.2.1, t1],
    by rw [w3, h3.2.2.2.2.2.2, t2], by rw [k2, h3.2.1, t4], by rw [k3, h3.2.2.1, t6],
    by rw [k4, h3.2.2.2.1, t7]⟩

/-- In the GameOver state the registrations of a tick end with
`ObstacleUpdateAll`: `PlayerUpdate` returns at once. -/
theorem register_gameover_obstacles (sinq : ℚ → ℚ) (freq counter : Nat) (g : Flappy)
    (hs : g.state = FLAPPY_STATE_GAMEOVER) :
    FlappyUpdate.register sinq freq counter g
      = ObstacleUpdateAll (FlappyUpdate.hazards sinq freq counter g) := by
  have hz := (hazards_frame sinq freq counter g (by rw [hs]; decide)).2.2.1
  have hst : (FlappyUpdate.hazards sinq freq counter g).state = FLAPPY_STATE_GAMEOVER := by
    rw [hz, hs]
  rw [register_eq_hazards, if_pos (by rw [hst]; decide)]
  apply PlayerUpdate_of_not_playing
  rw [(ObstacleUpdateAll_keeps _).2.1, hst]
  decide

/-- A property that the marking of colliders and the program's callback keep
holds after any number of iterations of the pass. -/
theorem iter_callbacks_inv (P : Flappy → Prop)
    (hl : ∀ (g : Flappy) (l : List Collider), P g → P { g with colliderList := l })
    (hcb : ∀ (f : ColliderCallback) (g : Flappy) (i : Nat), P g → P (callbacks f g i))
    (g : Flappy) (n : Nat) (h : P g) : P (ColliderArenaProcess.iter callbacks g n).1 := by
  have hinv : ∀ (G : Flappy) (k : Nat), P G → P (ColliderArenaProcess.invoke callbacks G k).1 := by
    intro G k hG
    unfold ColliderArenaProcess.invoke
    cases G.colliderList.get? k with
    | none => exact hG
    | some c =>
      simp only []
      cases c.cb with
      | none => exact hG
      | some f => exact hcb f G c.inst hG
  induction n with
  | zero => exact h
  | succ n ih =>
    simp only [ColliderArenaProcess.iter]
    unfold ColliderArenaProcess.body
    cases Touch (ColliderArenaProcess.iter callbacks g n).1.colliderList n with
    | none => exact ih
    | some t =>
      simp only []
      exact hinv _ _ (hinv _ _ (hl _ _ ih))

theorem FlappyGameOver_obstacleList (g : Flappy) :
    (FlappyGameOver g).obstacleList = g.obstacleList := by
  by_cases h : g.score > g.highscore <;> simp [FlappyGameOver, h]

theorem ParticlePush_obstacleList (g : Flappy) (type : ParticleType) (x y : ℚ) :
    (ParticlePush g type x y).obstacleList = g.obstacleList := by
  simp only [ParticlePush]
  split <;> rfl

theorem callbacks_frame (f : ColliderCallback) (g : Flappy) (i : Nat) :
    (callbacks f g i).obstacleList = g.obstacleList ∧
    (callbacks f g i).player = { g.player with isDead := true } := by
  unfold callbacks OnTouchWorld.run
  simp only [PlayerGetCenter]
  constructor
  · rw [FlappyGameOver_obstacleList, ParticlePush_obstacleList]
  · rw [(FlappyGameOver_frame _).1, (ParticlePush_frame _ _ _ _).1]

/-- A tick of `FlappyUpdate` in the GameOver state: the pool of obstacles is
the one `ObstacleUpdateAll` leaves, the player stays where it is, and a dead
player stays dead. -/
theorem FlappyUpdate_gameover_frame (sinq : ℚ → ℚ) (freq counter : Nat) (g : Flappy)
    (hs : g.state = FLAPPY_STATE_GAMEOVER) :
    (FlappyUpdate sinq freq counter g).obstacleList
      = (ObstacleUpdateAll (FlappyUpdate.hazards sinq freq counter g)).obstacleList ∧
    (FlappyUpdate sinq freq counter g).player.x = g.player.x ∧
    (FlappyUpdate sinq freq counter g).player.y = g.player.y ∧
    (g.player.isDead = true → (FlappyUpdate sinq freq counter g).player.isDead = true) := by
  have hr := register_gameover_obstacles sinq freq counter g hs
  have hz := hazards_frame sinq freq counter g (by rw [hs]; decide)
  have hp : (FlappyUpdate.register sinq freq counter g).player = g.player := by
    rw [hr, (ObstacleUpdateAll_keeps _).2.2.1, hz.2.2.2.1]
  unfold FlappyUpdate ColliderArenaProcess
  refine ⟨?_, ?_, ?_, ?_⟩
  · rw [← hr]
    exact iter_callbacks_inv
      (fun G => G.obstacleList = (FlappyUpdate.register sinq freq counter g).obstacleList)
      (fun _ _ h => h) (fun f G i h => ((callbacks_frame f G i).1).trans h) _ _ rfl
  · rw [← hp]
    exact iter_callbacks_inv
      (fun G => G.player.x = (FlappyUpdate.register sinq freq counter g).player.x)
      (fun _ _ h => h)
      (fun f G i h => by
        show (callbacks f G i).player.x = _
        rw [(callbacks_frame f G i).2]; exact h) _ _ rfl
  · rw [← hp]
    exact iter_callbacks_inv
      (fun G => G.player.y = (FlappyUpdate.register sinq freq counter g).player.y)
      (fun _ _ h => h)
      (fun f G i h => by
        show (callbacks f G i).player.y = _
        rw [(callbacks_frame f G i).2]; exact h) _ _ rfl
  · intro hd
    exact iter_callbacks_inv (fun G => G.player.isDead = true)
      (fun _ _ h => h)
      (fun f G i _ => by
        show (callbacks f G i).player.isDead = true
        rw [(callbacks_frame f G i).2]) _ _
      (by show (FlappyUpdate.register sinq freq counter g).player.isDead = true
          rw [hp]; exact hd)

/-- Any number of ticks of `FlappyUpdate` from the GameOver state leave a dead
player dead. -/
theorem FlappyUpdate_ticks_dead (sinq : ℚ → ℚ) (freq : Nat) (counters : List Nat) (g : Flappy)
    (hs : g.state = FLAPPY_STATE_GAMEOVER) (hd : g.player.isDead = true) :
    (FlappyUpdate.ticks sinq freq counters g).player.isDead = true ∧
    (FlappyUpdate.ticks sinq freq counters g).state = FLAPPY_STATE_GAMEOVER := by
  induction counters generalizing g with
  | nil => exact ⟨hd, hs⟩
  | cons c rest ih =>
    simp only [FlappyUpdate.ticks]
    exact ih (FlappyUpdate sinq freq c g) (FlappyUpdate_gameover sinq freq c g hs).2
      ((FlappyUpdate_gameover_frame sinq freq c g hs).2.2.2 hd)

/-- C17. When the player's `isDead` flag is set, `PlayerUpdate` returns the game
as it is: position, parabola, ghost ring, `mouseUp`, `isDead` and
`playerflapped` are unchanged and no collider is registered. In the GameOver
state the flag stays set on every tick of `FlappyUpdate`, whatever the timer
samples. -/
theorem PlayerUpdate_dead (g : Flappy) (hd : g.player.isDead = true) :
    PlayerUpdate g = g ∧
    (g.state = FLAPPY_STATE_GAMEOVER →
      ∀ (sinq : ℚ → ℚ) (freq : Nat) (counters : List Nat),
        (FlappyUpdate.ticks sinq freq counters g).player.isDead = true ∧
        (FlappyUpdate.ticks sinq freq counters g).state = FLAPPY_STATE_GAMEOVER) := by
  refine ⟨?_, fun hs sinq freq counters => FlappyUpdate_ticks_dead sinq freq counters g hs hd⟩
  unfold PlayerUpdate
  rw [if_pos hd]

theorem PlayerUpdate_dead_witness :
    PlayerUpdate gameOverScrolling = gameOverScrolling ∧
    (gameOverScrolling.state = FLAPPY_STATE_GAMEOVER →
      ∀ (sinq : ℚ → ℚ) (freq : Nat) (counters : List Nat),
        (FlappyUpdate.ticks sinq freq counters gameOverScrolling).player.isDead = true ∧
        (FlappyUpdate.ticks sinq freq counters gameOverScrolling).state = FLAPPY_STATE_GAMEOVER) :=
  PlayerUpdate_dead gameOverScrolling rfl

/-- In the GameOver state, when every live obstacle is left of
`WINDOW_W - OB_DIST` at the tick's time, the tick spawns an obstacle. -/
theorem FlappyUpdate_gameover_spawn (sinq : ℚ → ℚ) (freq counter : Nat) (g : Flappy)
    (hs : g.state = FLAPPY_STATE_GAMEOVER)
    (h : ∀ ob ∈ g.obstacleList, ob.expired = false →
      ObstacleUpdateAll.x (FlappyUpdate.hazards sinq freq counter g) ob
        < ((WINDOW_W - OB_DIST : Int) : ℚ)) :
    (FlappyUpdate sinq freq counter g).obstacleList
      = (ObstaclePush
          (ObstacleUpdateAll.scroll (FlappyUpdate.hazards sinq freq counter g)).1).obstacleList := by
  have hz := hazards_frame sinq freq counter g (by rw [hs]; decide)
  rw [(FlappyUpdate_gameover_frame sinq freq counter g hs).1]
  have hrm := (ObstacleUpdateAll_rightmost_lt
    (FlappyUpdate.hazards sinq freq counter g).obstacleList
    (FlappyUpdate.hazards sinq freq counter g) 0 (WINDOW_W - OB_DIST) (by decide) (le_refl _)
    (by rw [hz.1]; exact h)).1
  have hlt : (ObstacleUpdateAll.scroll (FlappyUpdate.hazards sinq freq counter g)).2
      < WINDOW_W - OB_DIST := hrm
  unfold ObstacleUpdateAll
  simp only [hlt, if_true]

/-- C16, amended. In the GameOver state one tick of `FlappyUpdate` leaves the
player's position unchanged, but it does not freeze the obstacles: the pool
after the tick is the one `ObstacleUpdateAll` leaves at the tick's time
(obstacles are updated in every state but the title screen). Every obstacle
that is live before the tick is moved to
`WINDOW_W + OB_W - 32 * (now - spawnTime) / 1000` for the time `now` of the
tick, and when every live obstacle is then left of `WINDOW_W - OB_DIST` the
tick calls `ObstaclePush`. -/
theorem FlappyUpdate_gameover_world (sinq : ℚ → ℚ) (freq counter : Nat) (g : Flappy)
    (hs : g.state = FLAPPY_STATE_GAMEOVER) :
    ((FlappyUpdate sinq freq counter g).player.x = g.player.x ∧
      (FlappyUpdate sinq freq counter g).player.y = g.player.y) ∧
    ((FlappyUpdate sinq freq counter g).obstacleList
        = (ObstacleUpdateAll (FlappyUpdate.hazards sinq freq counter g)).obstacleList ∧
      (FlappyUpdate.hazards sinq freq counter g).obstacleList = g.obstacleList ∧
      (FlappyUpdate.hazards sinq freq counter g).ticks
        = TimerGetTicks (TimerAdvance freq counter g.timer g.paused) ∧
      (FlappyUpdate.hazards sinq freq counter g).state = FLAPPY_STATE_GAMEOVER) ∧
    (∀ (i : Nat) (ob : Obstacle), g.obstacleList[i]? = some ob → ob.expired = false →
      ob.ticks ≤ TimerGetTicks (TimerAdvance freq counter g.timer g.paused) →
      TimerGetTicks (TimerAdvance freq counter g.timer g.paused) < 4294967296 →
      ∃ c, ((FlappyUpdate sinq freq counter g).obstacleList.drop
          ((FlappyUpdate sinq freq counter g).obstacleList.length - g.obstacleList.length))[i]?
          = some c ∧
        c.x = ((WINDOW_W + OB_W : Int) : ℚ)
          - 32 * ((TimerGetTicks (TimerAdvance freq counter g.timer g.paused) - ob.ticks : Nat) : ℚ)
            / 1000) ∧
    ((∀ ob ∈ g.obstacleList, ob.expired = false →
        ObstacleUpdateAll.x (FlappyUpdate.hazards sinq freq counter g) ob
          < ((WINDOW_W - OB_DIST : Int) : ℚ)) →
      (FlappyUpdate sinq freq counter g).obstacleList
        = (ObstaclePush
            (ObstacleUpdateAll.scroll (FlappyUpdate.hazards sinq freq counter g)).1).obstacleList) := by
  obtain ⟨f1, f2, f3, -⟩ := FlappyUpdate_gameover_frame sinq freq counter g hs
  obtain ⟨z1, z2, z3, -⟩ := hazards_frame sinq freq counter g (by rw [hs]; decide)
  refine ⟨⟨f2, f3⟩, ⟨f1, z1, z2, by rw [z3, hs]⟩, ?_, FlappyUpdate_gameover_spawn sinq freq counter g hs⟩
  intro i ob hi he hspawn hnow
  have hold := ObstacleUpdateAll_oldNodes_x (FlappyUpdate.hazards sinq freq counter g)
  unfold ObstacleUpdateAll.oldNodes at hold
  rw [← f1, z1] at hold
  have hlt : i < ((FlappyUpdate sinq freq counter g).obstacleList.drop
      ((FlappyUpdate sinq freq counter g).obstacleList.length - g.obstacleList.length)).length := by
    rw [← hold.length_eq]
    exact (List.getElem?_eq_some_iff.mp hi).1
  refine ⟨_, List.getElem?_eq_getElem hlt, ?_⟩
  rw [forall₂_getElem? hold i ob _ hi (List.getElem?_eq_getElem hlt),
    (ObstacleUpdateAll_node_live _ ob he).1,
    ObstacleUpdateAll_x_formula _ ob (by rw [z2]; exact hspawn) (by rw [z2]; exact hnow), z2]

theorem FlappyUpdate_gameover_world_witness :
    ((FlappyUpdate (fun _ => 0) 1000 7040 gameOverScrolling).player.x = gameOverScrolling.player.x ∧
      (FlappyUpdate (fun _ => 0) 1000 7040 gameOverScrolling).player.y
        = gameOverScrolling.player.y) ∧
    (FlappyUpdate (fun _ => 0) 1000 7040 gameOverScrolling).obstacleList
      = (ObstacleUpdateAll
          (FlappyUpdate.hazards (fun _ => 0) 1000 7040 gameOverScrolling)).obstacleList :=
  have h := FlappyUpdate_gameover_world (fun _ => 0) 1000 7040 gameOverScrolling rfl
  ⟨h.1, h.2.1.1⟩

/-- C16, as stated, fails: in this GameOver state the tick at time 7020 moves
the obstacle from 152 to 151.36 (its rectangles from 152 to 151), and since no
obstacle is then at or right of `WINDOW_W - OB_DIST = 152` it spawns a second
obstacle, linked at the head of the pool. -/
theorem FlappyUpdate_gameover_world_counterexample :
    gameOverScrolling.state = FLAPPY_STATE_GAMEOVER ∧
    gameOverScrolling.obstacleList.map (fun ob => (ob.x, ob.upper.x, ob.lower.x, ob.expired))
      = [(152, 152, 152, false)] ∧
    (FlappyUpdate (fun _ => 0) 1000 7040 gameOverScrolling).obstacleList.map
        (fun ob => (ob.x, ob.upper.x, ob.lower.x, ob.expired))
      = [(0, -100, -100, false), (3784 / 25, 151, 151, false)] := by
  refine ⟨rfl, rfl, ?_⟩
  obtain ⟨z1, z2, -⟩ := hazards_frame (fun _ => 0) 1000 7040 gameOverScrolling (by decide)
  have hticks : TimerGetTicks (TimerAdvance 1000 7040 gameOverScrolling.timer
      gameOverScrolling.paused) = 7020 := by
    have e : (TimerAdvance 1000 7040 gameOverScrolling.timer gameOverScrolling.paused).ticks
        = 7020 := by
      simp [TimerAdvance, gameOverScrolling, FlappyNew]
      norm_num
    unfold TimerGetTicks
    rw [e]
    exact f2u32_natCast 7020
  rw [hticks] at z2
  have hl : gameOverScrolling.obstacleList =
      [ { upper := { x := 152, y := -26, w := 16, h := 64 },
          lower := { x := 152, y := 62, w := 16, h := 64 },
          x := 152, y := 50, ticks := 5000, expired := false, cleared := false } ] := rfl
  have hx : ∀ ob : Obstacle, ob.ticks = 5000 →
      ObstacleUpdateAll.x (FlappyUpdate.hazards (fun _ => 0) 1000 7040 gameOverScrolling) ob
        = 3784 / 25 := by
    intro ob h
    rw [ObstacleUpdateAll_x_formula _ ob (by rw [z2, h]; decide) (by rw [z2]; decide), z2, h]
    norm_num [WINDOW_W, OB_W]
  have htr : truncf (3784 / 25) = 151 := by
    unfold truncf
    rw [if_pos (by norm_num)]
    show ⌊(3784 / 25 : ℚ)⌋ = 151
    rw [Int.floor_eq_iff]
    norm_num
  rw [FlappyUpdate_gameover_spawn (fun _ => 0) 1000 7040 gameOverScrolling rfl (by
    intro ob hob _
    rw [hl] at hob
    simp only [List.mem_singleton] at hob
    rw [hx ob (by rw [hob])]
    norm_num [WINDOW_W, OB_DIST])]
  rw [ObstaclePush_obstacleList, ObstacleUpdateAll_scroll_obstacleList, z1, hl]
  obtain ⟨ob0, hob0⟩ : ∃ ob0 : Obstacle, ob0 =
      { upper := { x := 152, y := -26, w := 16, h := 64 },
        lower := { x := 152, y := 62, w := 16, h := 64 },
        x := 152, y := 50, ticks := 5000, expired := false, cleared := false } := ⟨_, rfl⟩
  have ht0 : ob0.ticks = 5000 := by rw [hob0]
  have he0 : ob0.expired = false := by rw [hob0]
  rw [← hob0]
  simp only [List.map_cons, List.map_nil]
  obtain ⟨n1, n2, -, n4⟩ := ObstacleUpdateAll_node_live
    (FlappyUpdate.hazards (fun _ => 0) 1000 7040 gameOverScrolling) ob0 he0
  have hoff : ObstacleUpdateAll.offScreen
      (FlappyUpdate.hazards (fun _ => 0) 1000 7040 gameOverScrolling) ob0 = false := by
    simp only [ObstacleUpdateAll.offScreen, hx ob0 ht0, OB_W]
    norm_num
  rw [hoff] at n2
  obtain ⟨n5, n6⟩ := n4 hoff
  rw [hx ob0 ht0] at n1 n5 n6
  rw [htr] at n5 n6
  rw [poolReuse_none _ _ _ (by
    intro a ha
    simp only [List.mem_singleton] at ha
    rw [ha]; exact n2)]
  simp only [Option.getD_none, List.map_cons, List.map_nil, n1, n2, n5, n6]
  simp [ObstaclePush.setup, ObstaclePush.zero]

theorem TimerAdvance_ticks (freq counter : Nat) (timer : Timer) (isPaused : Bool) :
    (TimerAdvance freq counter timer isPaused).ticks
      = timer.ticks + (if isPaused then 0 else TimerAdvance.step freq timer.prev timer.now) := by
  cases isPaused <;> simp [TimerAdvance, TimerAdvance.step]

/-- The time that a run of calls adds does not depend on the time accumulated
before. -/
theorem TimerAdvance_run_shift (freq : Nat) (calls : List (Nat × Bool)) (t t' : Timer)
    (h1 : t'.prev = t.prev) (h2 : t'.now = t.now) (h3 : t'.start = t.start) :
    (TimerAdvance.run freq calls t').ticks - t'.ticks
      = (TimerAdvance.run freq calls t).ticks - t.ticks := by
  induction calls generalizing t t' with
  | nil => simp [TimerAdvance.run]
  | cons call rest ih =>
    simp only [TimerAdvance.run]
    have e := ih (TimerAdvance freq call.1 t call.2) (TimerAdvance freq call.1 t' call.2)
      (by simp [TimerAdvance, h2]) (by simp [TimerAdvance, h3]) (by simp [TimerAdvance, h3])
    have a1 := TimerAdvance_ticks freq call.1 t call.2
    have a2 := TimerAdvance_ticks freq call.1 t' call.2
    rw [h1, h2] at a2
    linarith

/-- C19, amended. For calls of `TimerAdvance` at the clock samples `a <= b`
(not before the timer's start) and then `c`, under any pause pattern: the
first two calls add nothing that depends on `b`; the third call adds the clock
interval `b - a` between the first two, `(b - a) * 1000 / freq`, exactly when
the third call is made while not paused, whether or not the first two were
paused; and what any later calls add does not depend on `a`. So a call made
while paused adds nothing, but the interval between two paused calls is added
by the next call when that call is not paused. -/
theorem TimerAdvance_interval (freq : Nat) (t : Timer) (a b c : Nat) (pa pb pc : Bool)
    (hs : t.start ≤ a) (hab : a ≤ b) (hb : b < 18446744073709551616) :
    (TimerAdvance.run freq [(a, pa), (b, pb)] t).ticks
      = t.ticks + (if pa then 0 else TimerAdvance.step freq t.prev t.now)
        + (if pb then 0 else TimerAdvance.step freq t.now (a - t.start)) ∧
    (TimerAdvance.run freq [(a, pa), (b, pb), (c, pc)] t).ticks
      = (TimerAdvance.run freq [(a, pa), (b, pb)] t).ticks
        + (if pc then 0
           else (((b - a) * 1000 % 18446744073709551616 : Nat) : ℚ) / (freq : ℚ)) ∧
    (∀ (a' : Nat) (pa' pb' : Bool) (later : List (Nat × Bool)),
      (TimerAdvance.run freq later (TimerAdvance.run freq [(a', pa'), (b, pb'), (c, pc)] t)).ticks
          - (TimerAdvance.run freq [(a', pa'), (b, pb'), (c, pc)] t).ticks
        = (TimerAdvance.run freq later (TimerAdvance.run freq [(a, pa), (b, pb), (c, pc)] t)).ticks
          - (TimerAdvance.run freq [(a, pa), (b, pb), (c, pc)] t).ticks) := by
  have hnowa : (TimerAdvance freq a t pa).now = a - t.start := by
    simp only [TimerAdvance]
    omega
  have hpreva : (TimerAdvance freq a t pa).prev = t.now := rfl
  have hstart : ∀ (x : Nat) (p : Bool) (u : Timer), (TimerAdvance freq x u p).start = u.start :=
    fun _ _ _ => rfl
  have hnowb : (TimerAdvance freq b (TimerAdvance freq a t pa) pb).now = b - t.start := by
    simp only [TimerAdvance]
    omega
  have hprevb : (TimerAdvance freq b (TimerAdvance freq a t pa) pb).prev = a - t.start := by
    show (TimerAdvance freq a t pa).now = a - t.start
    exact hnowa
  refine ⟨?_, ?_, ?_⟩
  · simp only [TimerAdvance.run]
    rw [TimerAdvance_ticks, TimerAdvance_ticks, hpreva, hnowa]
  · simp only [TimerAdvance.run]
    rw [TimerAdvance_ticks freq c, hprevb, hnowb]
    have e : TimerAdvance.step freq (a - t.start) (b - t.start)
        = (((b - a) * 1000 % 18446744073709551616 : Nat) : ℚ) / (freq : ℚ) := by
      unfold TimerAdvance.step
      have : (b - t.start + (18446744073709551616 - (a - t.start) % 18446744073709551616))
          % 18446744073709551616 = b - a := by omega
      rw [this]
    rw [e]
  · intro a' pa' pb' later
    simp only [TimerAdvance.run]
    apply TimerAdvance_run_shift
    · rfl
    · rfl
    · rfl

theorem TimerAdvance_interval_witness :
    (TimerAdvance.run 1000 [(1016, true), (1032, true), (1048, false)] timerRunning).ticks
      = (TimerAdvance.run 1000 [(1016, true), (1032, true)] timerRunning).ticks
        + (if false then 0
           else (((1032 - 1016) * 1000 % 18446744073709551616 : Nat) : ℚ) / ((1000 : Nat) : ℚ)) :=
  (TimerAdvance_interval 1000 timerRunning 1016 1032 1048 true true false (by decide) (by decide)
    (by decide)).2.1

/-- C19, as stated, fails: the calls at the samples 1016 and 1032 are both made
while paused; the call at 1048, made after the pause, adds the 16 ms between
them to the accumulated time, which goes from 1000 to 1016. -/
theorem TimerAdvance_pause_leaks :
    (TimerAdvance.run 1000 [(1016, true), (1032, true)] timerRunning).ticks = 1000 ∧
    (TimerAdvance.run 1000 [(1016, true), (1032, true), (1048, false)] timerRunning).ticks
      = 1016 ∧
    TimerGetTicks
      (TimerAdvance.run 1000 [(1016, true), (1032, true), (1048, false)] timerRunning) = 1016 := by
  have e : (TimerAdvance.run 1000 [(1016, true), (1032, true), (1048, false)] timerRunning).ticks
      = 1016 := by
    simp [TimerAdvance.run, TimerAdvance, timerRunning]
    norm_num
  refine ⟨?_, e, ?_⟩
  · simp [TimerAdvance.run, TimerAdvance, timerRunning]
  · unfold TimerGetTicks
    rw [e]
    exact f2u32_natCast 1016

/-- C20 fails on the code. Outside the Jabu theme, from the initial history,
the draws 1, 1 are stored as drawn; at the third call the draw 1 equals the two
most recent entries, the counts of 0, 1 and 2 in the history are 14, 2 and 0,
so category 2 occurs strictly less often than both others and differs from the
most recent entry 1. The source assigns `this = common[2]`, the count 0, and
the category stored is 0, not 2. -/
theorem ObstaclePush_stores_count :
    (FlappyNew (drawsOf [1, 1, 1]) 4 0).theme ≠ FLAPPY_THEME_JABU ∧
    (ObstaclePush.times 2 (FlappyNew (drawsOf [1, 1, 1]) 4 0)).last.take 2 = [1, 1] ∧
    (FlappyRand (ObstaclePush.times 2 (FlappyNew (drawsOf [1, 1, 1]) 4 0))).1 % 3 = 1 ∧
    ((List.range 3).map
      (ObstaclePush.common (ObstaclePush.times 2 (FlappyNew (drawsOf [1, 1, 1]) 4 0))))
      = [14, 2, 0] ∧
    (ObstaclePush.times 3 (FlappyNew (drawsOf [1, 1, 1]) 4 0)).last.take 3 = [0, 1, 1] := by
  decide

/-- The loop of `GhostY` stops at the first entry, from entry `p` on, that is
not later than `t`, when every entry before it is later than `t`. -/
theorem GhostY_scan_first (player : Player) (t k : Nat)
    (hk1 : (player.ghostAt k).ticks ≤ t)
    (hk2 : ∀ j, j < k → t < (player.ghostAt j).ticks) (fuel p : Nat)
    (hp1 : 1 ≤ p) (hpk : p ≤ k) (hfuel : k < p + fuel) :
    GhostY.scan player t fuel p = k := by
  induction fuel generalizing p with
  | zero => omega
  | succ fuel ih =>
    unfold GhostY.scan
    by_cases hc : t ≥ (player.ghostAt p).ticks ∧ t < (player.ghostAt (p - 1)).ticks
    · rw [if_pos hc]
      by_contra hne
      have := hk2 p (by omega)
      omega
    · rw [if_neg hc]
      have hpk' : p ≠ k := by
        intro h
        apply hc
        rw [h]
        exact ⟨hk1, hk2 (k - 1) (by omega)⟩
      exact ih (p + 1) (by omega) (by omega) (by omega)

/-- The answer of `GhostY` when entry `k` of the ring is the first one, from
the newest, that is not later than the target time. -/
theorem GhostY_of_first (g : Flappy) (player : Player) (x : ℚ) (k : Nat)
    (hk : k < GHOST_MAX) (hlt : g.ticks < 4294967296)
    (hago : f2u32 (((player.x - x) / SCROLL_SPEED) * 1000) ≤ g.ticks)
    (hpos : 0 < (player.ghostAt k).ticks)
    (hk1 : (player.ghostAt k).ticks ≤ g.ticks - f2u32 (((player.x - x) / SCROLL_SPEED) * 1000))
    (hk2 : ∀ j, j < k →
      g.ticks - f2u32 (((player.x - x) / SCROLL_SPEED) * 1000) < (player.ghostAt j).ticks) :
    GhostY g player x =
      (ParabolaMotion (player.ghostAt k)
          (g.ticks - f2u32 (((player.x - x) / SCROLL_SPEED) * 1000) - (player.ghostAt k).ticks),
        g.ticks - f2u32 (((player.x - x) / SCROLL_SPEED) * 1000) - (player.ghostAt k).ticks) := by
  unfold GhostY
  simp only [sub32_of_le _ _ hago hlt]
  obtain ⟨t, ht⟩ : ∃ t, t = g.ticks - f2u32 (((player.x - x) / SCROLL_SPEED) * 1000) := ⟨_, rfl⟩
  rw [← ht] at hk1 hk2 ⊢
  have htlt : t < 4294967296 := by omega
  have hp : (if t < (player.ghostAt 0).ticks then GhostY.scan player t (GHOST_MAX - 1) 1 else 0)
      = k := by
    by_cases h0 : t < (player.ghostAt 0).ticks
    · rw [if_pos h0]
      have hk0 : k ≠ 0 := by
        intro h
        rw [h] at hk1
        omega
      exact GhostY_scan_first player t k hk1 hk2 _ 1 (le_refl _) (by omega)
        (by unfold GHOST_MAX at hk ⊢; omega)
    · rw [if_neg h0]
      by_contra hne
      have := hk2 0 (by omega)
      omega
  rw [hp, if_neg (by
    intro h
    rcases h with h | h
    · omega
    · omega)]
  simp only [sub32_of_le _ _ hk1 htlt]

/-- C21. On a ring whose `n >= 1` recorded entries have positive timestamps in
non-increasing order (newest first), for a query whose target time
`game->ticks - ago` (no wrap: `ago <= game->ticks`) is not earlier than the
oldest recorded flap, `GhostY` selects the first entry `k`, from the newest,
whose timestamp is not later than the target time; that entry is the most
recent flap at or before the target time, and `GhostY` returns its parabola
evaluated at `targetTime - entry.time`, which it also reports. -/
theorem GhostY_most_recent (g : Flappy) (player : Player) (x : ℚ) (n : Nat)
    (hn : 1 ≤ n) (hn64 : n ≤ GHOST_MAX) (hlt : g.ticks < 4294967296)
    (hago : f2u32 (((player.x - x) / SCROLL_SPEED) * 1000) ≤ g.ticks)
    (hpos : ∀ i, i < n → 0 < (player.ghostAt i).ticks)
    (hord : ∀ i j, i ≤ j → j < n → (player.ghostAt j).ticks ≤ (player.ghostAt i).ticks)
    (htarget : (player.ghostAt (n - 1)).ticks
      ≤ g.ticks - f2u32 (((player.x - x) / SCROLL_SPEED) * 1000)) :
    ∃ k, k < n ∧
      (player.ghostAt k).ticks ≤ g.ticks - f2u32 (((player.x - x) / SCROLL_SPEED) * 1000) ∧
      (∀ j, j < k →
        g.ticks - f2u32 (((player.x - x) / SCROLL_SPEED) * 1000) < (player.ghostAt j).ticks) ∧
      (∀ j, j < n →
        (player.ghostAt j).ticks ≤ g.ticks - f2u32 (((player.x - x) / SCROLL_SPEED) * 1000) →
        (player.ghostAt j).ticks ≤ (player.ghostAt k).ticks) ∧
      GhostY g player x =
        (ParabolaMotion (player.ghostAt k)
            (g.ticks - f2u32 (((player.x - x) / SCROLL_SPEED) * 1000) - (player.ghostAt k).ticks),
          g.ticks - f2u32 (((player.x - x) / SCROLL_SPEED) * 1000) - (player.ghostAt k).ticks) := by
  obtain ⟨t, ht⟩ : ∃ t, t = g.ticks - f2u32 (((player.x - x) / SCROLL_SPEED) * 1000) := ⟨_, rfl⟩
  rw [← ht] at htarget ⊢
  have hex : ∃ k, (player.ghostAt k).ticks ≤ t := ⟨n - 1, htarget⟩
  have hfind := Nat.find_spec hex
  have hmin : ∀ j, j < Nat.find hex → t < (player.ghostAt j).ticks := by
    intro j hj
    have := Nat.find_min hex hj
    omega
  have hkn : Nat.find hex < n := by
    have := Nat.find_min' hex htarget
    omega
  refine ⟨Nat.find hex, hkn, hfind, hmin, ?_, ?_⟩
  · intro j hj hjt
    by_cases hjk : j < Nat.find hex
    · have := hmin j hjk
      omega
    · exact hord (Nat.find hex) j (by omega) hj
  · have h := GhostY_of_first g player x (Nat.find hex) (by omega) hlt hago (hpos _ hkn)
      (by rw [← ht]; exact hfind) (by rw [← ht]; exact hmin)
    rw [← ht] at h
    exact h

theorem GhostY_most_recent_witness :
    ∃ k, k < 2 ∧
      (gameTwoFlaps.player.ghostAt k).ticks
        ≤ gameTwoFlaps.ticks
          - f2u32 (((gameTwoFlaps.player.x - 412 / 5) / SCROLL_SPEED) * 1000) ∧
      GhostY gameTwoFlaps gameTwoFlaps.player (412 / 5) =
        (ParabolaMotion (gameTwoFlaps.player.ghostAt k)
            (gameTwoFlaps.ticks
              - f2u32 (((gameTwoFlaps.player.x - 412 / 5) / SCROLL_SPEED) * 1000)
              - (gameTwoFlaps.player.ghostAt k).ticks),
          gameTwoFlaps.ticks
            - f2u32 (((gameTwoFlaps.player.x - 412 / 5) / SCROLL_SPEED) * 1000)
            - (gameTwoFlaps.player.ghostAt k).ticks) := by
  have hago : f2u32 (((gameTwoFlaps.player.x - 412 / 5) / SCROLL_SPEED) * 1000) = 300 := by
    have : ((gameTwoFlaps.player.x - 412 / 5) / SCROLL_SPEED) * 1000 = ((300 : Nat) : ℚ) := by
      simp only [gameTwoFlaps, SCROLL_SPEED]
      norm_num
    rw [this, f2u32_natCast]
  obtain ⟨k, h1, h2, -, -, h5⟩ := GhostY_most_recent gameTwoFlaps gameTwoFlaps.player (412 / 5) 2
    (by decide) (by decide) (by decide) (by rw [hago]; decide)
    (by
      intro i hi
      interval_cases i <;> simp [gameTwoFlaps, Player.ghostAt])
    (by
      intro i j hij hj
      interval_cases j <;> interval_cases i <;> simp [gameTwoFlaps, Player.ghostAt])
    (by rw [hago]; simp [gameTwoFlaps, Player.ghostAt])
  exact ⟨k, h1, h2, h5⟩

theorem le_truncf_of_le (q : ℚ) (n : Int) (h0 : 0 ≤ n) (h : (n : ℚ) ≤ q) : n ≤ truncf q := by
  have h0q : (0 : ℚ) ≤ q := le_trans (by exact_mod_cast h0) h
  unfold truncf
  rw [if_pos h0q]
  show n ≤ ⌊q⌋
  exact Int.le_floor.mpr h

/-- The variable `rightmost` never falls below a bound `n >= 0` it has
reached. -/
theorem ObstacleUpdateAll_rightmost_mono (obs : List Obstacle) (g : Flappy) (rm n : Int)
    (h0 : 0 ≤ n) (hrm : n ≤ rm) : n ≤ (ObstacleUpdateAll.loop obs g rm).2.1 := by
  induction obs generalizing g rm with
  | nil => exact hrm
  | cons ob obs ih =>
    simp only [ObstacleUpdateAll.loop]
    apply ih
    rw [ObstacleUpdateAll_visit_rightmost]
    split_ifs with he hgt
    · exact hrm
    · apply le_truncf_of_le _ _ h0
      have : (n : ℚ) ≤ (rm : ℚ) := by exact_mod_cast hrm
      exact le_of_lt (lt_of_le_of_lt this hgt)
    · exact hrm

/-- The variable `rightmost` ends at or above a bound `n >= 0` that a live
node is at or right of. -/
theorem ObstacleUpdateAll_rightmost_ge (obs : List Obstacle) (g : Flappy) (rm n : Int)
    (h0 : 0 ≤ n)
    (h : ∃ ob ∈ obs, ob.expired = false ∧ (n : ℚ) ≤ ObstacleUpdateAll.x g ob) :
    n ≤ (ObstacleUpdateAll.loop obs g rm).2.1 := by
  induction obs generalizing g rm with
  | nil =>
    obtain ⟨ob, hob, -⟩ := h
    simp at hob
  | cons o obs ih =>
    obtain ⟨v1, -, -, -, -, -⟩ := ObstacleUpdateAll_visit_spec g rm o
    obtain ⟨ob, hob, he, hx⟩ := h
    simp only [ObstacleUpdateAll.loop]
    rcases List.mem_cons.mp hob with hob | hob
    · apply ObstacleUpdateAll_rightmost_mono _ _ _ _ h0
      rw [ObstacleUpdateAll_visit_rightmost, ← hob, he]
      simp only [Bool.false_eq_true, if_false]
      split_ifs with hgt
      · exact le_truncf_of_le _ _ h0 hx
      · have : (n : ℚ) ≤ (rm : ℚ) := le_trans hx (not_lt.mp hgt)
        exact_mod_cast this
    · apply ih
      exact ⟨ob, hob, he, by rw [ObstacleUpdateAll_x_congr g _ ob v1]; exact hx⟩

/-- `ObstacleUpdateAll` calls `ObstaclePush` when every live node is left of
`WINDOW_W - OB_DIST`. -/
theorem ObstacleUpdateAll_of_all_left (g : Flappy)
    (h : ∀ ob ∈ g.obstacleList, ob.expired = false →
      ObstacleUpdateAll.x g ob < ((WINDOW_W - OB_DIST : Int) : ℚ)) :
    ObstacleUpdateAll g = ObstaclePush (ObstacleUpdateAll.scroll g).1 := by
  have hrm := (ObstacleUpdateAll_rightmost_lt g.obstacleList g 0 (WINDOW_W - OB_DIST)
    (by decide) (le_refl _) h).1
  have hlt : (ObstacleUpdateAll.scroll g).2 < WINDOW_W - OB_DIST := hrm
  unfold ObstacleUpdateAll
  simp only [hlt, if_true]

/-- `ObstacleUpdateAll` does not call `ObstaclePush` when a live node is at or
right of `WINDOW_W - OB_DIST`. -/
theorem ObstacleUpdateAll_of_one_right (g : Flappy)
    (h : ∃ ob ∈ g.obstacleList, ob.expired = false ∧
      ((WINDOW_W - OB_DIST : Int) : ℚ) ≤ ObstacleUpdateAll.x g ob) :
    ObstacleUpdateAll g = (ObstacleUpdateAll.scroll g).1 := by
  have hrm := ObstacleUpdateAll_rightmost_ge g.obstacleList g 0 (WINDOW_W - OB_DIST)
    (by decide) h
  have hge : ¬ (ObstacleUpdateAll.scroll g).2 < WINDOW_W - OB_DIST := not_lt.mpr hrm
  unfold ObstacleUpdateAll
  simp only [hge, if_false]

theorem countP_not_add {α : Type} (p : α → Bool) (l : List α) :
    l.countP (fun a => !p a) + l.countP p = l.length := by
  induction l with
  | nil => rfl
  | cons a as ih =>
    cases hp : p a <;> simp [List.countP_cons, hp] <;> omega

/-- A call of `ObstaclePush` raises the number of live nodes by one. -/
theorem ObstaclePush_live (g : Flappy) :
    ((ObstaclePush g).obstacleList.filter (fun ob => !ob.expired)).length
      = (g.obstacleList.filter (fun ob => !ob.expired)).length + 1 := by
  obtain ⟨c1, c2⟩ := poolReuse_count (fun ob : Obstacle => ob.expired) (ObstaclePush.setup g)
    (ObstaclePush.setup g ObstaclePush.zero) g.obstacleList (fun _ => rfl) rfl
  rw [← ObstaclePush_obstacleList] at c1 c2
  have e1 : List.countP (fun ob : Obstacle => !ob.expired) (ObstaclePush g).obstacleList
      + List.countP (fun ob : Obstacle => ob.expired) (ObstaclePush g).obstacleList
      = (ObstaclePush g).obstacleList.length :=
    countP_not_add (fun ob : Obstacle => ob.expired) _
  have e2 : List.countP (fun ob : Obstacle => !ob.expired) g.obstacleList
      + List.countP (fun ob : Obstacle => ob.expired) g.obstacleList
      = g.obstacleList.length :=
    countP_not_add (fun ob : Obstacle => ob.expired) _
  rw [← List.countP_eq_length_filter, ← List.countP_eq_length_filter]
  split_ifs at c1 <;> omega

/-- C22, amended. `ObstacleUpdateAll` spawns an obstacle in a call exactly when
`rightmost < WINDOW_W - OB_DIST`: when the left edge of every live obstacle, at
its position of this call, is more than `OB_DIST = 48` left of the screen's
right edge `WINDOW_W = 200` (position below 152); when a live obstacle is at or
right of 152 nothing is spawned. The decision is taken on the positions
alone. A spawn is one call of `ObstaclePush`: the pool has one live node more
than the loop left. -/
theorem ObstacleUpdateAll_spawn (g : Flappy) :
    ((∀ ob ∈ g.obstacleList, ob.expired = false →
        ObstacleUpdateAll.x g ob < ((WINDOW_W - OB_DIST : Int) : ℚ)) →
      ObstacleUpdateAll g = ObstaclePush (ObstacleUpdateAll.scroll g).1 ∧
      ((ObstacleUpdateAll g).obstacleList.filter (fun ob => !ob.expired)).length
        = ((g.obstacleList.map (ObstacleUpdateAll.node g)).filter
            (fun ob => !ob.expired)).length + 1) ∧
    ((∃ ob ∈ g.obstacleList, ob.expired = false ∧
        ((WINDOW_W - OB_DIST : Int) : ℚ) ≤ ObstacleUpdateAll.x g ob) →
      ObstacleUpdateAll g = (ObstacleUpdateAll.scroll g).1 ∧
      (ObstacleUpdateAll g).obstacleList = g.obstacleList.map (ObstacleUpdateAll.node g)) := by
  constructor
  · intro h
    have e := ObstacleUpdateAll_of_all_left g h
    refine ⟨e, ?_⟩
    rw [e, ObstaclePush_live, ObstacleUpdateAll_scroll_obstacleList]
  · intro h
    have e := ObstacleUpdateAll_of_one_right g h
    exact ⟨e, by rw [e, ObstacleUpdateAll_scroll_obstacleList]⟩

/-- C22, as stated, fails: the one live obstacle stands at 184, its left edge
16 pixels from the screen's right edge at 200, closer than `OB_DIST = 48`, and
the call spawns nothing: the pool keeps its single node. -/
theorem ObstacleUpdateAll_spawn_counterexample :
    gameObstacleAhead.obstacleList.map (fun ob => ob.expired) = [false] ∧
    (ObstacleUpdateAll gameObstacleAhead).obstacleList.map (fun ob => (ob.x, ob.expired))
      = [(184, false)] ∧
    (WINDOW_W : ℚ) - 184 < (OB_DIST : ℚ) := by
  have hl : gameObstacleAhead.obstacleList =
      [ { upper := { x := 184, y := -26, w := 16, h := 64 },
          lower := { x := 184, y := 62, w := 16, h := 64 },
          x := 4616 / 25, y := 50, ticks := 5000, expired := false, cleared := false } ] := rfl
  obtain ⟨ob0, hob0⟩ : ∃ ob0 : Obstacle, ob0 =
      { upper := { x := 184, y := -26, w := 16, h := 64 },
        lower := { x := 184, y := 62, w := 16, h := 64 },
        x := 4616 / 25, y := 50, ticks := 5000, expired := false, cleared := false } := ⟨_, rfl⟩
  have ht0 : ob0.ticks = 5000 := by rw [hob0]
  have he0 : ob0.expired = false := by rw [hob0]
  rw [← hob0] at hl
  have hx : ObstacleUpdateAll.x gameObstacleAhead ob0 = 184 := by
    rw [ObstacleUpdateAll_x_formula gameObstacleAhead ob0 (by rw [ht0]; decide) (by decide), ht0]
    norm_num [WINDOW_W, OB_W, gameObstacleAhead]
  refine ⟨rfl, ?_, by norm_num [WINDOW_W, OB_DIST]⟩
  have e := ObstacleUpdateAll_of_one_right gameObstacleAhead
    ⟨ob0, by rw [hl]; exact List.mem_singleton.mpr rfl, he0, by
      rw [hx]; norm_num [WINDOW_W, OB_DIST]⟩
  rw [e, ObstacleUpdateAll_scroll_obstacleList, hl]
  obtain ⟨n1, n2, -, -⟩ := ObstacleUpdateAll_node_live gameObstacleAhead ob0 he0
  have hoff : ObstacleUpdateAll.offScreen gameObstacleAhead ob0 = false := by
    simp only [ObstacleUpdateAll.offScreen, hx, OB_W]
    norm_num
  simp only [List.map_cons, List.map_nil, n1, n2, hx, hoff]

theorem ObstaclePush_streak_lt (v : Nat) (g : Flappy) (hv : v < 3) :
    (ObstaclePush.streak v g).1 < 3 := by
  unfold ObstaclePush.streak
  simp only []
  split_ifs
  · exact Nat.mod_lt _ (by decide)
  · exact Nat.mod_lt _ (by decide)
  · exact hv

theorem ObstaclePush_jabu_lt (v : Nat) (g : Flappy) (hv : v < 3) :
    (ObstaclePush.jabu v g).1 < 3 := by
  unfold ObstaclePush.jabu
  split_ifs <;> simp only [] <;> first | omega | (split_ifs <;> omega)

/-- The category `ObstaclePush` resolves is 0, 1 or 2. -/
theorem ObstaclePush_resolve_lt (g : Flappy) : (ObstaclePush.resolve g).1 < 3 := by
  unfold ObstaclePush.resolve
  simp only []
  exact ObstaclePush_jabu_lt _ _ (ObstaclePush_streak_lt _ _ (Nat.mod_lt _ (by decide)))

/-- The history after `ObstaclePush`: the resolved category in front of the
15 most recent entries. -/
theorem ObstaclePush_last (g : Flappy) :
    (ObstaclePush g).last = ((ObstaclePush.resolve g).1 :: g.last).take 16 := by
  have h1 : (ObstaclePush g).last = (ObstaclePush.resolve g).2.last := by
    simp only [ObstaclePush]
    split <;> rfl
  rw [h1]
  obtain ⟨r1, h1⟩ := ObstaclePush_streak_frame ((FlappyRand g).1 % 3) (FlappyRand g).2
  obtain ⟨r2, h2⟩ := ObstaclePush_jabu_frame
    (ObstaclePush.streak ((FlappyRand g).1 % 3) (FlappyRand g).2).1
    (ObstaclePush.streak ((FlappyRand g).1 % 3) (FlappyRand g).2).2
  unfold ObstaclePush.resolve
  simp only []
  rw [h2, h1]
  rfl

/-- The category `ObstaclePush` resolves in the Jabu theme. -/
theorem ObstaclePush_resolve_jabu (g : Flappy) (ht : g.theme = FLAPPY_THEME_JABU) :
    (g.jabuHazardActive = true → (ObstaclePush.resolve g).1 = 2) ∧
    (g.jabuHazardActive = false →
      (ObstaclePush.resolve g).1 = 1 ∨ (ObstaclePush.resolve g).1 = 0) := by
  obtain ⟨r1, h1⟩ := ObstaclePush_streak_frame ((FlappyRand g).1 % 3) (FlappyRand g).2
  have hth : (ObstaclePush.streak ((FlappyRand g).1 % 3) (FlappyRand g).2).2.theme
      = FLAPPY_THEME_JABU := by
    rw [h1]; exact ht
  have hja : (ObstaclePush.streak ((FlappyRand g).1 % 3) (FlappyRand g).2).2.jabuHazardActive
      = g.jabuHazardActive := by
    rw [h1]; rfl
  unfold ObstaclePush.resolve
  simp only []
  unfold ObstaclePush.jabu
  rw [if_pos hth, hja]
  constructor
  · intro h
    rw [if_pos h]
  · intro h
    rw [if_neg (by rw [h]; decide)]
    simp only []
    split_ifs
    · exact Or.inl rfl
    · exact Or.inr rfl

theorem ObstaclePush_setup_y (g : Flappy) (ob : Obstacle) :
    (ObstaclePush.setup g ob).y = ((yArray.getD (ObstaclePush.resolve g).1 0 : Int) : ℚ) := rfl

/-- C23. In the Jabu theme, whatever the history and the draws, the category
`ObstaclePush` resolves is High (2, gap centre 25) when `jabuHazardActive` is
set and Medium or Low (1 or 0, gap centre 50 or 76), never High, when it is
not; the category is at once the entry put in front of the history and the
index of the gap centre given to the node that the call sets up. -/
theorem ObstaclePush_jabu_category (g : Flappy) (ht : g.theme = FLAPPY_THEME_JABU) :
    (g.jabuHazardActive = true →
      (ObstaclePush.resolve g).1 = 2 ∧ ∀ ob, (ObstaclePush.setup g ob).y = 25) ∧
    (g.jabuHazardActive = false →
      ((ObstaclePush.resolve g).1 = 1 ∨ (ObstaclePush.resolve g).1 = 0) ∧
      (ObstaclePush.resolve g).1 ≠ 2 ∧
      ∀ ob, (ObstaclePush.setup g ob).y = 50 ∨ (ObstaclePush.setup g ob).y = 76) ∧
    (ObstaclePush g).last = ((ObstaclePush.resolve g).1 :: g.last).take 16 ∧
    (ObstaclePush g).obstacleList
      = (poolReuse (fun ob => ob.expired) (ObstaclePush.setup g) g.obstacleList).getD
          (ObstaclePush.setup g ObstaclePush.zero :: g.obstacleList) := by
  obtain ⟨j1, j2⟩ := ObstaclePush_resolve_jabu g ht
  refine ⟨?_, ?_, ObstaclePush_last g, ObstaclePush_obstacleList g⟩
  · intro h
    refine ⟨j1 h, fun ob => ?_⟩
    rw [ObstaclePush_setup_y, j1 h]
    norm_num [yArray]
  · intro h
    refine ⟨j2 h, ?_, fun ob => ?_⟩
    · rcases j2 h with e | e <;> rw [e] <;> decide
    · rw [ObstaclePush_setup_y]
      rcases j2 h with e | e
      · left; rw [e]; norm_num [yArray]
      · right; rw [e]; norm_num [yArray]

theorem ObstaclePush_jabu_category_witness :
    (ObstaclePush.resolve gameJabu).1 = 2 ∧
    (∀ ob, (ObstaclePush.setup gameJabu ob).y = 25) ∧
    (ObstaclePush gameJabu).last = ((ObstaclePush.resolve gameJabu).1 :: gameJabu.last).take 16 :=
  have h := ObstaclePush_jabu_category gameJabu rfl
  ⟨(h.1 rfl).1, (h.1 rfl).2, h.2.2.1⟩

/-- C30. Whatever the history, the theme, `jabuHazardActive` and the draws, the
category `ObstaclePush` resolves is 0, 1 or 2: the lookup in the three-entry
table `yArray` is in bounds, the gap centre given to the node is 76, 50 or 25,
and a history with entries in {0, 1, 2} keeps entries in {0, 1, 2}. -/
theorem ObstaclePush_category_bounds (g : Flappy) :
    (ObstaclePush.resolve g).1 < yArray.length ∧
    ((ObstaclePush.resolve g).1 = 0 ∨ (ObstaclePush.resolve g).1 = 1
      ∨ (ObstaclePush.resolve g).1 = 2) ∧
    yArray[(ObstaclePush.resolve g).1]? = some (yArray.getD (ObstaclePush.resolve g).1 0) ∧
    (∀ ob, (ObstaclePush.setup g ob).y = 76 ∨ (ObstaclePush.setup g ob).y = 50
      ∨ (ObstaclePush.setup g ob).y = 25) ∧
    ((∀ v ∈ g.last, v < 3) → ∀ v ∈ (ObstaclePush g).last, v < 3) := by
  have hlt := ObstaclePush_resolve_lt g
  have hcases : (ObstaclePush.resolve g).1 = 0 ∨ (ObstaclePush.resolve g).1 = 1
      ∨ (ObstaclePush.resolve g).1 = 2 := by omega
  refine ⟨hlt, hcases, ?_, ?_, ?_⟩
  · rcases hcases with e | e | e <;> rw [e] <;> rfl
  · intro ob
    rw [ObstaclePush_setup_y]
    rcases hcases with e | e | e <;> rw [e] <;> norm_num [yArray]
  · intro h v hv
    rw [ObstaclePush_last] at hv
    have hv' := List.mem_of_mem_take hv
    rcases List.mem_cons.mp hv' with e | e
    · rw [e]; exact hlt
    · exact h v e

/-- The ring after `GhostPush`, entry by entry. -/
theorem GhostPush_ghostAt (player : Player) (p : Parabola) :
    (GhostPush player p).ghostAt 0 = p ∧
    (∀ i, 1 ≤ i → i < GHOST_MAX → (GhostPush player p).ghostAt i = player.ghostAt (i - 1)) ∧
    (GhostPush player p).ghost.length = min GHOST_MAX (player.ghost.length + 1) := by
  refine ⟨?_, ?_, ?_⟩
  · simp [GhostPush, Player.ghostAt, GHOST_MAX]
  · intro i h1 h64
    obtain ⟨j, rfl⟩ : ∃ j, i = j + 1 := ⟨i - 1, by omega⟩
    simp only [GhostPush, Player.ghostAt, List.getD_eq_getElem?_getD, List.getElem?_take,
      if_pos h64, List.getElem?_cons_succ, Nat.add_sub_cancel]
  · simp [GhostPush]

/-- What a flap does in `PlayerUpdate`: the player and the flag
`playerflapped` after the call. -/
theorem PlayerUpdate_flap (g : Flappy) (hd : g.player.isDead = false)
    (hs : g.state = FLAPPY_STATE_PLAYING)
    (hflap : (!g.buttonhover && g.player.mouseUp && g.input.mouseDown) = true) :
    (PlayerUpdate g).player.parabola = { y := (PlayerUpdate g).player.y, ticks := g.ticks } ∧
    (PlayerUpdate g).player.ghost
      = (GhostPush
          { g.player with
            ghost := if g.playerflapped then g.player.ghost
              else List.replicate GHOST_MAX { y := 0, ticks := 0 } }
          { y := (PlayerUpdate g).player.y, ticks := g.ticks }).ghost ∧
    (PlayerUpdate g).playerflapped = true := by
  unfold PlayerUpdate
  rw [if_neg (by simp [hd]), if_neg (by simp [hs])]
  simp only [ColliderArenaPush_player, ColliderArenaPush_playerflapped]
  by_cases hf : g.playerflapped = true
  · simp [hf, hflap, GhostPush]
  · simp [hf, hflap, GhostPush]

/-- C25. For every player and every parabola `p`, `GhostPush(p)` leaves the
ring with `ghost[0] = p` and `ghost[i]` equal to the previous `ghost[i-1]` for
`1 <= i < 64`; a ring of 64 entries keeps 64 entries, the previous `ghost[63]`
being dropped. For every game, a flap in `PlayerUpdate` at tick `T` (live
player, Playing state, mouse pressed after a release, no button hovered) sets
the current parabola to `(player.y, T)`, `player.y` being the height this call
computed, and pushes exactly that record; on the first flap the ring is zeroed
before the push. -/
theorem GhostPush_shift (player : Player) (p : Parabola) :
    ((GhostPush player p).ghostAt 0 = p ∧
      (∀ i, 1 ≤ i → i < 64 → (GhostPush player p).ghostAt i = player.ghostAt (i - 1)) ∧
      (player.ghost.length = 64 → (GhostPush player p).ghost.length = 64)) ∧
    (∀ g : Flappy, g.player.isDead = false → g.state = FLAPPY_STATE_PLAYING →
      (!g.buttonhover && g.player.mouseUp && g.input.mouseDown) = true →
      (PlayerUpdate g).player.parabola = { y := (PlayerUpdate g).player.y, ticks := g.ticks } ∧
      (PlayerUpdate g).player.y =
        (if g.playerflapped then
          ParabolaMotion g.player.parabola (sub32 g.ticks g.player.parabola.ticks)
        else g.player.y) ∧
      (PlayerUpdate g).player.ghostAt 0 = (PlayerUpdate g).player.parabola ∧
      (∀ i, 1 ≤ i → i < 64 →
        (PlayerUpdate g).player.ghostAt i =
          if g.playerflapped then g.player.ghostAt (i - 1) else { y := 0, ticks := 0 }) ∧
      (PlayerUpdate g).playerflapped = true) := by
  obtain ⟨a1, a2, a3⟩ := GhostPush_ghostAt player p
  refine ⟨⟨a1, a2, ?_⟩, ?_⟩
  · intro h
    rw [a3, h]; rfl
  intro g hd hs hflap
  obtain ⟨f1, f2, f3⟩ := PlayerUpdate_flap g hd hs hflap
  refine ⟨f1, PlayerUpdate_y g hd hs, ?_, ?_, f3⟩
  · have e : (PlayerUpdate g).player.ghostAt 0
        = (GhostPush
          { g.player with
            ghost := if g.playerflapped then g.player.ghost
              else List.replicate GHOST_MAX { y := 0, ticks := 0 } }
          { y := (PlayerUpdate g).player.y, ticks := g.ticks }).ghostAt 0 := by
      unfold Player.ghostAt
      rw [f2]
    rw [e, (GhostPush_ghostAt _ _).1, f1]
  · intro i h1 h64
    have e : (PlayerUpdate g).player.ghostAt i
        = (GhostPush
          { g.player with
            ghost := if g.playerflapped then g.player.ghost
              else List.replicate GHOST_MAX { y := 0, ticks := 0 } }
          { y := (PlayerUpdate g).player.y, ticks := g.ticks }).ghostAt i := by
      unfold Player.ghostAt
      rw [f2]
    rw [e, (GhostPush_ghostAt _ _).2.1 i h1 h64]
    by_cases hf : g.playerflapped = true
    · simp [hf, Player.ghostAt]
    · simp only [hf, Bool.false_eq_true, if_false, Player.ghostAt]
      rw [List.getD_eq_getElem?_getD, List.getElem?_replicate]
      split_ifs <;> rfl

/-- The ring of `gameFlapping` (one flap, at tick 2500) after a push of the
record (10, 2900), and the flap of `PlayerUpdate` at tick 3000 in that game. -/
theorem GhostPush_shift_witness :
    (GhostPush gameFlapping.player { y := 10, ticks := 2900 }).ghostAt 0
      = { y := 10, ticks := 2900 } ∧
    (GhostPush gameFlapping.player { y := 10, ticks := 2900 }).ghostAt 1
      = { y := 46, ticks := 2500 } ∧
    (GhostPush gameFlapping.player { y := 10, ticks := 2900 }).ghost.length = 64 ∧
    (PlayerUpdate gameFlapping).player.parabola
      = { y := (PlayerUpdate gameFlapping).player.y, ticks := 3000 } ∧
    (PlayerUpdate gameFlapping).player.ghostAt 0 = (PlayerUpdate gameFlapping).player.parabola ∧
    (PlayerUpdate gameFlapping).player.ghostAt 1 = { y := 46, ticks := 2500 } :=
  have h := GhostPush_shift gameFlapping.player { y := 10, ticks := 2900 }
  have h2 := h.2 gameFlapping rfl rfl rfl
  ⟨h.1.1, h.1.2.1 1 (by decide) (by decide), h.1.2.2 (by decide),
    h2.1, h2.2.2.1, h2.2.2.2.1 1 (by decide) (by decide)⟩

/-- The walk over the frames of an animation whose durations add up without
wrapping: the loop breaks at the frame whose window holds `t`, and reaches the
closing frame when `t` is past the last window. -/
theorem ParticleDrawAll_frame_walk (t : Nat) (frames : List Frame) (s : Frame)
    (rest : List Frame) (walk : Nat) (hrows : ∀ f ∈ frames, 0 ≤ f.row) (hs : s.row < 0)
    (hsum : walk + (frames.map (fun f => f.dur)).sum < 4294967296) (hwalk : walk ≤ t) :
    (t < walk + (frames.map (fun f => f.dur)).sum →
      ∃ k f, frames[k]? = some f ∧ walk + framesBefore frames k ≤ t ∧
        t < walk + framesBefore frames k + f.dur ∧
        ParticleDrawAll.frame t (frames ++ s :: rest) walk = some f) ∧
    (walk + (frames.map (fun f => f.dur)).sum ≤ t →
      ParticleDrawAll.frame t (frames ++ s :: rest) walk = none) := by
  induction frames generalizing walk with
  | nil =>
    refine ⟨fun h => ?_, fun _ => ?_⟩
    · simp at h; omega
    · simp [ParticleDrawAll.frame, hs]
  | cons f fs ih =>
    have hf : ¬ f.row < 0 := not_lt.mpr (hrows f (List.mem_cons_self _ _))
    simp only [List.map_cons, List.sum_cons] at hsum ⊢
    have hmod : (walk + f.dur) % 4294967296 = walk + f.dur := Nat.mod_eq_of_lt (by omega)
    simp only [List.cons_append, ParticleDrawAll.frame, if_neg hf, hmod]
    by_cases hin : t < walk + f.dur
    · rw [if_pos ⟨hwalk, hin⟩]
      refine ⟨fun _ => ⟨0, f, by simp, by simpa [framesBefore] using hwalk,
        by simpa [framesBefore] using hin, rfl⟩, fun h => by omega⟩
    · rw [if_neg (fun h => hin h.2)]
      obtain ⟨i1, i2⟩ := ih (walk + f.dur) (fun x hx => hrows x (List.mem_cons_of_mem _ hx))
        (by omega) (by omega)
      refine ⟨fun h => ?_, fun h => i2 (by omega)⟩
      obtain ⟨k, f', h1, h2, h3, h4⟩ := i1 (by omega)
      refine ⟨k + 1, f', by simpa using h1, ?_, ?_, h4⟩
      · simp only [framesBefore, List.take_succ_cons, List.map_cons, List.sum_cons] at h2 ⊢
        omega
      · simp only [framesBefore, List.take_succ_cons, List.map_cons, List.sum_cons] at h3 ⊢
        omega

/-- The animations of the table: each is its frames and the closing frame; a
sparkle lasts 600 ms, the death animation 500 ms. -/
theorem anim_frames (type : ParticleType) (h : type ≠ PARTICLE_MAX) :
    anim type = animFrames type ++ [⟨-1, -1, 4294967295⟩] ∧
    (∀ f ∈ animFrames type, 0 ≤ f.row) ∧
    animLength type = (if type = PARTICLE_DEATH then 500 else 600) := by
  cases type <;> first | exact absurd rfl h | decide

/-- One turn of the loop marks the node at position `k` only if the node is
live and a live node of another group collides with it. -/
theorem arenaStep_cause (l : List Collider) (c k : Nat) (x : Collider) (hx : l[k]? = some x) :
    ∃ x', (arenaStep l c).1[k]? = some x' ∧
      (x'.touched = true → x.touched = true ∨
        (x.expired = false ∧ ∃ j cj, l[j]? = some cj ∧ Touch.accepts x k cj j)) := by
  cases hT : Touch l c with
  | none =>
    rw [arenaStep_of_none l c hT]
    exact ⟨x, hx, fun h => Or.inl h⟩
  | some t =>
    obtain ⟨cs, cj, hcs, hcj, hlive, -, hcje, hne, hgrp, hcol⟩ := Touch_sound _ _ _ hT
    have hct : c ≠ t := fun h => hne h.symm
    simp only [arenaStep, hT]
    rw [getElem?_mark l c t k hct]
    by_cases hk : k = c ∨ k = t
    · simp only [hk, if_true, hx, Option.map_some']
      refine ⟨_, rfl, fun _ => Or.inr ?_⟩
      rcases hk with hk | hk
      · subst hk
        rw [hx] at hcs
        cases hcs
        exact ⟨hlive, t, cj, hcj, hcje, hne, hgrp, hcol⟩
      · subst hk
        rw [hx] at hcj
        cases hcj
        exact ⟨hcje, c, cs, hcs, hlive, hct, fun h => hgrp h.symm, by
          rw [CollisionRectRect_comm]; exact hcol⟩
    · simp only [hk, if_false]
      exact ⟨x, hx, fun h => Or.inl h⟩

/-- After any number of turns a node is marked only if it was marked before
or is live and a live node of another group collides with it. -/
theorem arenaRun_cause (l : List Collider) (n k : Nat) (x : Collider) (hx : l[k]? = some x) :
    ∃ x', (arenaRun l n).1[k]? = some x' ∧
      (x'.touched = true → x.touched = true ∨
        (x.expired = false ∧ ∃ j cj, l[j]? = some cj ∧ Touch.accepts x k cj j)) := by
  induction n with
  | zero => exact ⟨x, hx, fun h => Or.inl h⟩
  | succ n ih =>
    obtain ⟨x', hx', hc'⟩ := ih
    obtain ⟨x1, hx1, hs1, -, -⟩ := (arenaRun_inv l n).1 k x hx
    rw [hx'] at hx1
    cases hx1
    obtain ⟨x'', hx'', hc''⟩ := arenaStep_cause (arenaRun l n).1 n k x' hx'
    refine ⟨x'', hx'', fun ht => ?_⟩
    rcases hc'' ht with h | ⟨hlive, j, cj, hj, hacc⟩
    · exact hc' h
    · right
      have hst := hs1
      simp only [Collider.static, Prod.mk.injEq] at hst
      refine ⟨by rw [← hst.2.2.1]; exact hlive, ?_⟩
      cases hj0 : l[j]? with
      | none =>
        have := arenaRun_static l n j
        rw [hj, hj0] at this
        simp at this
      | some cj0 =>
        obtain ⟨cj1, hcj1, hsj, -, -⟩ := (arenaRun_inv l n).1 j cj0 hj0
        rw [hj] at hcj1
        cases hcj1
        exact ⟨j, cj0, hj0, accepts_of_static hs1.symm hsj.symm hacc⟩

/-- C27. In an arena whose live colliders are all unmarked, with callbacks that
leave the collider list alone, a pass of `ColliderArenaProcess` leaves a live
collider marked `touched` if and only if another live collider with a
different group has a rectangle that collides with its own, whether or not the
collider has a callback; an expired collider keeps its flag and is never the
other collider of such a pair. The pass keeps every node in place, with
its instance, rectangle, `expired`, group and callback. -/
theorem ColliderArenaProcess_touched_iff (cbs : ColliderCallback → Flappy → Nat → Flappy)
    (H : ∀ f g i, (cbs f g i).colliderList = g.colliderList) (g : Flappy)
    (hfresh : ∀ c ∈ g.colliderList, c.expired = false → c.touched = false) :
    ∀ (k : Nat) (x : Collider), g.colliderList[k]? = some x →
      ∃ x', (ColliderArenaProcess cbs g).1.colliderList[k]? = some x' ∧
        x'.static = x.static ∧
        (x.expired = false →
          (x'.touched = true ↔
            ∃ j cj, g.colliderList[j]? = some cj ∧ j ≠ k ∧ cj.expired = false ∧
              cj.group ≠ x.group ∧ CollisionRectRect x.rect cj.rect = true)) ∧
        (x.expired = true → x'.touched = x.touched) := by
  intro k x hx
  have hk : k < g.colliderList.length := (List.getElem?_eq_some_iff.mp hx).1
  unfold ColliderArenaProcess
  rw [(iter_eq_arenaRun cbs H g _).1]
  obtain ⟨x', hx', hs', hm', -⟩ := (arenaRun_inv g.colliderList g.colliderList.length).1 k x hx
  obtain ⟨x1, hx1, hc1⟩ := arenaRun_cause g.colliderList g.colliderList.length k x hx
  rw [hx'] at hx1
  cases hx1
  refine ⟨x', hx', hs', ?_, ?_⟩
  · intro hlive
    have hunm := hfresh x (List.getElem?_mem hx) hlive
    constructor
    · intro ht
      rcases hc1 ht with h | ⟨-, j, cj, hj, h1, h2, h3, h4⟩
      · rw [hunm] at h; cases h
      · exact ⟨j, cj, hj, h2, h1, h3, h4⟩
    · rintro ⟨j, cj, hj, h2, h1, h3, h4⟩
      obtain ⟨x2, hx2, ht2⟩ := (arenaRun_inv g.colliderList g.colliderList.length).2 k x hk hx hlive
        ⟨j, cj, hj, h1, h2, h3, h4⟩
      rw [hx'] at hx2
      cases hx2
      exact ht2
  · intro hexp
    cases hxt : x.touched with
    | true => exact hm' hxt
    | false =>
      cases hxt' : x'.touched with
      | false => rfl
      | true =>
        rcases hc1 hxt' with h | ⟨hlive, -⟩
        · rw [hxt] at h; cases h
        · rw [hexp] at hlive; cases hlive

/-- The player's collider of `arenaFloorAndPipe` (position 4), live and
unmarked before the pass, is marked by it exactly when another live collider of
another group collides with its rectangle (96, 97, 8, 4). -/
theorem ColliderArenaProcess_touched_iff_witness :
    (∀ c ∈ arenaFloorAndPipe.colliderList, c.expired = false → c.touched = false) ∧
    ∃ x', (ColliderArenaProcess callbacks arenaFloorAndPipe).1.colliderList[4]? = some x' ∧
      (x'.touched = true ↔
        ∃ j cj, arenaFloorAndPipe.colliderList[j]? = some cj ∧ j ≠ 4 ∧ cj.expired = false ∧
          cj.group ≠ COLOR_PLAYER ∧ CollisionRectRect ⟨96, 97, 8, 4⟩ cj.rect = true) := by
  obtain ⟨x', h1, -, h3, -⟩ := ColliderArenaProcess_touched_iff callbacks callbacks_colliderList
    arenaFloorAndPipe (by decide) 4 _ rfl
  exact ⟨by decide, x', h1, h3 rfl⟩

theorem arenaNoCallback_push (g : Flappy) (inst color : Nat) (init : SDL_Rect)
    (h : arenaNoCallback g.colliderList) :
    arenaNoCallback (ColliderArenaPush g inst none color init).colliderList := by
  rw [ColliderArenaPush_colliderList]
  rcases poolReuse_cases (fun c : Collider => c.expired)
    (fun _ => Collider.mk inst init false false color color none) g.colliderList with
    ⟨h1, -⟩ | ⟨pre, c, post, h1, -, -, h4⟩
  · rw [h1]
    intro x hx hxe
    simp only [Option.getD_none, List.mem_cons] at hx
    rcases hx with hx | hx
    · rw [hx]
    · exact h x hx hxe
  · rw [h4]
    intro x hx hxe
    simp only [Option.getD_some, List.mem_append, List.mem_cons] at hx
    rcases hx with hx | hx | hx
    · exact h x (by rw [h1]; simp [hx]) hxe
    · rw [hx]
    · exact h x (by rw [h1]; simp [hx]) hxe

theorem arenaNoCallback_init (g : Flappy) : arenaNoCallback (ColliderArenaInit g).colliderList := by
  intro c hc he
  simp only [ColliderArenaInit, List.mem_map] at hc
  obtain ⟨a, -, rfl⟩ := hc
  cases he

theorem arenaNoCallback_hazards (sinq : ℚ → ℚ) (g : Flappy) (h : arenaNoCallback g.colliderList) :
    arenaNoCallback (WorldDoHazards sinq g).colliderList := by
  unfold WorldDoHazards
  split_ifs
  · obtain ⟨b, hb⟩ := JabuHazardHeight_frame sinq g
    simp only []
    apply arenaNoCallback_push
    rw [hb]
    exact h
  · exact h

theorem arenaNoCallback_visit (g : Flappy) (rm : Int) (ob : Obstacle)
    (h : arenaNoCallback g.colliderList) :
    arenaNoCallback (ObstacleUpdateAll.visit g rm ob).1.colliderList := by
  unfold ObstacleUpdateAll.visit
  by_cases he : ob.expired = true
  · simp only [he, if_true]; exact h
  · by_cases hx : ObstacleUpdateAll.offScreen g ob = true
    · simp only [he, hx, if_true, Bool.false_eq_true, if_false]; exact h
    · simp only [he, hx, Bool.false_eq_true, if_false]
      apply arenaNoCallback_push
      apply arenaNoCallback_push
      split_ifs
      · exact h
      · exact h

theorem arenaNoCallback_loop (obs : List Obstacle) (g : Flappy) (rm : Int)
    (h : arenaNoCallback g.colliderList) :
    arenaNoCallback (ObstacleUpdateAll.loop obs g rm).1.colliderList := by
  induction obs generalizing g rm with
  | nil => exact h
  | cons ob obs ih =>
    simp only [ObstacleUpdateAll.loop]
    exact ih _ _ (arenaNoCallback_visit g rm ob h)

theorem arenaNoCallback_obstacles (g : Flappy) (h : arenaNoCallback g.colliderList) :
    arenaNoCallback (ObstacleUpdateAll g).colliderList := by
  have hs : arenaNoCallback (ObstacleUpdateAll.scroll g).1.colliderList :=
    arenaNoCallback_loop g.obstacleList g 0 h
  unfold ObstacleUpdateAll
  simp only []
  split_ifs
  · rw [(ObstaclePush_spec _).2.2.2.2.1]
    exact hs
  · exact hs

theorem hazards_state (sinq : ℚ → ℚ) (freq counter : Nat) (g : Flappy) :
    (FlappyUpdate.hazards sinq freq counter g).state = g.state ∧
    arenaNoCallback (FlappyUpdate.hazards sinq freq counter g).colliderList := by
  unfold FlappyUpdate.hazards
  simp only []
  have t1 : (FlappyUpdate.timers freq counter g).state = g.state := rfl
  generalize FlappyUpdate.timers freq counter g = g1 at t1 ⊢
  have t2 : (if g1.state = FLAPPY_STATE_TITLE then PlayerInit g1 else g1).state = g1.state := by
    split_ifs <;> rfl
  generalize (if g1.state = FLAPPY_STATE_TITLE then PlayerInit g1 else g1) = g2 at t2 ⊢
  have t3 : (ColliderArenaInit g2).state = g2.state := rfl
  have n3 := arenaNoCallback_init g2
  generalize ColliderArenaInit g2 = g3 at t3 n3 ⊢
  have n4 := arenaNoCallback_push g3 0 COLOR_WORLD (FlappyUpdate.ceilingRect g3) n3
  have t4 : (ColliderArenaPush g3 0 none COLOR_WORLD (FlappyUpdate.ceilingRect g3)).state
      = g3.state := by simp
  generalize ColliderArenaPush g3 0 none COLOR_WORLD (FlappyUpdate.ceilingRect g3) = g4 at t4 n4 ⊢
  have n5 := arenaNoCallback_push g4 0 COLOR_WORLD (FlappyUpdate.floorRect g4) n4
  have t5 : (ColliderArenaPush g4 0 none COLOR_WORLD (FlappyUpdate.floorRect g4)).state
      = g4.state := by simp
  generalize ColliderArenaPush g4 0 none COLOR_WORLD (FlappyUpdate.floorRect g4) = g5 at t5 n5 ⊢
  exact ⟨by rw [(WorldDoHazards_keeps sinq g5).1.2.1, t5, t4, t3, t2, t1],
    arenaNoCallback_hazards sinq g5 n5⟩

theorem PlayerUpdate_state (g : Flappy) : (PlayerUpdate g).state = g.state := by
  unfold PlayerUpdate
  by_cases hd : g.player.isDead = true
  · rw [if_pos hd]
  by_cases hs : g.state ≠ FLAPPY_STATE_PLAYING
  · rw [if_neg hd, if_pos hs]
  rw [if_neg hd, if_neg hs]
  simp only [ColliderArenaPush_state]
  split_ifs <;> rfl

/-- The registrations of a tick leave the state as it is. -/
theorem register_state (sinq : ℚ → ℚ) (freq counter : Nat) (g : Flappy) :
    (FlappyUpdate.register sinq freq counter g).state = g.state := by
  rw [register_eq_hazards, PlayerUpdate_state]
  split_ifs
  · rw [(ObstacleUpdateAll_keeps _).2.1, (hazards_state sinq freq counter g).1]
  · exact (hazards_state sinq freq counter g).1

/-- Outside the Playing state no collider that a tick registers has a
callback. -/
theorem register_noCallback (sinq : ℚ → ℚ) (freq counter : Nat) (g : Flappy)
    (hs : g.state ≠ FLAPPY_STATE_PLAYING) :
    arenaNoCallback (FlappyUpdate.register sinq freq counter g).colliderList := by
  obtain ⟨z1, z2⟩ := hazards_state sinq freq counter g
  rw [register_eq_hazards]
  rw [PlayerUpdate_of_not_playing]
  · split_ifs
    · exact arenaNoCallback_obstacles _ z2
    · exact z2
  · split_ifs
    · rw [(ObstacleUpdateAll_keeps _).2.1, z1]; exact hs
    · rw [z1]; exact hs

theorem invoke_noCallback (cbs : ColliderCallback → Flappy → Nat → Flappy) (g : Flappy) (k : Nat)
    (h : ∀ x, g.colliderList[k]? = some x → x.cb = none) :
    ColliderArenaProcess.invoke cbs g k = (g, []) := by
  unfold ColliderArenaProcess.invoke
  simp only [List.get?_eq_getElem?]
  cases hx : g.colliderList[k]? with
  | none => rfl
  | some x =>
    simp only []
    rw [h x hx]

/-- A pass over an arena in which no live collider has a callback calls
nothing: it writes the collider list only. -/
theorem iter_noCallback (cbs : ColliderCallback → Flappy → Nat → Flappy) (g : Flappy) (n : Nat)
    (h : arenaNoCallback g.colliderList) :
    (ColliderArenaProcess.iter cbs g n).1
        = { g with colliderList := (ColliderArenaProcess.iter cbs g n).1.colliderList } ∧
    arenaNoCallback (ColliderArenaProcess.iter cbs g n).1.colliderList ∧
    ∀ k, ArenaEvent.called k ∉ (ColliderArenaProcess.iter cbs g n).2 := by
  induction n with
  | zero => exact ⟨rfl, h, fun k hk => by simp [ColliderArenaProcess.iter] at hk⟩
  | succ n ih =>
    obtain ⟨i1, i2, i3⟩ := ih
    simp only [ColliderArenaProcess.iter]
    generalize ColliderArenaProcess.iter cbs g n = r at i1 i2 i3 ⊢
    unfold ColliderArenaProcess.body
    cases hT : Touch r.1.colliderList n with
    | none =>
      simp only [List.append_nil]
      exact ⟨i1, i2, i3⟩
    | some t =>
      obtain ⟨cs, cj, hcs, hcj, hlive, -, hcje, hne, -, -⟩ := Touch_sound _ _ _ hT
      have hct : n ≠ t := fun e => hne e.symm
      have hcbs : cs.cb = none := i2 cs (List.getElem?_mem hcs) hlive
      have hcbj : cj.cb = none := i2 cj (List.getElem?_mem hcj) hcje
      have hmk : ∀ (k : Nat) (x : Collider),
          (ColliderArenaProcess.mark r.1.colliderList n t)[k]? = some x →
          ∃ y, r.1.colliderList[k]? = some y ∧ x.cb = y.cb ∧ x.expired = y.expired := by
        intro k x hx
        rw [getElem?_mark _ _ _ _ hct] at hx
        split_ifs at hx
        · cases hy : r.1.colliderList[k]? with
          | none => rw [hy] at hx; cases hx
          | some y =>
            rw [hy] at hx
            simp only [Option.map_some', Option.some.injEq] at hx
            exact ⟨y, rfl, by rw [← hx], by rw [← hx]⟩
        · exact ⟨x, hx, rfl, rfl⟩
      simp only []
      have e1 : ColliderArenaProcess.invoke cbs
          { r.1 with colliderList := ColliderArenaProcess.mark r.1.colliderList n t } t
          = ({ r.1 with colliderList := ColliderArenaProcess.mark r.1.colliderList n t }, []) := by
        apply invoke_noCallback
        intro x hx
        obtain ⟨y, hy, hcb, -⟩ := hmk t x hx
        rw [hcj] at hy
        cases hy
        rw [hcb, hcbj]
      rw [e1]
      simp only []
      have e2 : ColliderArenaProcess.invoke cbs
          { r.1 with colliderList := ColliderArenaProcess.mark r.1.colliderList n t } n
          = ({ r.1 with colliderList := ColliderArenaProcess.mark r.1.colliderList n t }, []) := by
        apply invoke_noCallback
        intro x hx
        obtain ⟨y, hy, hcb, -⟩ := hmk n x hx
        rw [hcs] at hy
        cases hy
        rw [hcb, hcbs]
      rw [e2]
      simp only []
      refine ⟨?_, ?_, ?_⟩
      · rw [i1]
      · intro x hx hxe
        obtain ⟨k, hk⟩ := List.mem_iff_getElem?.mp hx
        obtain ⟨y, hy, hcb, hex⟩ := hmk k x hk
        rw [hcb]
        exact i2 y (List.getElem?_mem hy) (by rw [← hex]; exact hxe)
      · intro k hk
        simp only [List.append_nil, List.mem_append, List.mem_singleton] at hk
        rcases hk with hk | hk
        · exact i3 k hk
        · cases hk

/-- A tick of `FlappyUpdate` outside the Playing state calls no callback and
leaves the state as it is. -/
theorem FlappyUpdate_state_of_not_playing (sinq : ℚ → ℚ) (freq counter : Nat) (g : Flappy)
    (hs : g.state ≠ FLAPPY_STATE_PLAYING) :
    (FlappyUpdate sinq freq counter g).state = g.state ∧
    ∀ k, ArenaEvent.called k ∉
      (ColliderArenaProcess callbacks (FlappyUpdate.register sinq freq counter g)).2 := by
  obtain ⟨i1, -, i3⟩ := iter_noCallback callbacks (FlappyUpdate.register sinq freq counter g)
    (FlappyUpdate.register sinq freq counter g).colliderList.length
    (register_noCallback sinq freq counter g hs)
  unfold FlappyUpdate ColliderArenaProcess
  refine ⟨?_, i3⟩
  rw [i1]
  exact register_state sinq freq counter g

/-- A pass with the program's callback changes the state only by calling it. -/
theorem iter_callbacks_state (g : Flappy) (n : Nat) :
    (ColliderArenaProcess.iter callbacks g n).1.state = g.state ∨
    ∃ k, ArenaEvent.called k ∈ (ColliderArenaProcess.iter callbacks g n).2 := by
  induction n with
  | zero => exact Or.inl rfl
  | succ n ih =>
    simp only [ColliderArenaProcess.iter]
    rcases ih with ih | ⟨k, hk⟩
    · generalize ColliderArenaProcess.iter callbacks g n = r at ih ⊢
      unfold ColliderArenaProcess.body
      cases hT : Touch r.1.colliderList n with
      | none => exact Or.inl ih
      | some t =>
        simp only []
        obtain ⟨-, c1⟩ := invoke_callbacks
          { r.1 with colliderList := ColliderArenaProcess.mark r.1.colliderList n t } t
        obtain ⟨-, c2⟩ := invoke_callbacks (ColliderArenaProcess.invoke callbacks
          { r.1 with colliderList := ColliderArenaProcess.mark r.1.colliderList n t } t).1 n
        rcases c2 with c2 | c2
        · rcases c1 with c1 | c1
          · left
            rw [c2, c1]
            exact ih
          · right
            exact ⟨t, by rw [c1.2]; simp⟩
        · right
          exact ⟨n, by rw [c2.2]; simp⟩
    · exact Or.inr ⟨k, List.mem_append_left _ hk⟩

/-- A tick of `FlappyUpdate` keeps the property that the player of the GameOver
state is dead. -/
theorem FlappyUpdate_gameover_dead (sinq : ℚ → ℚ) (freq counter : Nat) (g : Flappy)
    (h : g.state = FLAPPY_STATE_GAMEOVER → g.player.isDead = true) :
    (FlappyUpdate sinq freq counter g).state = FLAPPY_STATE_GAMEOVER →
      (FlappyUpdate sinq freq counter g).player.isDead = true := by
  by_cases hs : g.state = FLAPPY_STATE_GAMEOVER
  · intro _
    exact (FlappyUpdate_gameover_frame sinq freq counter g hs).2.2.2 (h hs)
  · unfold FlappyUpdate ColliderArenaProcess
    exact iter_callbacks_inv
      (fun G => G.state = FLAPPY_STATE_GAMEOVER → G.player.isDead = true)
      (fun _ _ hG => hG)
      (fun f G i _ _ => (callbacks_isOver f G i).1) _ _
      (by
        intro hst
        rw [register_state] at hst
        exact absurd hst hs)

/-- C29. In every game state reached from the Title state that `FlappyNew`
builds, by ticks of `FlappyUpdate`, by `FlappyStartGame`, `FlappyGoTitle`,
`FlappyGamePause` and `FlappyNextTheme` (and by input written between ticks),
the GameOver state implies that the player is dead. A tick that enters GameOver
starts in Playing and calls the collision callback during its arena pass; a tick
in the Title state stays in the Title state; of the other functions,
`FlappyStartGame` enters Playing, `FlappyGoTitle` enters Title, and the pause
and theme functions keep the state. -/
theorem FlappyUpdate_gameover_invariant (g : Flappy) (h : Flappy.Reachable g) :
    (g.state = FLAPPY_STATE_GAMEOVER → g.player.isDead = true) ∧
    (∀ (sinq : ℚ → ℚ) (freq counter : Nat),
      (FlappyUpdate sinq freq counter g).state = FLAPPY_STATE_GAMEOVER →
      g.state ≠ FLAPPY_STATE_GAMEOVER →
      g.state = FLAPPY_STATE_PLAYING ∧
      ∃ k, ArenaEvent.called k ∈
        (ColliderArenaProcess callbacks (FlappyUpdate.register sinq freq counter g)).2) ∧
    (∀ (sinq : ℚ → ℚ) (freq counter : Nat),
      g.state = FLAPPY_STATE_TITLE →
      (FlappyUpdate sinq freq counter g).state = FLAPPY_STATE_TITLE) ∧
    (FlappyStartGame g).state = FLAPPY_STATE_PLAYING ∧
    (FlappyGoTitle g).state = FLAPPY_STATE_TITLE ∧
    (FlappyGamePause g).state = g.state ∧
    (FlappyNextTheme g).state = g.state := by
  refine ⟨?_, ?_, ?_, rfl, rfl, rfl, rfl⟩
  · induction h with
    | new rnd scale start => intro hs; cases hs
    | update sinq freq counter g _ ih => exact FlappyUpdate_gameover_dead sinq freq counter g ih
    | start g _ _ => intro hs; cases hs
    | title g _ _ => intro hs; cases hs
    | pause g _ ih => exact ih
    | theme g _ ih => exact ih
    | input i hover g _ ih => exact ih
  · intro sinq freq counter hover hne
    by_cases hp : g.state = FLAPPY_STATE_PLAYING
    · refine ⟨hp, ?_⟩
      rcases iter_callbacks_state (FlappyUpdate.register sinq freq counter g)
        (FlappyUpdate.register sinq freq counter g).colliderList.length with hst | hev
      · exfalso
        have e : (FlappyUpdate sinq freq counter g).state = g.state := by
          rw [← register_state sinq freq counter g]
          exact hst
        rw [e] at hover
        exact hne hover
      · exact hev
    · exfalso
      rw [(FlappyUpdate_state_of_not_playing sinq freq counter g hp).1] at hover
      exact hne hover
  · intro sinq freq counter ht
    rw [(FlappyUpdate_state_of_not_playing sinq freq counter g (by rw [ht]; decide)).1, ht]

theorem FlappyGameOver_highscore (g : Flappy) :
    (FlappyGameOver g).highscore = max g.highscore g.score ∧
    (FlappyGameOver g).highscoreNew = decide (g.highscore < g.score) := by
  by_cases h : g.score > g.highscore
  · simp [FlappyGameOver, h]
    omega
  · simp [FlappyGameOver, h]
    omega

theorem ParticlePush_highscore (g : Flappy) (type : ParticleType) (x y : ℚ) :
    (ParticlePush g type x y).highscore = g.highscore ∧
    (ParticlePush g type x y).highscoreNew = g.highscoreNew := by
  simp only [ParticlePush]
  split <;> exact ⟨rfl, rfl⟩

/-- What one call of the collision callback does to the high score. -/
theorem callbacks_highscore (f : ColliderCallback) (g : Flappy) (i : Nat) :
    (callbacks f g i).highscore = max g.highscore g.score ∧
    (callbacks f g i).highscoreNew = decide (g.highscore < g.score) := by
  unfold callbacks OnTouchWorld.run
  simp only [PlayerGetCenter]
  obtain ⟨h1, h2⟩ := FlappyGameOver_highscore
    (ParticlePush { g with player := { g.player with isDead := true } } PARTICLE_DEATH
      (ConvertCenter g.player.x g.player.y).1 (ConvertCenter g.player.x g.player.y).2)
  rw [(ParticlePush_highscore _ _ _ _).1, (ParticlePush_frame _ _ _ _).2.1] at h1 h2
  exact ⟨h1, h2⟩

theorem highscoreAfter_call (g0 G : Flappy) (n : Nat) (f : ColliderCallback) (i : Nat)
    (h : highscoreAfter g0 G n) : highscoreAfter g0 (callbacks f G i) (n + 1) := by
  obtain ⟨h0, h1, h2, h3, h4⟩ := h
  obtain ⟨c1, c2⟩ := callbacks_highscore f G i
  have cs := callbacks_score f G i
  refine ⟨by rw [cs, h0], fun hn => by omega, fun _ => ?_, fun hn => ?_, fun hn => ?_⟩
  · rw [c1, h0]
    rcases Nat.eq_zero_or_pos n with hz | hp
    · rw [(h1 hz).1]
    · rw [h2 hp]
      omega
  · have hz : n = 0 := by omega
    rw [c2, h0, (h1 hz).1]
  · rw [c2, h0, h2 (by omega)]
    simp

theorem highscoreAfter_invoke (g0 G : Flappy) (n k : Nat) (h : highscoreAfter g0 G n) :
    highscoreAfter g0 (ColliderArenaProcess.invoke callbacks G k).1
      (n + callCount (ColliderArenaProcess.invoke callbacks G k).2) := by
  unfold ColliderArenaProcess.invoke
  cases G.colliderList.get? k with
  | none => exact h
  | some c =>
    simp only []
    cases c.cb with
    | none => exact h
    | some f => exact highscoreAfter_call g0 G n f c.inst h

theorem callCount_append (a b : List ArenaEvent) :
    callCount (a ++ b) = callCount a + callCount b := by
  unfold callCount
  rw [List.countP_append]

theorem highscoreAfter_iter (g : Flappy) (n : Nat) :
    highscoreAfter g (ColliderArenaProcess.iter callbacks g n).1
      (callCount (ColliderArenaProcess.iter callbacks g n).2) := by
  induction n with
  | zero => exact ⟨rfl, fun _ => ⟨rfl, rfl⟩, fun h => by simp [ColliderArenaProcess.iter, callCount] at h,
      fun h => by simp [ColliderArenaProcess.iter, callCount] at h,
      fun h => by simp [ColliderArenaProcess.iter, callCount] at h⟩
  | succ n ih =>
    simp only [ColliderArenaProcess.iter]
    generalize ColliderArenaProcess.iter callbacks g n = r at ih ⊢
    unfold ColliderArenaProcess.body
    cases Touch r.1.colliderList n with
    | none =>
      simp only [List.append_nil]
      exact ih
    | some t =>
      simp only []
      have h1 : highscoreAfter g
          { r.1 with colliderList := ColliderArenaProcess.mark r.1.colliderList n t }
          (callCount r.2) := ih
      have h2 := highscoreAfter_invoke g _ _ t h1
      have h3 := highscoreAfter_invoke g _ _ n h2
      have e : callCount (r.2 ++ ArenaEvent.touched n t ::
            ((ColliderArenaProcess.invoke callbacks
                { r.1 with colliderList := ColliderArenaProcess.mark r.1.colliderList n t } t).2 ++
              (ColliderArenaProcess.invoke callbacks
                (ColliderArenaProcess.invoke callbacks
                  { r.1 with colliderList := ColliderArenaProcess.mark r.1.colliderList n t } t).1
                n).2))
          = callCount r.2 + callCount (ColliderArenaProcess.invoke callbacks
                { r.1 with colliderList := ColliderArenaProcess.mark r.1.colliderList n t } t).2 +
              callCount (ColliderArenaProcess.invoke callbacks
                (ColliderArenaProcess.invoke callbacks
                  { r.1 with colliderList := ColliderArenaProcess.mark r.1.colliderList n t } t).1
                n).2 := by
        rw [callCount_append]
        have : ∀ l : List ArenaEvent, callCount (ArenaEvent.touched n t :: l) = callCount l := by
          intro l
          simp [callCount]
        rw [this, callCount_append, Nat.add_assoc]
      rw [e]
      exact h3

theorem JabuHazardHeight_highscore (sinq : ℚ → ℚ) (g : Flappy) :
    (JabuHazardHeight sinq g).2.highscore = g.highscore ∧
    (JabuHazardHeight sinq g).2.highscoreNew = g.highscoreNew := by
  obtain ⟨b, hb⟩ := JabuHazardHeight_frame sinq g
  rw [hb]
  exact ⟨rfl, rfl⟩

theorem WorldDoHazards_highscore (sinq : ℚ → ℚ) (g : Flappy) :
    (WorldDoHazards sinq g).highscore = g.highscore ∧
    (WorldDoHazards sinq g).highscoreNew = g.highscoreNew := by
  unfold WorldDoHazards
  split_ifs
  · simp only [ColliderArenaPush_highscore, ColliderArenaPush_highscoreNew]
    exact JabuHazardHeight_highscore sinq g
  · exact ⟨rfl, rfl⟩

theorem ObstacleUpdateAll_visit_highscore (g : Flappy) (rm : Int) (ob : Obstacle) :
    (ObstacleUpdateAll.visit g rm ob).1.highscore = g.highscore ∧
    (ObstacleUpdateAll.visit g rm ob).1.highscoreNew = g.highscoreNew := by
  unfold ObstacleUpdateAll.visit
  by_cases he : ob.expired = true
  · simp only [he, if_true]; exact ⟨trivial, trivial⟩
  · by_cases hx : ObstacleUpdateAll.offScreen g ob = true
    · simp only [he, hx, if_true, Bool.false_eq_true, if_false]; exact ⟨trivial, trivial⟩
    · simp only [he, hx, Bool.false_eq_true, if_false, ColliderArenaPush_highscore,
        ColliderArenaPush_highscoreNew]
      split_ifs <;> exact ⟨rfl, rfl⟩

theorem ObstacleUpdateAll_loop_highscore (obs : List Obstacle) (g : Flappy) (rm : Int) :
    (ObstacleUpdateAll.loop obs g rm).1.highscore = g.highscore ∧
    (ObstacleUpdateAll.loop obs g rm).1.highscoreNew = g.highscoreNew := by
  induction obs generalizing g rm with
  | nil => exact ⟨rfl, rfl⟩
  | cons ob obs ih =>
    simp only [ObstacleUpdateAll.loop]
    obtain ⟨a, b⟩ := ih (ObstacleUpdateAll.visit g rm ob).1 (ObstacleUpdateAll.visit g rm ob).2.1
    obtain ⟨c, d⟩ := ObstacleUpdateAll_visit_highscore g rm ob
    exact ⟨a.trans c, b.trans d⟩

theorem ObstaclePush_highscore (g : Flappy) :
    (ObstaclePush g).highscore = g.highscore ∧ (ObstaclePush g).highscoreNew = g.highscoreNew := by
  obtain ⟨rnd, last, hf⟩ := ObstaclePush_resolve_frame g
  simp only [ObstaclePush]
  split <;> (simp only []; rw [hf]; exact ⟨rfl, rfl⟩)

theorem ObstacleUpdateAll_highscore (g : Flappy) :
    (ObstacleUpdateAll g).highscore = g.highscore ∧
    (ObstacleUpdateAll g).highscoreNew = g.highscoreNew := by
  have hs : (ObstacleUpdateAll.scroll g).1.highscore = g.highscore ∧
      (ObstacleUpdateAll.scroll g).1.highscoreNew = g.highscoreNew :=
    ObstacleUpdateAll_loop_highscore g.obstacleList g 0
  unfold ObstacleUpdateAll
  simp only []
  split_ifs
  · obtain ⟨a, b⟩ := ObstaclePush_highscore (ObstacleUpdateAll.scroll g).1
    exact ⟨a.trans hs.1, b.trans hs.2⟩
  · exact hs

theorem PlayerUpdate_highscore (g : Flappy) :
    (PlayerUpdate g).highscore = g.highscore ∧ (PlayerUpdate g).highscoreNew = g.highscoreNew := by
  unfold PlayerUpdate
  by_cases hd : g.player.isDead = true
  · rw [if_pos hd]; exact ⟨rfl, rfl⟩
  by_cases hs : g.state ≠ FLAPPY_STATE_PLAYING
  · rw [if_neg hd, if_pos hs]; exact ⟨rfl, rfl⟩
  rw [if_neg hd, if_neg hs]
  simp only [ColliderArenaPush_highscore, ColliderArenaPush_highscoreNew]
  split_ifs <;> exact ⟨rfl, rfl⟩

/-- The registrations of a tick leave the high score and its flag as they
are. -/
theorem register_highscore (sinq : ℚ → ℚ) (freq counter : Nat) (g : Flappy) :
    (FlappyUpdate.register sinq freq counter g).highscore = g.highscore ∧
    (FlappyUpdate.register sinq freq counter g).highscoreNew = g.highscoreNew := by
  unfold FlappyUpdate.register
  simp only []
  have t1 : (FlappyUpdate.timers freq counter g).highscore = g.highscore ∧
      (FlappyUpdate.timers freq counter g).highscoreNew = g.highscoreNew := ⟨rfl, rfl⟩
  generalize FlappyUpdate.timers freq counter g = g1 at t1 ⊢
  have t2 : (if g1.state = FLAPPY_STATE_TITLE then PlayerInit g1 else g1).highscore = g1.highscore ∧
      (if g1.state = FLAPPY_STATE_TITLE then PlayerInit g1 else g1).highscoreNew
        = g1.highscoreNew := by
    split_ifs <;> exact ⟨rfl, rfl⟩
  generalize (if g1.state = FLAPPY_STATE_TITLE then PlayerInit g1 else g1) = g2 at t2 ⊢
  have t3 : (ColliderArenaInit g2).highscore = g2.highscore ∧
      (ColliderArenaInit g2).highscoreNew = g2.highscoreNew := ⟨rfl, rfl⟩
  generalize ColliderArenaInit g2 = g3 at t3 ⊢
  have t4 : (ColliderArenaPush g3 0 none COLOR_WORLD (FlappyUpdate.ceilingRect g3)).highscore
      = g3.highscore ∧
      (ColliderArenaPush g3 0 none COLOR_WORLD (FlappyUpdate.ceilingRect g3)).highscoreNew
      = g3.highscoreNew := by simp
  generalize ColliderArenaPush g3 0 none COLOR_WORLD (FlappyUpdate.ceilingRect g3) = g4 at t4 ⊢
  have t5 : (ColliderArenaPush g4 0 none COLOR_WORLD (FlappyUpdate.floorRect g4)).highscore
      = g4.highscore ∧
      (ColliderArenaPush g4 0 none COLOR_WORLD (FlappyUpdate.floorRect g4)).highscoreNew
      = g4.highscoreNew := by simp
  generalize ColliderArenaPush g4 0 none COLOR_WORLD (FlappyUpdate.floorRect g4) = g5 at t5 ⊢
  have t6 := WorldDoHazards_highscore sinq g5
  generalize WorldDoHazards sinq g5 = g6 at t6 ⊢
  have t7 : (if g6.state ≠ FLAPPY_STATE_TITLE then ObstacleUpdateAll g6 else g6).highscore
      = g6.highscore ∧
      (if g6.state ≠ FLAPPY_STATE_TITLE then ObstacleUpdateAll g6 else g6).highscoreNew
      = g6.highscoreNew := by
    split_ifs
    · exact ObstacleUpdateAll_highscore g6
    · exact ⟨rfl, rfl⟩
  generalize (if g6.state ≠ FLAPPY_STATE_TITLE then ObstacleUpdateAll g6 else g6) = g7 at t7 ⊢
  obtain ⟨p1, p2⟩ := PlayerUpdate_highscore g7
  exact ⟨by rw [p1, t7.1, t6.1, t5.1, t4.1, t3.1, t2.1, t1.1],
    by rw [p2, t7.2, t6.2, t5.2, t4.2, t3.2, t2.2, t1.2]⟩

/-- C26 fails on the code. With `score` the score at the collision pass of the
tick and `n` the number of times the pass calls the collision callback: the
score is left as it is; for `n = 0` the high score and its flag are left as
they are; for `n ≥ 1` the high score after the tick is the maximum of the high
score before the tick and the score; for `n = 1` the flag `highscoreNew` tells
whether the score was above the high score before the tick; for `n ≥ 2` the
flag is 0, whatever the score, because the second call of `FlappyGameOver`
compares the score with the high score just raised. In the arena
`arenaNewHighscore` (player on the floor and on the lower half of an obstacle,
score 3, high score 2) the callback is called twice and the pass leaves high
score 3 with `highscoreNew = 0`. -/
theorem FlappyUpdate_highscore_flag :
    (∀ (sinq : ℚ → ℚ) (freq counter : Nat) (g : Flappy),
      (FlappyUpdate.register sinq freq counter g).highscore = g.highscore ∧
      (FlappyUpdate sinq freq counter g).score
        = (FlappyUpdate.register sinq freq counter g).score ∧
      (callCount (ColliderArenaProcess callbacks
          (FlappyUpdate.register sinq freq counter g)).2 = 0 →
        (FlappyUpdate sinq freq counter g).highscore = g.highscore ∧
        (FlappyUpdate sinq freq counter g).highscoreNew = g.highscoreNew) ∧
      (1 ≤ callCount (ColliderArenaProcess callbacks
          (FlappyUpdate.register sinq freq counter g)).2 →
        (FlappyUpdate sinq freq counter g).highscore
          = max g.highscore (FlappyUpdate.register sinq freq counter g).score) ∧
      (callCount (ColliderArenaProcess callbacks
          (FlappyUpdate.register sinq freq counter g)).2 = 1 →
        (FlappyUpdate sinq freq counter g).highscoreNew
          = decide (g.highscore < (FlappyUpdate.register sinq freq counter g).score)) ∧
      (2 ≤ callCount (ColliderArenaProcess callbacks
          (FlappyUpdate.register sinq freq counter g)).2 →
        (FlappyUpdate sinq freq counter g).highscoreNew = false)) ∧
    arenaNewHighscore.highscore < arenaNewHighscore.score ∧
    callCount (ColliderArenaProcess callbacks arenaNewHighscore).2 = 2 ∧
    (ColliderArenaProcess callbacks arenaNewHighscore).1.highscore = 3 ∧
    (ColliderArenaProcess callbacks arenaNewHighscore).1.highscoreNew = false := by
  refine ⟨?_, by decide, by decide, by decide, by decide⟩
  intro sinq freq counter g
  obtain ⟨r1, r2⟩ := register_highscore sinq freq counter g
  obtain ⟨h0, h1, h2, h3, h4⟩ := highscoreAfter_iter (FlappyUpdate.register sinq freq counter g)
    (FlappyUpdate.register sinq freq counter g).colliderList.length
  rw [r1, r2] at h1
  rw [r1] at h2 h3
  unfold FlappyUpdate ColliderArenaProcess
  exact ⟨r1, h0, h1, h2, h3, h4⟩

theorem ObstacleUpdateAll_node_spec (g : Flappy) (ob : Obstacle) :
    (ObstacleUpdateAll.node g ob).ticks = ob.ticks ∧
    ((ObstacleUpdateAll.node g ob).expired = false →
      ob.expired = false ∧ (ObstacleUpdateAll.node g ob).x = ObstacleUpdateAll.x g ob) := by
  cases he : ob.expired with
  | true =>
    have e : ObstacleUpdateAll.node g ob = ob := by
      unfold ObstacleUpdateAll.node ObstacleUpdateAll.visit
      simp [he]
    rw [e]
    exact ⟨rfl, fun h => by rw [he] at h; cases h⟩
  | false =>
    obtain ⟨n1, -, n3, -⟩ := ObstacleUpdateAll_node_live g ob he
    exact ⟨n3, fun _ => ⟨rfl, n1⟩⟩

theorem spaced_symm (a b : Obstacle) (h : Obstacle.spaced a b) : Obstacle.spaced b a :=
  fun hb ha => (h ha hb).symm

theorem wellSpaced_map (g : Flappy) (now : Nat) (l : List Obstacle)
    (h : ObstacleUpdateAll.wellSpaced now l) :
    ObstacleUpdateAll.wellSpaced now (l.map (ObstacleUpdateAll.node g)) := by
  refine ⟨?_, ?_⟩
  · intro ob hob he
    obtain ⟨a, ha, rfl⟩ := List.mem_map.mp hob
    obtain ⟨n1, n2⟩ := ObstacleUpdateAll_node_spec g a
    rw [n1]
    exact h.1 a ha (n2 he).1
  · refine List.Pairwise.map _ ?_ h.2
    intro a b hab ha hb
    rw [(ObstacleUpdateAll_node_spec g a).1, (ObstacleUpdateAll_node_spec g b).1]
    exact hab ((ObstacleUpdateAll_node_spec g a).2 ha).1 ((ObstacleUpdateAll_node_spec g b).2 hb).1

/-- A node spawned now, put in place of any node of a pool whose live nodes are
all more than 2000 ms old, keeps the pool well spaced. -/
theorem wellSpaced_replace (now : Nat) (pre post : List Obstacle) (c n : Obstacle)
    (hnow : now < 4294967296)
    (h : ObstacleUpdateAll.wellSpaced now (pre ++ c :: post)) (hn : n.ticks = now)
    (hold : ∀ ob ∈ pre ++ c :: post, ob.expired = false → ob.ticks + 2000 < now) :
    ObstacleUpdateAll.wellSpaced now (pre ++ n :: post) := by
  obtain ⟨h1, h2⟩ := h
  have hnew : ∀ ob ∈ pre ++ c :: post, Obstacle.spaced ob n := by
    intro ob hob he _
    left
    rw [hn]
    exact hold ob hob he
  rw [List.pairwise_append, List.pairwise_cons] at h2
  obtain ⟨p1, ⟨-, p3⟩, p4⟩ := h2
  refine ⟨?_, ?_⟩
  · intro ob hob he
    simp only [List.mem_append, List.mem_cons] at hob
    rcases hob with hob | hob | hob
    · exact h1 ob (by simp [hob]) he
    · rw [hob, hn]; exact ⟨le_refl _, hnow⟩
    · exact h1 ob (by simp [hob]) he
  · rw [List.pairwise_append, List.pairwise_cons]
    refine ⟨p1, ⟨?_, p3⟩, ?_⟩
    · intro b hb
      exact spaced_symm _ _ (hnew b (by simp [hb]))
    · intro a ha b hb
      rcases List.mem_cons.mp hb with hb | hb
      · rw [hb]; exact hnew a (by simp [ha])
      · exact p4 a ha b (List.mem_cons_of_mem _ hb)

theorem wellSpaced_cons (now : Nat) (l : List Obstacle) (n : Obstacle) (hnow : now < 4294967296)
    (h : ObstacleUpdateAll.wellSpaced now l) (hn : n.ticks = now)
    (hold : ∀ ob ∈ l, ob.expired = false → ob.ticks + 2000 < now) :
    ObstacleUpdateAll.wellSpaced now (n :: l) := by
  obtain ⟨h1, h2⟩ := h
  refine ⟨?_, ?_⟩
  · intro ob hob he
    rcases List.mem_cons.mp hob with hob | hob
    · rw [hob, hn]; exact ⟨le_refl _, hnow⟩
    · exact h1 ob hob he
  · rw [List.pairwise_cons]
    refine ⟨?_, h2⟩
    intro b hb _ hbe
    right
    rw [hn]
    exact hold b hb hbe

theorem ObstacleUpdateAll_scroll_ticks (g : Flappy) :
    (ObstacleUpdateAll.scroll g).1.ticks = g.ticks :=
  (ObstacleUpdateAll_loop_keeps g.obstacleList g 0).2.2.2.1.2

/-- When the call spawns, every live node of the pool was spawned more than
2000 ms before the call. -/
theorem ObstacleUpdateAll_spawn_old (g : Flappy)
    (h : ∀ ob ∈ g.obstacleList, ob.expired = false → ob.ticks ≤ g.ticks ∧ g.ticks < 4294967296)
    (hs : (ObstacleUpdateAll.scroll g).2 < WINDOW_W - OB_DIST) :
    ∀ ob ∈ g.obstacleList, ob.expired = false → ob.ticks + 2000 < g.ticks := by
  intro ob hob he
  by_contra hc
  obtain ⟨h1, h2⟩ := h ob hob he
  have hx : ((WINDOW_W - OB_DIST : Int) : ℚ) ≤ ObstacleUpdateAll.x g ob := by
    rw [ObstacleUpdateAll_x_formula g ob h1 h2]
    have hd : ((g.ticks - ob.ticks : Nat) : ℚ) ≤ 2000 := by
      have : g.ticks - ob.ticks ≤ 2000 := by omega
      exact_mod_cast this
    norm_num [WINDOW_W, OB_DIST, OB_W]
    linarith
  have hrm := ObstacleUpdateAll_rightmost_ge g.obstacleList g 0 (WINDOW_W - OB_DIST)
    (by decide) ⟨ob, hob, he, hx⟩
  have hge : ¬ (ObstacleUpdateAll.scroll g).2 < WINDOW_W - OB_DIST := not_lt.mpr hrm
  exact hge hs

/-- One call of `ObstacleUpdateAll` keeps a pool well spaced; a node live after
the call holds its position of this call, or was spawned by this call. -/
theorem ObstacleUpdateAll_wellSpaced (g : Flappy) (hnow : g.ticks < 4294967296)
    (h : ObstacleUpdateAll.wellSpaced g.ticks g.obstacleList) :
    ObstacleUpdateAll.wellSpaced g.ticks (ObstacleUpdateAll g).obstacleList ∧
    (∀ ob ∈ (ObstacleUpdateAll g).obstacleList, ob.expired = false →
      ob.x = ObstacleUpdateAll.x g ob ∨ ob.ticks = g.ticks) := by
  have hm := wellSpaced_map g g.ticks g.obstacleList h
  have hxm : ∀ ob ∈ g.obstacleList.map (ObstacleUpdateAll.node g), ob.expired = false →
      ob.x = ObstacleUpdateAll.x g ob ∨ ob.ticks = g.ticks := by
    intro ob hob he
    obtain ⟨a, ha, rfl⟩ := List.mem_map.mp hob
    left
    rw [((ObstacleUpdateAll_node_spec g a).2 he).2]
    unfold ObstacleUpdateAll.x
    rw [(ObstacleUpdateAll_node_spec g a).1]
  rw [ObstacleUpdateAll_obstacleList]
  by_cases hs : (ObstacleUpdateAll.scroll g).2 < WINDOW_W - OB_DIST
  · rw [if_pos hs]
    have hold := ObstacleUpdateAll_spawn_old g h.1 hs
    have holdm : ∀ ob ∈ g.obstacleList.map (ObstacleUpdateAll.node g), ob.expired = false →
        ob.ticks + 2000 < g.ticks := by
      intro ob hob he
      obtain ⟨a, ha, rfl⟩ := List.mem_map.mp hob
      rw [(ObstacleUpdateAll_node_spec g a).1]
      exact hold a ha ((ObstacleUpdateAll_node_spec g a).2 he).1
    have hst : ∀ ob, (ObstaclePush.setup (ObstacleUpdateAll.scroll g).1 ob).ticks = g.ticks :=
      fun ob => ObstacleUpdateAll_scroll_ticks g
    rcases poolReuse_cases (fun ob : Obstacle => ob.expired)
      (ObstaclePush.setup (ObstacleUpdateAll.scroll g).1)
      (g.obstacleList.map (ObstacleUpdateAll.node g)) with ⟨p1, -⟩ | ⟨pre, c, post, p1, -, -, p4⟩
    · rw [p1]
      simp only [Option.getD_none]
      refine ⟨wellSpaced_cons _ _ _ hnow hm (hst _) holdm, ?_⟩
      intro ob hob he
      rcases List.mem_cons.mp hob with hob | hob
      · right; rw [hob]; exact hst _
      · exact hxm ob hob he
    · rw [p4]
      simp only [Option.getD_some]
      rw [p1] at hm holdm hxm
      refine ⟨wellSpaced_replace _ _ _ c _ hnow hm (hst c) holdm, ?_⟩
      intro ob hob he
      simp only [List.mem_append, List.mem_cons] at hob
      rcases hob with hob | hob | hob
      · exact hxm ob (by simp [hob]) he
      · right; rw [hob]; exact hst _
      · exact hxm ob (by simp [hob]) he
  · rw [if_neg hs]
    exact ⟨hm, hxm⟩

theorem liveCount_map_node (g : Flappy) (l : List Obstacle) :
    liveCount (l.map (ObstacleUpdateAll.node g)) ≤ liveCount l := by
  unfold liveCount
  induction l with
  | nil => exact le_refl _
  | cons a as ih =>
    obtain ⟨-, n2⟩ := ObstacleUpdateAll_node_spec g a
    simp only [List.map_cons, List.filter_cons]
    cases hn : (ObstacleUpdateAll.node g a).expired with
    | true =>
      simp only [Bool.not_true, Bool.false_eq_true, if_false]
      split_ifs
      · simp only [List.length_cons]; omega
      · exact ih
    | false =>
      rw [(n2 hn).1]
      simp only [Bool.not_false, if_true, List.length_cons]
      omega

/-- The invariant of a run: the pool is well spaced at the game's time, and a
live node holds its position of the last call or was spawned by it. -/
theorem Run_wellSpaced (g : Flappy) (h : ObstacleUpdateAll.Run g) :
    ObstacleUpdateAll.wellSpaced g.ticks g.obstacleList ∧
    (∀ ob ∈ g.obstacleList, ob.expired = false →
      ob.x = ObstacleUpdateAll.x g ob ∨ ob.ticks = g.ticks) := by
  induction h with
  | start g =>
    have hall : ∀ ob ∈ (FlappyStartGame g).obstacleList, ob.expired = true := by
      intro ob hob
      simp only [FlappyStartGame, ObstacleResetAll, PlayerInit, List.mem_map] at hob
      obtain ⟨a, -, rfl⟩ := hob
      rfl
    refine ⟨⟨?_, ?_⟩, ?_⟩
    · intro ob hob he
      rw [hall ob hob] at he
      cases he
    · refine List.Pairwise.imp_of_mem ?_ (List.pairwise_of_forall (fun _ _ => trivial))
      intro a b ha _ _ hae
      rw [hall a ha] at hae
      cases hae
    · intro ob hob he
      rw [hall ob hob] at he
      cases he
  | tick g g' _ hl ht hnow ih =>
    have hw : ObstacleUpdateAll.wellSpaced g'.ticks g'.obstacleList := by
      rw [hl]
      refine ⟨?_, ih.1.2⟩
      intro ob hob he
      exact ⟨le_trans (ih.1.1 ob hob he).1 ht, hnow⟩
    obtain ⟨w1, w2⟩ := ObstacleUpdateAll_wellSpaced g' hnow hw
    have e : (ObstacleUpdateAll g').ticks = g'.ticks := (ObstacleUpdateAll_keeps g').2.2.2.1.2
    rw [e]
    refine ⟨w1, ?_⟩
    intro ob hob he
    rw [ObstacleUpdateAll_x_congr g' _ ob e]
    exact w2 ob hob he

theorem ObstacleUpdateAll_x_apart (g : Flappy) (a b : Obstacle)
    (ha : a.ticks ≤ g.ticks) (hb : b.ticks ≤ g.ticks) (hnow : g.ticks < 4294967296)
    (h : a.ticks + 2000 < b.ticks ∨ b.ticks + 2000 < a.ticks) :
    64 < |ObstacleUpdateAll.x g a - ObstacleUpdateAll.x g b| := by
  rw [ObstacleUpdateAll_x_formula g a ha hnow, ObstacleUpdateAll_x_formula g b hb hnow,
    Nat.cast_sub ha, Nat.cast_sub hb, lt_abs]
  rcases h with h | h
  · right
    have : (a.ticks : ℚ) + 2000 < (b.ticks : ℚ) := by exact_mod_cast h
    linarith
  · left
    have : (b.ticks : ℚ) + 2000 < (a.ticks : ℚ) := by exact_mod_cast h
    linarith

/-- The first call of the run spawns the first obstacle, at the time 100. -/
theorem gameFirstSpawn_obstacleList :
    ∃ n : Obstacle, n.expired = false ∧ n.ticks = 100 ∧ gameFirstSpawn.obstacleList = [n] := by
  have e := ObstacleUpdateAll_obstacleList
    { FlappyStartGame (FlappyNew (fun _ => 0) 1 0) with ticks := 100 }
  have hl : ({ FlappyStartGame (FlappyNew (fun _ => 0) 1 0) with ticks := 100 } : Flappy).obstacleList
      = [] := rfl
  have hs : (ObstacleUpdateAll.scroll
      { FlappyStartGame (FlappyNew (fun _ => 0) 1 0) with ticks := 100 }).2 < WINDOW_W - OB_DIST := by
    decide
  rw [if_pos hs, hl] at e
  refine ⟨_, ?_, ?_, e⟩
  · rfl
  · exact ObstacleUpdateAll_scroll_ticks _

/-- After the second call of the run, 2100 ms later, two obstacles are live. -/
theorem gameTwoSpawns_live : liveCount gameTwoSpawns.obstacleList = 2 := by
  obtain ⟨n, hn1, hn2, hn3⟩ := gameFirstSpawn_obstacleList
  have hl : ({ gameFirstSpawn with ticks := 2200 } : Flappy).obstacleList = [n] := hn3
  have hx : ObstacleUpdateAll.x { gameFirstSpawn with ticks := 2200 } n = 744 / 5 := by
    rw [ObstacleUpdateAll_x_formula _ n (by rw [hn2]; show (100 : Nat) ≤ 2200; decide)
      (show (2200 : Nat) < 4294967296 by decide), hn2]
    show ((WINDOW_W + OB_W : Int) : ℚ) - 32 * ((2200 - 100 : Nat) : ℚ) / 1000 = 744 / 5
    norm_num [WINDOW_W, OB_W]
  have e := ObstacleUpdateAll_of_all_left { gameFirstSpawn with ticks := 2200 } (by
    intro ob hob _
    rw [hl] at hob
    rw [List.mem_singleton.mp hob, hx]
    norm_num [WINDOW_W, OB_DIST])
  have hoff : ObstacleUpdateAll.offScreen { gameFirstSpawn with ticks := 2200 } n = false := by
    unfold ObstacleUpdateAll.offScreen
    rw [hx]
    simp [OB_W]
    norm_num
  obtain ⟨-, m2, -, -⟩ := ObstacleUpdateAll_node_live { gameFirstSpawn with ticks := 2200 } n hn1
  unfold gameTwoSpawns liveCount
  rw [e, ObstaclePush_live, ObstacleUpdateAll_scroll_obstacleList, hl]
  simp [m2, hoff]

/-- C28. In every game of a run (after `FlappyStartGame`, through calls of
`ObstacleUpdateAll` at non-decreasing times below 2^32, whatever else changes
between the calls): any two live obstacles were spawned more than 2000 ms apart,
and their left edges, at the positions `ObstacleUpdateAll` computes for the
game's time in exact arithmetic, are more than 64 pixels apart; the field `x` of
a live obstacle holds that position, unless the obstacle was spawned at the
game's time (a node just spawned has its field written by the next call). The
next call of the run leaves at most one live obstacle more than the pool held;
it spawns (`rightmost < WINDOW_W - OB_DIST`, one call of `ObstaclePush` after
the loop) only when every live obstacle was spawned more than 2000 ms before the
call, and otherwise adds no live obstacle. -/
theorem ObstacleUpdateAll_spacing (g : Flappy) (h : ObstacleUpdateAll.Run g) :
    g.obstacleList.Pairwise (fun a b => a.expired = false → b.expired = false →
      (a.ticks + 2000 < b.ticks ∨ b.ticks + 2000 < a.ticks) ∧
      64 < |ObstacleUpdateAll.x g a - ObstacleUpdateAll.x g b|) ∧
    (∀ ob ∈ g.obstacleList, ob.expired = false →
      ob.x = ObstacleUpdateAll.x g ob ∨ ob.ticks = g.ticks) ∧
    (∀ g2 : Flappy, g2.obstacleList = g.obstacleList → g.ticks ≤ g2.ticks →
      g2.ticks < 4294967296 →
      liveCount (ObstacleUpdateAll g2).obstacleList ≤ liveCount g2.obstacleList + 1 ∧
      ((ObstacleUpdateAll.scroll g2).2 < WINDOW_W - OB_DIST →
        ObstacleUpdateAll g2 = ObstaclePush (ObstacleUpdateAll.scroll g2).1 ∧
        ∀ ob ∈ g2.obstacleList, ob.expired = false → ob.ticks + 2000 < g2.ticks) ∧
      (¬ (ObstacleUpdateAll.scroll g2).2 < WINDOW_W - OB_DIST →
        ObstacleUpdateAll g2 = (ObstacleUpdateAll.scroll g2).1 ∧
        liveCount (ObstacleUpdateAll g2).obstacleList ≤ liveCount g2.obstacleList)) := by
  obtain ⟨⟨w1, w2⟩, w3⟩ := Run_wellSpaced g h
  refine ⟨?_, w3, ?_⟩
  · refine List.Pairwise.imp_of_mem ?_ w2
    intro a b ha hb hab hae hbe
    obtain ⟨a1, a2⟩ := w1 a ha hae
    obtain ⟨b1, -⟩ := w1 b hb hbe
    exact ⟨hab hae hbe, ObstacleUpdateAll_x_apart g a b a1 b1 a2 (hab hae hbe)⟩
  · intro g2 hl ht hnow
    have hw : ∀ ob ∈ g2.obstacleList, ob.expired = false →
        ob.ticks ≤ g2.ticks ∧ g2.ticks < 4294967296 := by
      rw [hl]
      intro ob hob he
      exact ⟨le_trans (w1 ob hob he).1 ht, hnow⟩
    have hm := liveCount_map_node g2 g2.obstacleList
    have hpush : liveCount (ObstaclePush (ObstacleUpdateAll.scroll g2).1).obstacleList
        = liveCount (g2.obstacleList.map (ObstacleUpdateAll.node g2)) + 1 := by
      unfold liveCount
      rw [ObstaclePush_live, ObstacleUpdateAll_scroll_obstacleList]
    have e1 : (ObstacleUpdateAll.scroll g2).2 < WINDOW_W - OB_DIST →
        ObstacleUpdateAll g2 = ObstaclePush (ObstacleUpdateAll.scroll g2).1 := by
      intro hs
      unfold ObstacleUpdateAll
      simp only [hs, if_true]
    have e2 : ¬ (ObstacleUpdateAll.scroll g2).2 < WINDOW_W - OB_DIST →
        ObstacleUpdateAll g2 = (ObstacleUpdateAll.scroll g2).1 := by
      intro hs
      unfold ObstacleUpdateAll
      simp only [hs, if_false]
    refine ⟨?_, fun hs => ⟨e1 hs, ObstacleUpdateAll_spawn_old g2 hw hs⟩, fun hs => ⟨e2 hs, ?_⟩⟩
    · by_cases hs : (ObstacleUpdateAll.scroll g2).2 < WINDOW_W - OB_DIST
      · rw [e1 hs, hpush]
        omega
      · rw [e2 hs, ObstacleUpdateAll_scroll_obstacleList]
        omega
    · rw [e2 hs, ObstacleUpdateAll_scroll_obstacleList]
      exact hm

/-- The game after two calls, at the times 100 and 2200, is a game of a run
with two live obstacles, and they are spaced as stated. -/
theorem ObstacleUpdateAll_spacing_witness :
    ObstacleUpdateAll.Run gameTwoSpawns ∧
    liveCount gameTwoSpawns.obstacleList = 2 ∧
    gameTwoSpawns.obstacleList.Pairwise (fun a b => a.expired = false → b.expired = false →
      (a.ticks + 2000 < b.ticks ∨ b.ticks + 2000 < a.ticks) ∧
      64 < |ObstacleUpdateAll.x gameTwoSpawns a - ObstacleUpdateAll.x gameTwoSpawns b|) :=
  have hrun : ObstacleUpdateAll.Run gameTwoSpawns :=
    ObstacleUpdateAll.Run.tick gameFirstSpawn { gameFirstSpawn with ticks := 2200 }
      (ObstacleUpdateAll.Run.tick (FlappyStartGame (FlappyNew (fun _ => 0) 1 0))
        { FlappyStartGame (FlappyNew (fun _ => 0) 1 0) with ticks := 100 }
        (ObstacleUpdateAll.Run.start (FlappyNew (fun _ => 0) 1 0)) rfl
        (show (0 : Nat) ≤ 100 by decide) (show (100 : Nat) < 4294967296 by decide))
      rfl
      (by
        show gameFirstSpawn.ticks ≤ 2200
        unfold gameFirstSpawn
        rw [(ObstacleUpdateAll_keeps _).2.2.2.1.2]
        show (100 : Nat) ≤ 2200
        decide)
      (show (2200 : Nat) < 4294967296 by decide)
  ⟨hrun, gameTwoSpawns_live, (ObstacleUpdateAll_spacing gameTwoSpawns hrun).1⟩

/-- For the player's instance `OnTouchWorld` returns, with the game the
callback table gives. -/
theorem OnTouchWorld_player (f : ColliderCallback) (g : Flappy) :
    OnTouchWorld g 1 = some (callbacks f g 1) := rfl

theorem arenaPlayerCallbacks_of_noCallback (l : List Collider) (h : arenaNoCallback l) :
    arenaPlayerCallbacks l := by
  intro c hc he hcb
  rw [h c hc he] at hcb
  cases hcb

theorem arenaPlayerCallbacks_push (g : Flappy) (inst : Nat) (cb : Option ColliderCallback)
    (color : Nat) (init : SDL_Rect) (h : arenaPlayerCallbacks g.colliderList)
    (hi : cb.isSome = true → inst = 1) :
    arenaPlayerCallbacks (ColliderArenaPush g inst cb color init).colliderList := by
  rw [ColliderArenaPush_colliderList]
  rcases poolReuse_cases (fun c : Collider => c.expired)
    (fun _ => Collider.mk inst init false false color color cb) g.colliderList with
    ⟨h1, -⟩ | ⟨pre, c, post, h1, -, -, h4⟩
  · rw [h1]
    intro x hx hxe hxc
    simp only [Option.getD_none, List.mem_cons] at hx
    rcases hx with hx | hx
    · rw [hx] at hxc ⊢
      exact hi hxc
    · exact h x hx hxe hxc
  · rw [h4]
    intro x hx hxe hxc
    simp only [Option.getD_some, List.mem_append, List.mem_cons] at hx
    rcases hx with hx | hx | hx
    · exact h x (by rw [h1]; simp [hx]) hxe hxc
    · rw [hx] at hxc ⊢
      exact hi hxc
    · exact h x (by rw [h1]; simp [hx]) hxe hxc

/-- Every collider that a tick registers with a callback carries the instance
of the player: the callback is set by `PlayerUpdate` alone, which passes the
player. -/
theorem register_instances (sinq : ℚ → ℚ) (freq counter : Nat) (g : Flappy) :
    arenaPlayerCallbacks (FlappyUpdate.register sinq freq counter g).colliderList := by
  obtain ⟨-, z2⟩ := hazards_state sinq freq counter g
  rw [register_eq_hazards]
  have h7 : arenaNoCallback
      (if (FlappyUpdate.hazards sinq freq counter g).state ≠ FLAPPY_STATE_TITLE then
        ObstacleUpdateAll (FlappyUpdate.hazards sinq freq counter g)
        else FlappyUpdate.hazards sinq freq counter g).colliderList := by
    split_ifs
    · exact arenaNoCallback_obstacles _ z2
    · exact z2
  generalize (if (FlappyUpdate.hazards sinq freq counter g).state ≠ FLAPPY_STATE_TITLE then
        ObstacleUpdateAll (FlappyUpdate.hazards sinq freq counter g)
        else FlappyUpdate.hazards sinq freq counter g) = g7 at h7 ⊢
  by_cases hd : g7.player.isDead = true
  · have e : PlayerUpdate g7 = g7 := by
      unfold PlayerUpdate
      rw [if_pos hd]
    rw [e]
    exact arenaPlayerCallbacks_of_noCallback _ h7
  by_cases hs : g7.state = FLAPPY_STATE_PLAYING
  · obtain ⟨gm, e, hl, -⟩ := PlayerUpdate_alive g7 (by simpa using hd) hs
    rw [e]
    apply arenaPlayerCallbacks_push
    · rw [hl]
      exact arenaPlayerCallbacks_of_noCallback _ h7
    · intro _
      rfl
  · rw [PlayerUpdate_of_not_playing g7 hs]
    exact arenaPlayerCallbacks_of_noCallback _ h7

/-- A callback that the pass invokes belongs to a live node of the list the
pass started with. -/
theorem arenaRun_called_node (l : List Collider) (n k : Nat)
    (h : ArenaEvent.called k ∈ (arenaRun l n).2) :
    ∃ c, l[k]? = some c ∧ c.expired = false ∧ c.cb.isSome = true := by
  induction n with
  | zero => simp [arenaRun] at h
  | succ n ih =>
    simp only [arenaRun, List.mem_append] at h
    rcases h with h | h
    · exact ih h
    · have hnode : ∀ m (x : Collider), (arenaRun l n).1[m]? = some x → x.expired = false →
          ArenaEvent.called k ∈ callEvent (arenaRun l n).1 m →
          ∃ c, l[k]? = some c ∧ c.expired = false ∧ c.cb.isSome = true := by
        intro m x hx hxe hmem
        unfold callEvent at hmem
        simp only [List.get?_eq_getElem?, hx] at hmem
        split_ifs at hmem with hcb
        · simp only [List.mem_singleton, ArenaEvent.called.injEq] at hmem
          subst hmem
          have hst := arenaRun_static l n k
          rw [hx] at hst
          cases hl : l[k]? with
          | none => rw [hl] at hst; cases hst
          | some c =>
            rw [hl] at hst
            simp only [Option.map_some', Option.some.injEq, Collider.static,
              Prod.mk.injEq] at hst
            exact ⟨c, rfl, by rw [← hst.2.2.1]; exact hxe, by rw [← hst.2.2.2.2]; exact hcb⟩
        · simp at hmem
      unfold arenaStep at h
      cases hT : Touch (arenaRun l n).1 n with
      | none => simp [hT] at h
      | some t =>
        obtain ⟨cs, cj, hcs, hcj, hlive, -, hcje, -, -, -⟩ := Touch_sound _ _ _ hT
        simp only [hT, List.mem_cons, List.mem_append] at h
        rcases h with h | h | h
        · cases h
        · exact hnode t cj hcj hcje h
        · exact hnode n cs hcs hlive h

/-- Every callback that the arena pass of a tick invokes is invoked on a
collider whose instance is the player: there `OnTouchWorld` returns, and
returns what the callback table gives. -/
theorem FlappyUpdate_calls_player (sinq : ℚ → ℚ) (freq counter : Nat) (g : Flappy) (k : Nat)
    (h : ArenaEvent.called k ∈
      (ColliderArenaProcess callbacks (FlappyUpdate.register sinq freq counter g)).2) :
    ∃ c, (FlappyUpdate.register sinq freq counter g).colliderList[k]? = some c ∧ c.inst = 1 ∧
      ∀ (f : ColliderCallback) (G : Flappy), OnTouchWorld G c.inst = some (callbacks f G c.inst) := by
  unfold ColliderArenaProcess at h
  rw [(iter_eq_arenaRun callbacks callbacks_colliderList _ _).2] at h
  obtain ⟨c, hc, he, hcb⟩ := arenaRun_called_node _ _ k h
  have hi := register_instances sinq freq counter g c (List.getElem?_mem hc) he hcb
  refine ⟨c, hc, hi, fun f G => ?_⟩
  rw [hi]
  rfl

theorem invoke_of_node (cbs : ColliderCallback → Flappy → Nat → Flappy) (g : Flappy) (k : Nat)
    (x : Collider) (hx : g.colliderList[k]? = some x) :
    ColliderArenaProcess.invoke cbs g k =
      (match x.cb with
        | some f => (cbs f g x.inst, [ArenaEvent.called k])
        | none => (g, [])) := by
  unfold ColliderArenaProcess.invoke
  simp only [List.get?_eq_getElem?, hx]
  cases x.cb <;> rfl

/-- C4. The pass of `ColliderArenaProcess` is the loop over the positions of
the list, from the game it is given. At the turn for the collider `c` (position
`n`), when `Touch` finds no collider nothing is done; when `Touch` finds the
collider `t`, the touch is resolved in this order, whatever the callbacks are:
first both colliders are marked `touched` (the game `G1` differs from the game
of the turn in these two nodes only); then the callback of `t`, if `t` has one,
is called on `G1`, the game in which both are already marked, giving `Gt`; only
then the callback of `c`, if `c` has one, is called, on `Gt`, and what it
returns is the game after the turn. The events of the turn are the marking, the
call for `t` and the call for `c`, in this order. -/
theorem ColliderArenaProcess_order (cbs : ColliderCallback → Flappy → Nat → Flappy)
    (g : Flappy) :
    ColliderArenaProcess cbs g = ColliderArenaProcess.iter cbs g g.colliderList.length ∧
    ColliderArenaProcess.iter cbs g 0 = (g, []) ∧
    ∀ n : Nat,
      (Touch (ColliderArenaProcess.iter cbs g n).1.colliderList n = none →
        ColliderArenaProcess.iter cbs g (n + 1) = ColliderArenaProcess.iter cbs g n) ∧
      ∀ t : Nat, Touch (ColliderArenaProcess.iter cbs g n).1.colliderList n = some t →
        ∃ (c0 t0 : Collider) (G1 Gt : Flappy),
          (ColliderArenaProcess.iter cbs g n).1.colliderList[n]? = some c0 ∧
          (ColliderArenaProcess.iter cbs g n).1.colliderList[t]? = some t0 ∧
          G1 = { (ColliderArenaProcess.iter cbs g n).1 with colliderList := G1.colliderList } ∧
          (∀ k : Nat, G1.colliderList[k]? =
            if k = n ∨ k = t then
              ((ColliderArenaProcess.iter cbs g n).1.colliderList[k]?).map
                (fun x => { x with color := ColorTweak x.color, touched := true })
            else (ColliderArenaProcess.iter cbs g n).1.colliderList[k]?) ∧
          (G1.colliderList[n]?).map (fun x => x.touched) = some true ∧
          (G1.colliderList[t]?).map (fun x => x.touched) = some true ∧
          Gt = (match t0.cb with
            | some f => cbs f G1 t0.inst
            | none => G1) ∧
          (ColliderArenaProcess.iter cbs g (n + 1)).1 =
            (match Gt.colliderList[n]? with
              | some cn =>
                (match cn.cb with
                  | some f => cbs f Gt cn.inst
                  | none => Gt)
              | none => Gt) ∧
          (ColliderArenaProcess.iter cbs g (n + 1)).2 =
            (ColliderArenaProcess.iter cbs g n).2 ++
              ArenaEvent.touched n t ::
                (callEvent G1.colliderList t ++ callEvent Gt.colliderList n) := by
  refine ⟨rfl, rfl, fun n => ⟨?_, ?_⟩⟩
  · intro hT
    simp only [ColliderArenaProcess.iter, ColliderArenaProcess.body, hT, List.append_nil]
  · intro t hT
    obtain ⟨cs, cj, hcs, hcj, -, -, -, hne, -, -⟩ := Touch_sound _ _ _ hT
    have hct : n ≠ t := fun h => hne h.symm
    generalize hG : (ColliderArenaProcess.iter cbs g n).1 = G at hT hcs hcj ⊢
    have hmk := getElem?_mark G.colliderList n t
    have hmt : (ColliderArenaProcess.mark G.colliderList n t)[t]?
        = some { cj with color := ColorTweak cj.color, touched := true } := by
      rw [hmk t hct, hcj]
      simp
    have hmn : (ColliderArenaProcess.mark G.colliderList n t)[n]?
        = some { cs with color := ColorTweak cs.color, touched := true } := by
      rw [hmk n hct, hcs]
      simp
    have hstep : ColliderArenaProcess.iter cbs g (n + 1) =
        ((ColliderArenaProcess.invoke cbs
            (ColliderArenaProcess.invoke cbs
              { G with colliderList := ColliderArenaProcess.mark G.colliderList n t } t).1 n).1,
          (ColliderArenaProcess.iter cbs g n).2 ++ ArenaEvent.touched n t ::
            ((ColliderArenaProcess.invoke cbs
              { G with colliderList := ColliderArenaProcess.mark G.colliderList n t } t).2 ++
            (ColliderArenaProcess.invoke cbs
              (ColliderArenaProcess.invoke cbs
                { G with colliderList := ColliderArenaProcess.mark G.colliderList n t } t).1
              n).2)) := by
      simp only [ColliderArenaProcess.iter, ColliderArenaProcess.body, hG, hT]
    have hinv := invoke_of_node cbs
      { G with colliderList := ColliderArenaProcess.mark G.colliderList n t } t _ hmt
    refine ⟨cs, cj, { G with colliderList := ColliderArenaProcess.mark G.colliderList n t },
      (ColliderArenaProcess.invoke cbs
        { G with colliderList := ColliderArenaProcess.mark G.colliderList n t } t).1,
      hcs, hcj, rfl, fun k => hmk k hct, ?_, ?_, ?_, ?_, ?_⟩
    · show ((ColliderArenaProcess.mark G.colliderList n t)[n]?).map (fun x => x.touched) = some true
      rw [hmn]; rfl
    · show ((ColliderArenaProcess.mark G.colliderList n t)[t]?).map (fun x => x.touched) = some true
      rw [hmt]; rfl
    · rw [hinv]
      cases cj.cb <;> rfl
    · rw [hstep]
      simp only []
      generalize (ColliderArenaProcess.invoke cbs
        { G with colliderList := ColliderArenaProcess.mark G.colliderList n t } t).1 = Gt
      unfold ColliderArenaProcess.invoke
      simp only [List.get?_eq_getElem?]
      cases Gt.colliderList[n]? with
      | none => rfl
      | some cn => cases hcb : cn.cb <;> simp [hcb]
    · rw [hstep]
      simp only [invoke_events]

/-- In the arena `arenaProbe` the turn for the collider at position 0 finds the
collider at position 1. Its callback (instance 2) is called first and finds two
colliders marked: the score becomes 22; the callback of the collider at
position 0 (instance 1) is called after it and finds the same: the score
becomes 2212. -/
theorem ColliderArenaProcess_order_witness :
    Touch arenaProbe.colliderList 0 = some 1 ∧
    (ColliderArenaProcess probeCallbacks arenaProbe).2 =
      [ArenaEvent.touched 0 1, ArenaEvent.called 1, ArenaEvent.called 0] ∧
    (ColliderArenaProcess probeCallbacks arenaProbe).1.score = 2212 ∧
    ∃ G1 Gt : Flappy,
      G1.colliderList.map (fun x => x.touched) = [true, true] ∧ G1.score = 0 ∧
      Gt = probeCallbacks 2 G1 2 ∧ Gt.score = 22 ∧
      (ColliderArenaProcess.iter probeCallbacks arenaProbe 1).1 = probeCallbacks 2 Gt 1 ∧
      (ColliderArenaProcess.iter probeCallbacks arenaProbe 1).1.score = 2212 := by
  refine ⟨by decide, by decide, by decide, ?_⟩
  obtain ⟨c0, t0, G1, Gt, h0, h1, hG1, hmk, -, -, hGt, hres, -⟩ :=
    ((ColliderArenaProcess_order probeCallbacks arenaProbe).2.2 0).2 1 (by decide)
  have e0 : c0 = Collider.mk 1 ⟨0, 0, 10, 10⟩ false false COLOR_WORLD COLOR_WORLD (some 2) :=
    Option.some.inj (h0.symm.trans rfl)
  have e1 : t0 = Collider.mk 2 ⟨5, 5, 10, 10⟩ false false COLOR_PLAYER COLOR_PLAYER (some 2) :=
    Option.some.inj (h1.symm.trans rfl)
  have hl : G1.colliderList =
      [Collider.mk 1 ⟨0, 0, 10, 10⟩ false true (ColorTweak COLOR_WORLD) COLOR_WORLD (some 2),
       Collider.mk 2 ⟨5, 5, 10, 10⟩ false true (ColorTweak COLOR_PLAYER) COLOR_PLAYER (some 2)] := by
    apply List.ext_getElem?
    intro k
    rw [hmk k]
    rcases k with _ | _ | k
    · rfl
    · rfl
    · rfl
  have hs1 : G1.score = 0 := by rw [hG1]; rfl
  have hGt' : Gt = probeCallbacks 2 G1 2 := by rw [hGt, e1]
  have hs2 : Gt.score = 22 := by
    rw [hGt']
    show G1.score * 100 + 2 * 10 + (G1.colliderList.filter (fun c => c.touched)).length = 22
    rw [hs1, hl]
    rfl
  have hlt : Gt.colliderList = G1.colliderList := by rw [hGt']; rfl
  have hres' : (ColliderArenaProcess.iter probeCallbacks arenaProbe 1).1 = probeCallbacks 2 Gt 1 := by
    rw [hres, hlt, hl]
    rfl
  refine ⟨G1, Gt, by rw [hl]; rfl, hs1, hGt', hs2, hres', ?_⟩
  rw [hres']
  show Gt.score * 100 + 1 * 10 + (Gt.colliderList.filter (fun c => c.touched)).length = 2212
  rw [hs2, hlt, hl]
  rfl

/-- The pass of `ParticleDrawAll` over a list that holds the particle `p`: the
nodes and the draws before `p`, those of `p`, and those after `p`. -/
theorem ParticleDrawAll_split (g : Flappy) (pre post : List Particle) (p : Particle)
    (h : g.particleList = pre ++ p :: post) :
    (ParticleDrawAll g).1.particleList =
      (ParticleDrawAll { g with particleList := pre }).1.particleList ++
        (ParticleDrawAll.visit g p).1 ::
          (ParticleDrawAll { g with particleList := post }).1.particleList ∧
    (ParticleDrawAll g).2 =
      (ParticleDrawAll { g with particleList := pre }).2 ++
        ((ParticleDrawAll.visit g p).2 ++ (ParticleDrawAll { g with particleList := post }).2) := by
  have hv : ∀ (l : List Particle) (q : Particle),
      ParticleDrawAll.visit { g with particleList := l } q = ParticleDrawAll.visit g q :=
    fun _ _ => rfl
  simp only [ParticleDrawAll, h, hv, List.map_append, List.map_cons, List.flatMap_append,
    List.flatMap_cons]
  exact ⟨trivial, trivial⟩

/-- C24. For a live particle `p` with an animation of the table and the elapsed
time `t = game->ticks - p->ticks` (a `uint32_t`): when `t` is less than the sum
of the frame durations, `ParticleDrawAll` selects the frame `k` with
`d_0 + .. + d_(k-1) <= t < d_0 + .. + d_k`, leaves the particle as it is and
makes one call of `TextureDraw` for it, with the clipping rectangle of that
frame; when `t` is at least the sum, it reaches the closing frame, marks the
particle expired and makes no call for it. Both are stated for the loop body
and for the whole call, where `p` stands anywhere in the particle list: the
nodes and the calls of the particles before and after `p` are those of the call
on the list before and on the list after. A sparkle lasts 600 ms and the death
animation 500 ms. The walk behaves so on any frame array that ends with a frame
of negative row and whose durations add up below `2 ^ 32`. -/
theorem ParticleDrawAll_animation (g : Flappy) (p : Particle) (he : p.expired = false)
    (hty : p.anim ≠ PARTICLE_MAX) :
    animLength p.anim = (if p.anim = PARTICLE_DEATH then 500 else 600) ∧
    (sub32 g.ticks p.ticks < animLength p.anim →
      ∃ k f, (animFrames p.anim)[k]? = some f ∧
        framesBefore (animFrames p.anim) k ≤ sub32 g.ticks p.ticks ∧
        sub32 g.ticks p.ticks < framesBefore (animFrames p.anim) k + f.dur ∧
        ParticleDrawAll.visit g p =
          (p, [({ x := f.col * WIDTH, y := f.row * HEIGHT, w := WIDTH, h := HEIGHT },
            p.x - ((WIDTH / 2 : Int) : ℚ) - WORLD_SCROLL ((sub32 g.ticks p.ticks : Nat) : ℚ),
            p.y - ((HEIGHT / 2 : Int) : ℚ))]) ∧
        ∀ pre post : List Particle, g.particleList = pre ++ p :: post →
          (ParticleDrawAll g).1.particleList =
            (ParticleDrawAll { g with particleList := pre }).1.particleList ++
              p :: (ParticleDrawAll { g with particleList := post }).1.particleList ∧
          (ParticleDrawAll g).2 =
            (ParticleDrawAll { g with particleList := pre }).2 ++
              ({ x := f.col * WIDTH, y := f.row * HEIGHT, w := WIDTH, h := HEIGHT },
                p.x - ((WIDTH / 2 : Int) : ℚ)
                  - WORLD_SCROLL ((sub32 g.ticks p.ticks : Nat) : ℚ),
                p.y - ((HEIGHT / 2 : Int) : ℚ)) ::
                (ParticleDrawAll { g with particleList := post }).2) ∧
    (animLength p.anim ≤ sub32 g.ticks p.ticks →
      ParticleDrawAll.visit g p = ({ p with expired := true }, []) ∧
      ∀ pre post : List Particle, g.particleList = pre ++ p :: post →
        (ParticleDrawAll g).1.particleList =
          (ParticleDrawAll { g with particleList := pre }).1.particleList ++
            { p with expired := true } ::
              (ParticleDrawAll { g with particleList := post }).1.particleList ∧
        (ParticleDrawAll g).2 =
          (ParticleDrawAll { g with particleList := pre }).2 ++
            (ParticleDrawAll { g with particleList := post }).2) ∧
    (∀ (t : Nat) (frames : List Frame) (s : Frame) (rest : List Frame),
      (∀ f ∈ frames, 0 ≤ f.row) → s.row < 0 →
      (frames.map (fun f => f.dur)).sum < 4294967296 →
      (t < (frames.map (fun f => f.dur)).sum →
        ∃ k f, frames[k]? = some f ∧ framesBefore frames k ≤ t ∧
          t < framesBefore frames k + f.dur ∧
          ParticleDrawAll.frame t (frames ++ s :: rest) 0 = some f) ∧
      ((frames.map (fun f => f.dur)).sum ≤ t →
        ParticleDrawAll.frame t (frames ++ s :: rest) 0 = none)) ∧
    (ParticleDrawAll g).1.particleList
      = g.particleList.map (fun q => (ParticleDrawAll.visit g q).1) ∧
    (ParticleDrawAll g).2 = g.particleList.flatMap (fun q => (ParticleDrawAll.visit g q).2) ∧
    (ParticleDrawAll g).1 = { g with particleList := (ParticleDrawAll g).1.particleList } := by
  obtain ⟨a1, a2, a3⟩ := anim_frames p.anim hty
  have hlen : ((animFrames p.anim).map (fun f => f.dur)).sum < 4294967296 := by
    have : ((animFrames p.anim).map (fun f => f.dur)).sum = animLength p.anim := rfl
    rw [this, a3]
    split_ifs <;> decide
  have hgen : ∀ (t : Nat) (frames : List Frame) (s : Frame) (rest : List Frame),
      (∀ f ∈ frames, 0 ≤ f.row) → s.row < 0 →
      (frames.map (fun f => f.dur)).sum < 4294967296 →
      (t < (frames.map (fun f => f.dur)).sum →
        ∃ k f, frames[k]? = some f ∧ framesBefore frames k ≤ t ∧
          t < framesBefore frames k + f.dur ∧
          ParticleDrawAll.frame t (frames ++ s :: rest) 0 = some f) ∧
      ((frames.map (fun f => f.dur)).sum ≤ t →
        ParticleDrawAll.frame t (frames ++ s :: rest) 0 = none) := by
    intro t frames s rest hrows hs hsum
    have h := ParticleDrawAll_frame_walk t frames s rest 0 hrows hs (by omega) (Nat.zero_le _)
    simpa using h
  obtain ⟨w1, w2⟩ := hgen (sub32 g.ticks p.ticks) (animFrames p.anim) ⟨-1, -1, 4294967295⟩ []
    a2 (by decide) hlen
  rw [← a1] at w1 w2
  refine ⟨a3, ?_, ?_, hgen, rfl, rfl, rfl⟩
  · intro ht
    obtain ⟨k, f, h1, h2, h3, h4⟩ := w1 ht
    have hv : ParticleDrawAll.visit g p =
        (p, [({ x := f.col * WIDTH, y := f.row * HEIGHT, w := WIDTH, h := HEIGHT },
          p.x - ((WIDTH / 2 : Int) : ℚ) - WORLD_SCROLL ((sub32 g.ticks p.ticks : Nat) : ℚ),
          p.y - ((HEIGHT / 2 : Int) : ℚ))]) := by
      unfold ParticleDrawAll.visit
      simp only [he, Bool.false_eq_true, if_false, h4]
    refine ⟨k, f, h1, h2, h3, hv, ?_⟩
    intro pre post hl
    obtain ⟨s1, s2⟩ := ParticleDrawAll_split g pre post p hl
    rw [hv] at s1 s2
    exact ⟨s1, s2⟩
  · intro ht
    have hv : ParticleDrawAll.visit g p = ({ p with expired := true }, []) := by
      unfold ParticleDrawAll.visit
      simp only [he, Bool.false_eq_true, if_false, w2 ht]
    refine ⟨hv, ?_⟩
    intro pre post hl
    obtain ⟨s1, s2⟩ := ParticleDrawAll_split g pre post p hl
    rw [hv] at s1 s2
    exact ⟨s1, by simpa using s2⟩

/-- The call of `ParticleDrawAll` in the game `gameSparkles`, at tick 1250. The
sparkle spawned at tick 1000 is 250 ms old: its second frame (row 1, column 1)
is drawn, at `100 - 16 - 8 = 76` and `50 - 16 = 34`, and the particle stays
live. The sparkle spawned at tick 600 is 650 ms old, past the 600 ms of the
animation: it is marked expired and nothing is drawn for it. -/
theorem ParticleDrawAll_animation_witness :
    (ParticleDrawAll gameSparkles).2 = [(⟨32, 32, 32, 32⟩, 76, 34)] ∧
    (ParticleDrawAll gameSparkles).1.particleList =
      [ { ticks := 1000, x := 100, y := 50, expired := false, anim := PARTICLE_SPARKLE_BLUE },
        { ticks := 600, x := 90, y := 52, expired := true, anim := PARTICLE_SPARKLE_BLUE } ] := by
  obtain ⟨p1, hp1⟩ : ∃ p1 : Particle, p1 =
      { ticks := 1000, x := 100, y := 50, expired := false, anim := PARTICLE_SPARKLE_BLUE } :=
    ⟨_, rfl⟩
  obtain ⟨p2, hp2⟩ : ∃ p2 : Particle, p2 =
      { ticks := 600, x := 90, y := 52, expired := false, anim := PARTICLE_SPARKLE_BLUE } :=
    ⟨_, rfl⟩
  have hl : gameSparkles.particleList = [] ++ p1 :: [p2] := by rw [hp1, hp2]; rfl
  have hl2 : ({ gameSparkles with particleList := [p2] } : Flappy).particleList
      = [] ++ p2 :: [] := rfl
  have t1 : sub32 gameSparkles.ticks p1.ticks = 250 := by rw [hp1]; decide
  have t2 : sub32 gameSparkles.ticks p2.ticks = 650 := by rw [hp2]; decide
  have a1 : p1.anim = PARTICLE_SPARKLE_BLUE := by rw [hp1]
  have a2 : p2.anim = PARTICLE_SPARKLE_BLUE := by rw [hp2]
  obtain ⟨-, h1, -, -⟩ := ParticleDrawAll_animation gameSparkles p1 (by rw [hp1])
    (by rw [a1]; decide)
  obtain ⟨-, -, h2, -⟩ := ParticleDrawAll_animation { gameSparkles with particleList := [p2] } p2
    (by rw [hp2]) (by rw [a2]; decide)
  obtain ⟨k, f, hk, hb1, hb2, -, hall⟩ := h1 (by rw [t1, a1]; decide)
  obtain ⟨-, hexp⟩ := h2 (by
    show animLength p2.anim ≤ sub32 gameSparkles.ticks p2.ticks
    rw [t2, a2]; decide)
  obtain ⟨e1, e2⟩ := hall [] [p2] hl
  obtain ⟨e3, e4⟩ := hexp [] [] hl2
  rw [t1, a1] at hb1 hb2
  rw [a1] at hk
  have hk3 : k < 3 := by
    have := (List.getElem?_eq_some_iff.mp hk).1
    simpa [animFrames, anim] using this
  have f0 : (animFrames PARTICLE_SPARKLE_BLUE)[0]? = some ⟨1, 0, 200⟩ := by decide
  have f1 : (animFrames PARTICLE_SPARKLE_BLUE)[1]? = some ⟨1, 1, 200⟩ := by decide
  have b2 : framesBefore (animFrames PARTICLE_SPARKLE_BLUE) 2 = 400 := by decide
  have b0 : framesBefore (animFrames PARTICLE_SPARKLE_BLUE) 0 = 0 := by decide
  have hf : f = ⟨1, 1, 200⟩ := by
    interval_cases k
    · exfalso
      rw [f0] at hk
      cases hk
      rw [b0] at hb2
      have h250 : (250 : Nat) < 0 + 200 := hb2
      omega
    · rw [f1] at hk
      cases hk
      rfl
    · exfalso
      rw [b2] at hb1
      have h400 : (400 : Nat) ≤ 250 := hb1
      omega
  constructor
  · rw [e2, e4, hf, t1, hp1]
    simp [ParticleDrawAll, WIDTH, HEIGHT, WORLD_SCROLL, SCROLL_SPEED]
    norm_num
  · rw [e1, e3, hp1, hp2]
    rfl

/-- A pass over an arena in which no two live colliders of different groups
collide does nothing. -/
theorem ColliderArenaProcess_quiet (cbs : ColliderCallback → Flappy → Nat → Flappy)
    (g : Flappy)
    (h : ∀ ci ∈ g.colliderList, ∀ cj ∈ g.colliderList, ci.expired = false → cj.expired = false →
      CollisionRectRect ci.rect cj.rect = true → ci.group = cj.group) :
    ColliderArenaProcess cbs g = (g, []) := by
  have key : ∀ n, ColliderArenaProcess.iter cbs g n = (g, []) := by
    intro n
    induction n with
    | zero => rfl
    | succ n ih =>
      simp only [ColliderArenaProcess.iter, ih, ColliderArenaProcess.body,
        Touch_none_of_same_group g.colliderList h n, List.append_nil]
  exact key _

/-- The loop of `ObstacleUpdateAll` registers the lower half of a live obstacle
that is still on screen. -/
theorem ObstacleUpdateAll_visit_lower (g : Flappy) (rm : Int) (ob : Obstacle)
    (he : ob.expired = false) (hoff : ObstacleUpdateAll.offScreen g ob = false) :
    ∃ f ∈ (ObstacleUpdateAll.visit g rm ob).1.colliderList,
      f.expired = false ∧ f.group = COLOR_WORLD ∧
      f.rect = ColliderInitRect g (ObstacleUpdateAll.x g ob)
        ((truncf (ob.y + ((OB_GAP / 2 : Int) : ℚ)) : Int) : ℚ) ((OB_W : Int) : ℚ)
        ((FLOOR_Y - truncf (ob.y + ((OB_GAP / 2 : Int) : ℚ)) : Int) : ℚ) := by
  unfold ObstacleUpdateAll.visit
  simp only [he, hoff, Bool.false_eq_true, if_false]
  refine ⟨_, (ColliderArenaPush_mem _ _ _ _ _).1, rfl, rfl, ?_⟩
  by_cases hsc : ObstacleUpdateAll.scores g ob = true
  · simp [hsc, ColliderInitRect]
  · simp [hsc, ColliderInitRect]

theorem ObstacleUpdateAll_loop_lower (obs : List Obstacle) (g : Flappy) (rm : Int)
    (ob : Obstacle) (hob : ob ∈ obs) (he : ob.expired = false)
    (hoff : ObstacleUpdateAll.offScreen g ob = false) :
    ∃ f ∈ (ObstacleUpdateAll.loop obs g rm).1.colliderList,
      f.expired = false ∧ f.group = COLOR_WORLD ∧
      f.rect = ColliderInitRect g (ObstacleUpdateAll.x g ob)
        ((truncf (ob.y + ((OB_GAP / 2 : Int) : ℚ)) : Int) : ℚ) ((OB_W : Int) : ℚ)
        ((FLOOR_Y - truncf (ob.y + ((OB_GAP / 2 : Int) : ℚ)) : Int) : ℚ) := by
  induction obs generalizing g rm with
  | nil => simp at hob
  | cons o obs ih =>
    simp only [ObstacleUpdateAll.loop]
    rcases List.mem_cons.mp hob with hob | hob
    · subst hob
      obtain ⟨f, hf, h1, h2, h3⟩ := ObstacleUpdateAll_visit_lower g rm ob he hoff
      have hk := ObstacleUpdateAll_loop_keeps obs (ObstacleUpdateAll.visit g rm ob).1
        (ObstacleUpdateAll.visit g rm ob).2.1
      exact ⟨f, hk.2.2.2.2 f hf h1, h1, h2, h3⟩
    · obtain ⟨v1, -, -, -, -, -⟩ := ObstacleUpdateAll_visit_spec g rm o
      have hsc := (ObstacleUpdateAll_visit_keeps g rm o).1
      obtain ⟨f, hf, h1, h2, h3⟩ := ih (ObstacleUpdateAll.visit g rm o).1
        (ObstacleUpdateAll.visit g rm o).2.1 hob
        (by rw [ObstacleUpdateAll_offScreen_congr g _ ob v1]; exact hoff)
      refine ⟨f, hf, h1, h2, ?_⟩
      rw [h3, ObstacleUpdateAll_x_congr g _ ob v1, ColliderInitRect_congr g _ hsc]

theorem hazards_scale (sinq : ℚ → ℚ) (freq counter : Nat) (g : Flappy) :
    (FlappyUpdate.hazards sinq freq counter g).scale = g.scale := by
  unfold FlappyUpdate.hazards
  simp only []
  have t1 : (FlappyUpdate.timers freq counter g).scale = g.scale := rfl
  generalize FlappyUpdate.timers freq counter g = g1 at t1 ⊢
  have t2 : (if g1.state = FLAPPY_STATE_TITLE then PlayerInit g1 else g1).scale = g1.scale := by
    split_ifs <;> rfl
  generalize (if g1.state = FLAPPY_STATE_TITLE then PlayerInit g1 else g1) = g2 at t2 ⊢
  have t3 : (ColliderArenaInit g2).scale = g2.scale := rfl
  generalize ColliderArenaInit g2 = g3 at t3 ⊢
  rw [(WorldDoHazards_keeps sinq _).1.1]
  simp only [ColliderArenaPush_scale]
  rw [t3, t2, t1]

/-- A tick that starts in the Playing state registers the lower half of every
live obstacle that is on screen at the time of the tick. -/
theorem register_lower (sinq : ℚ → ℚ) (freq counter : Nat) (g : Flappy)
    (hs : g.state = FLAPPY_STATE_PLAYING) (ob : Obstacle) (hob : ob ∈ g.obstacleList)
    (he : ob.expired = false)
    (hoff : ObstacleUpdateAll.offScreen (FlappyUpdate.timers freq counter g) ob = false) :
    ∃ f ∈ (FlappyUpdate.register sinq freq counter g).colliderList,
      f.expired = false ∧ f.group = COLOR_WORLD ∧
      f.rect = ColliderInitRect g (ObstacleUpdateAll.x (FlappyUpdate.timers freq counter g) ob)
        ((truncf (ob.y + ((OB_GAP / 2 : Int) : ℚ)) : Int) : ℚ) ((OB_W : Int) : ℚ)
        ((FLOOR_Y - truncf (ob.y + ((OB_GAP / 2 : Int) : ℚ)) : Int) : ℚ) := by
  have hnt : g.state ≠ FLAPPY_STATE_TITLE := by rw [hs]; decide
  obtain ⟨z1, z2, z3, -⟩ := hazards_frame sinq freq counter g hnt
  have zs := hazards_scale sinq freq counter g
  have zt : (FlappyUpdate.hazards sinq freq counter g).ticks
      = (FlappyUpdate.timers freq counter g).ticks := z2
  rw [register_eq_hazards, if_pos (by rw [z3]; exact hnt)]
  generalize FlappyUpdate.hazards sinq freq counter g = hz at z1 zs zt z3
  obtain ⟨f, hf, h1, h2, h3⟩ := ObstacleUpdateAll_loop_lower hz.obstacleList hz 0 ob
    (by rw [z1]; exact hob) he
    (by rw [ObstacleUpdateAll_offScreen_congr _ hz ob zt]; exact hoff)
  have hf2 : f ∈ (ObstacleUpdateAll hz).colliderList := by
    have hsl : (ObstacleUpdateAll.scroll hz).1.colliderList
        = (ObstacleUpdateAll.loop hz.obstacleList hz 0).1.colliderList := rfl
    unfold ObstacleUpdateAll
    simp only []
    split_ifs
    · rw [(ObstaclePush_spec _).2.2.2.2.1, hsl]
      exact hf
    · rw [hsl]
      exact hf
  have hf3 : f ∈ (PlayerUpdate (ObstacleUpdateAll hz)).colliderList := by
    by_cases hd : (ObstacleUpdateAll hz).player.isDead = true
    · have e : PlayerUpdate (ObstacleUpdateAll hz) = ObstacleUpdateAll hz := by
        unfold PlayerUpdate
        rw [if_pos hd]
      rw [e]
      exact hf2
    · by_cases hp : (ObstacleUpdateAll hz).state = FLAPPY_STATE_PLAYING
      · obtain ⟨gm, e, hl, -⟩ := PlayerUpdate_alive _ (by simpa using hd) hp
        rw [e]
        exact (ColliderArenaPush_mem gm _ _ _ _).2 f (by rw [hl]; exact hf2) h1
      · rw [PlayerUpdate_of_not_playing _ hp]
        exact hf2
  refine ⟨f, hf3, h1, h2, ?_⟩
  rw [h3, ObstacleUpdateAll_x_congr _ hz ob zt, ColliderInitRect_congr g hz zs]

/-- The first tick of the run resolves no touch: the arena holds the player,
the floor and the ceiling, and the player is in mid-air. The game after the
tick is the game as registered. -/
theorem gameFirstTick_eq :
    gameFirstTick = FlappyUpdate.register (fun _ => 0) 1000 3750 gameStarted := by
  have hsc : gameStarted.scale = 1 := rfl
  have hl : (FlappyUpdate.register (fun _ => 0) 1000 3750 gameStarted).colliderList =
      [Collider.mk 1 (ColliderInitRect gameStarted (92 + 4) (46 + 4) 8 4) false false
          COLOR_PLAYER COLOR_PLAYER (some OnTouchWorld_ptr),
       Collider.mk 0 (FlappyUpdate.floorRect gameStarted) false false
          COLOR_WORLD COLOR_WORLD none,
       Collider.mk 0 (FlappyUpdate.ceilingRect gameStarted) false false
          COLOR_WORLD COLOR_WORLD none] := rfl
  have hp : ColliderInitRect gameStarted (92 + 4) (46 + 4) 8 4 = ⟨96, 50, 8, 4⟩ := by
    have := ColliderInitRect_scale_one gameStarted hsc 96 50 8 4
    norm_num at this ⊢
    exact this
  have hfl : FlappyUpdate.floorRect gameStarted = ⟨0, 101, 200, 112⟩ := by
    unfold FlappyUpdate.floorRect
    have := ColliderInitRect_scale_one gameStarted hsc 0 101 200 112
    simp only [FLOOR_Y, FLOOR_H, WINDOW_W, WINDOW_H]
    norm_num at this ⊢
    exact this
  have hce : FlappyUpdate.ceilingRect gameStarted = ⟨0, -112, 200, 112⟩ := by
    unfold FlappyUpdate.ceilingRect
    have := ColliderInitRect_scale_one gameStarted hsc 0 (-112) 200 112
    simp only [WINDOW_W, WINDOW_H]
    norm_num at this ⊢
    exact this
  rw [hp, hfl, hce] at hl
  unfold gameFirstTick FlappyUpdate
  rw [ColliderArenaProcess_quiet]
  rw [hl]
  decide

/-- The second tick of the run is made at the time 3750. -/
theorem gameFirstTick_ticks :
    (FlappyUpdate.timers 1000 3770 gameFirstTick).ticks = 3750 := by
  rw [gameFirstTick_eq]
  have e1 : (FlappyUpdate.register (fun _ => 0) 1000 3750 gameStarted).timer
      = TimerAdvance 1000 3750 gameStarted.timer false := rfl
  have e2 : (FlappyUpdate.register (fun _ => 0) 1000 3750 gameStarted).paused = false := by
    decide
  have e3 : gameStarted.timer = { ticks := 0, prev := 0, now := 0, start := 0 } := rfl
  show TimerGetTicks (TimerAdvance 1000 3770
    (FlappyUpdate.register (fun _ => 0) 1000 3750 gameStarted).timer
    (FlappyUpdate.register (fun _ => 0) 1000 3750 gameStarted).paused) = 3750
  rw [e1, e2, e3]
  have e : (TimerAdvance 1000 3770
      (TimerAdvance 1000 3750 { ticks := 0, prev := 0, now := 0, start := 0 } false) false).ticks
      = 3750 := by
    simp [TimerAdvance]
    norm_num
  unfold TimerGetTicks
  rw [e]
  exact f2u32_natCast 3750

/-- The obstacle that the first tick of the run spawns: at the time 0, with the
gap centre 25. -/
theorem gameFirstTick_obstacle :
    ∃ ob : Obstacle, ob ∈ gameFirstTick.obstacleList ∧ ob.expired = false ∧ ob.ticks = 0 ∧
      ob.y = 25 := by
  rw [gameFirstTick_eq]
  obtain ⟨ob, hob⟩ : ∃ ob, (FlappyUpdate.register (fun _ => 0) 1000 3750 gameStarted).obstacleList
      = [ob] := ⟨_, rfl⟩
  have h1 : (FlappyUpdate.register (fun _ => 0) 1000 3750 gameStarted).obstacleList.map
      (fun o => o.expired) = [false] := by decide
  have h2 : (FlappyUpdate.register (fun _ => 0) 1000 3750 gameStarted).obstacleList.map
      (fun o => o.y) = [25] := rfl
  have h3 : (FlappyUpdate.register (fun _ => 0) 1000 3750 gameStarted).obstacleList.map
      (fun o => o.ticks) = [TimerGetTicks (TimerAdvance 1000 3750 gameStarted.timer false)] := rfl
  rw [hob] at h1 h2 h3
  simp only [List.map_cons, List.map_nil, List.cons.injEq, and_true] at h1 h2 h3
  refine ⟨ob, by rw [hob]; exact List.mem_singleton.mpr rfl, h1, ?_, h2⟩
  rw [h3]
  have e : (TimerAdvance 1000 3750 gameStarted.timer false).ticks = 0 := by
    have e3 : gameStarted.timer = { ticks := 0, prev := 0, now := 0, start := 0 } := rfl
    rw [e3]
    simp [TimerAdvance]
  unfold TimerGetTicks
  rw [e]
  exact f2u32_natCast 0

/-- The second tick of the run ends the game: the lower half of the obstacle,
at (96, 37, 16, 64), and the collider of the player, at (96, 50, 8, 4),
collide. -/
theorem gameCrashed_isOver :
    gameFirstTick.state = FLAPPY_STATE_PLAYING ∧ gameCrashed.isOver := by
  have hs : gameFirstTick.state = FLAPPY_STATE_PLAYING := by rw [gameFirstTick_eq]; decide
  have hd : gameFirstTick.player.isDead = false := by rw [gameFirstTick_eq]; decide
  have hsc : gameFirstTick.scale = 1 := by rw [gameFirstTick_eq]; decide
  have hx : gameFirstTick.player.x = 92 := by rw [gameFirstTick_eq]; rfl
  have hy : gameFirstTick.player.y = 46 := by rw [gameFirstTick_eq]; rfl
  have hfp : gameFirstTick.playerflapped = false := by rw [gameFirstTick_eq]; decide
  refine ⟨hs, ?_⟩
  obtain ⟨ob, hob, he, ht, hoy⟩ := gameFirstTick_obstacle
  have hX : ObstacleUpdateAll.x (FlappyUpdate.timers 1000 3770 gameFirstTick) ob = 96 := by
    rw [ObstacleUpdateAll_x_formula _ ob (by rw [ht]; exact Nat.zero_le _)
      (by rw [gameFirstTick_ticks]; decide), gameFirstTick_ticks, ht]
    norm_num [WINDOW_W, OB_W]
  have hoff : ObstacleUpdateAll.offScreen (FlappyUpdate.timers 1000 3770 gameFirstTick) ob
      = false := by
    unfold ObstacleUpdateAll.offScreen
    rw [hX]
    simp [OB_W]
    norm_num
  obtain ⟨f, hf, hfe, hfg, hfr⟩ := register_lower (fun _ => 0) 1000 3770 gameFirstTick hs ob hob
    he hoff
  obtain ⟨-, ⟨p, hp, hpe, hpt, hpc, hpg, hpr⟩⟩ :=
    register_playing (fun _ => 0) 1000 3770 gameFirstTick hs hd
  obtain ⟨r1, r2, r3⟩ := register_player (fun _ => 0) 1000 3770 gameFirstTick hs hd
  have hprect : p.rect = ⟨96, 50, 8, 4⟩ := by
    rw [hpr]
    unfold PlayerUpdate.rect
    rw [r2, r3, hx, hfp, hy]
    have := ColliderInitRect_scale_one _ (r1.trans hsc) 96 50 8 4
    norm_num at this ⊢
    exact this
  have hfrect : f.rect = ⟨96, 37, 16, 64⟩ := by
    rw [hfr, hX, hoy]
    have h37 : truncf ((25 : ℚ) + ((OB_GAP / 2 : Int) : ℚ)) = 37 := by
      have : ((25 : ℚ) + ((OB_GAP / 2 : Int) : ℚ)) = ((37 : Nat) : ℚ) := by
        norm_num [OB_GAP]
      rw [this]
      exact truncf_natCast 37
    rw [h37]
    have := ColliderInitRect_scale_one gameFirstTick hsc 96 37 16 64
    simp only [FLOOR_Y, FLOOR_H, WINDOW_H, OB_W]
    norm_num at this ⊢
    exact this
  unfold gameCrashed FlappyUpdate
  refine ColliderArenaProcess_isOver _ p f hp hf hpe hpt (by rw [hpc]; rfl) hfe ?_ ?_
  · rw [hfg, hpg]; decide
  · rw [hprect, hfrect]; decide

/-- A run from the initial state: `FlappyStartGame`, a first tick, which spawns
an obstacle, and a second tick 3750 ms later, when the obstacle has reached the
player. The game after the second tick is reachable and in the GameOver state,
with the player dead; the second tick starts in Playing and calls the collision
callback; and a tick from the initial state, which is the Title state, stays in
the Title state. -/
theorem FlappyUpdate_gameover_invariant_witness :
    Flappy.Reachable gameCrashed ∧
    gameCrashed.state = FLAPPY_STATE_GAMEOVER ∧
    gameCrashed.player.isDead = true ∧
    (gameFirstTick.state = FLAPPY_STATE_PLAYING ∧
      ∃ k, ArenaEvent.called k ∈
        (ColliderArenaProcess callbacks
          (FlappyUpdate.register (fun _ => 0) 1000 3770 gameFirstTick)).2) ∧
    (FlappyNew (fun _ => 0) 1 0).state = FLAPPY_STATE_TITLE ∧
    (FlappyUpdate (fun _ => 0) 1000 16 (FlappyNew (fun _ => 0) 1 0)).state
      = FLAPPY_STATE_TITLE :=
  have hr0 : Flappy.Reachable (FlappyNew (fun _ => 0) 1 0) := Flappy.Reachable.new _ 1 0
  have hr2 : Flappy.Reachable gameFirstTick :=
    Flappy.Reachable.update _ 1000 3750 gameStarted (Flappy.Reachable.start _ hr0)
  have hr3 : Flappy.Reachable gameCrashed := Flappy.Reachable.update _ 1000 3770 gameFirstTick hr2
  have hover : gameCrashed.state = FLAPPY_STATE_GAMEOVER := gameCrashed_isOver.2.2
  ⟨hr3, hover,
    (FlappyUpdate_gameover_invariant gameCrashed hr3).1 hover,
    (FlappyUpdate_gameover_invariant gameFirstTick hr2).2.1 (fun _ => 0) 1000 3770 hover
      (by rw [gameCrashed_isOver.1]; decide),
    rfl,
    (FlappyUpdate_gameover_invariant (FlappyNew (fun _ => 0) 1 0) hr0).2.2.1
      (fun _ => 0) 1000 16 rfl⟩

end FlappyNavi
